import Mathlib

/-!
# Strava-Sync: the synchronisation pipeline

A shallow embedding of `src/app/api/sync/route.js`, `src/lib/googleSheets.js`
and `src/lib/strava.js`.

* JavaScript numbers are IEEE-754 binary64 values, written `±m·2^e` with
  natural `m` and integer `e`; arithmetic rounds the exact result to nearest,
  ties to even.
* The spreadsheet is a list of titled sheets, each a list of rows of text
  cells.  Every call to the Sheets API or to Strava may fail; whether it does
  is part of the environment of a run.
* A run of `POST` returns the HTTP response, the spreadsheet after the run and
  the list of external calls it made, in order.

What is taken from outside the repository:

* `getSheetsClient` builds a client object without a network call; it is taken
  not to throw.
* A failed call to the Sheets API leaves the spreadsheet as it was.
* The fields of a request body and the text fields of an activity are strings
  or absent; an activity id is a non-negative integer.
* The Sheets API reports a blank cell as the empty string or leaves it out of
  the row.  Both read the same here: neither is truthy and neither equals the
  id string of an activity.
-/

namespace StravaSync

/-! ## JavaScript numbers -/

/-- A JavaScript Number: `NaN`, `±Infinity`, or the finite value
`(-1)^neg · m · 2^e`. -/
inductive JsNumber where
  | nan
  | inf (neg : Bool)
  | fin (neg : Bool) (m : Nat) (e : Int)
deriving DecidableEq

namespace JsNumber

/-- Quotient and remainder of `p/q` measured in units of `2^e`, with the divisor used. -/
def scaleDiv (p q : Nat) (e : Int) : Nat × Nat × Nat :=
  let n := if e < 0 then p * 2 ^ e.natAbs else p
  let d := if e < 0 then q else q * 2 ^ e.toNat
  (n / d, n % d, d)

/-- Helper for `ilog2`: halve until below two, at most `fuel` times. -/
def ilog2Aux : Nat → Nat → Nat
  | 0, _ => 0
  | fuel + 1, n => if n < 2 then 0 else ilog2Aux fuel (n / 2) + 1

/-- The floor of the binary logarithm (`0` at `0`). -/
def ilog2 (n : Nat) : Nat := ilog2Aux n n

/-- Round a quotient with remainder `r` out of `d` to nearest, ties to even. -/
def roundHalfEven (qt r d : Nat) : Nat :=
  if d < 2 * r ∨ (2 * r = d ∧ qt % 2 = 1) then qt + 1 else qt

/-- The binary64 value nearest to `±p/q` (`q > 0`): 53 significant bits,
ties to even, gradual underflow below `2^-1022`, overflow to infinity. -/
def roundDouble (neg : Bool) (p q : Nat) : JsNumber :=
  if p = 0 then fin neg 0 0 else
  let k : Int := (ilog2 p : Int) - (ilog2 q : Int)
  let e0 : Int := max (k - 52) (-1074)
  let e : Int := if (scaleDiv p q e0).1 < 2 ^ 52 ∧ -1074 < e0 then e0 - 1 else e0
  let s := scaleDiv p q e
  let m := roundHalfEven s.1 s.2.1 s.2.2
  if m = 2 ^ 53 then
    (if 971 < e + 1 then inf neg else fin neg (2 ^ 52) (e + 1))
  else
    (if 971 < e then inf neg else fin neg m e)

/-- The Number a decimal literal `p/q` denotes. -/
def ofRatio (p q : Nat) : JsNumber := roundDouble false p q

/-- The Number of a non-negative integer literal. -/
def ofNat (n : Nat) : JsNumber := roundDouble false n 1

/-- JavaScript `x * y`. -/
def mul : JsNumber → JsNumber → JsNumber
  | nan, _ => nan
  | _, nan => nan
  | inf a, inf b => inf (a != b)
  | inf a, fin b m _ => if m = 0 then nan else inf (a != b)
  | fin a m _, inf b => if m = 0 then nan else inf (a != b)
  | fin a m e, fin b n f =>
    let g : Int := e + f
    if g < 0 then roundDouble (a != b) (m * n) (2 ^ g.natAbs)
    else roundDouble (a != b) (m * n * 2 ^ g.toNat) 1

/-- JavaScript `x / y`. -/
def div : JsNumber → JsNumber → JsNumber
  | nan, _ => nan
  | _, nan => nan
  | inf _, inf _ => nan
  | inf a, fin b _ _ => inf (a != b)
  | fin a _ _, inf b => fin (a != b) 0 0
  | fin a m e, fin b n f =>
    if n = 0 then (if m = 0 then nan else inf (a != b)) else
    let g : Int := e - f
    if g < 0 then roundDouble (a != b) m (n * 2 ^ g.natAbs)
    else roundDouble (a != b) (m * 2 ^ g.toNat) n

/-- JavaScript truthiness of a Number: everything but `±0` and `NaN`. -/
def truthy : JsNumber → Bool
  | nan => false
  | inf _ => true
  | fin _ m _ => m != 0

/-- The integer `n` for which `n / 10^f` is nearest to `m·2^e`, the larger one on a tie. -/
def fixedDigits (m : Nat) (e : Int) (f : Nat) : Nat :=
  if e < 0 then (2 * (m * 10 ^ f) + 2 ^ e.natAbs) / (2 * 2 ^ e.natAbs)
  else m * 2 ^ e.toNat * 10 ^ f

/-- Whether `m·2^e < 10^21`. -/
def belowFixedLimit (m : Nat) (e : Int) : Bool :=
  if e < 0 then decide (m < 10 ^ 21 * 2 ^ e.natAbs) else decide (m * 2 ^ e.toNat < 10 ^ 21)

/-- The decimal numeral of `n` with at least `f + 1` digits and a point before the last `f`. -/
def fixedNotation (n f : Nat) : String :=
  let ds := (Nat.repr n).toList
  let padded := List.replicate (f + 1 - ds.length) '0' ++ ds
  let k := padded.length - f
  if f = 0 then String.mk padded
  else String.mk (padded.take k ++ '.' :: padded.drop k)

/-- The method `Number.prototype.toFixed(f)` (ECMA-262 21.1.3.3), `f ≤ 100`.  For a value
of magnitude at least `10^21` the standard writes the magnitude with the general
number-to-string conversion, which is the argument `general`. -/
def toFixed (general : JsNumber → String) (x : JsNumber) (f : Nat) : String :=
  match x with
  | nan => "NaN"
  | inf false => "Infinity"
  | inf true => "-Infinity"
  | fin neg m e =>
    (if neg && m != 0 then "-" else "") ++
      (if belowFixedLimit m e then fixedNotation (fixedDigits m e f) f
        else general (fin false m e))

end JsNumber

/-- A Number that is `NaN` or an integer: time values and epoch seconds. -/
inductive JsInt where
  | nan
  | val (n : Int)
deriving DecidableEq

namespace JsInt

/-- The expression `Math.floor(t / 1000)`.  For every time value (`|t| ≤ 8.64·10^15`) the
binary64 quotient has the floor of the exact quotient. -/
def floorDiv1000 : JsInt → JsInt
  | nan => nan
  | val t => val (Int.fdiv t 1000)

/-- JavaScript `x + k` for an integer `k`. -/
def add (x : JsInt) (k : Int) : JsInt :=
  match x with
  | nan => nan
  | val n => val (n + k)

/-- JavaScript truthiness: everything but `0` and `NaN`. -/
def truthy : JsInt → Bool
  | nan => false
  | val n => n != 0

end JsInt

/-! ## Dates: `new Date(string).getTime()` -/

/-- The parts of the JavaScript runtime and of the sheet that the repository
does not define: the time zone of the server, the parsing of date strings
outside the ECMAScript date-time format, the general number-to-string
conversion, and how the sheet shows a numeric cell. -/
structure Host where
  /-- Offset of local time from UTC, in milliseconds, at a local time value. -/
  localOffsetMs : Int → Int
  /-- What `Date.parse` gives for a string outside the ECMAScript format (`none` is `NaN`). -/
  legacyDateParse : String → Option Int
  /-- The conversion `Number::toString`. -/
  numberToString : JsNumber → String
  /-- The text a numeric cell reads back as. -/
  cellOfNumber : JsNumber → String

namespace IsoDate

/-- The value of a decimal digit. -/
def digit (c : Char) : Option Nat :=
  if c.isDigit then some (c.toNat - 48) else none

/-- The value of two decimal digits. -/
def digits2 (a b : Char) : Option Nat :=
  match digit a, digit b with
  | some x, some y => some (10 * x + y)
  | _, _ => none

/-- Whether `y` is a leap year of the proleptic Gregorian calendar. -/
def isLeap (y : Nat) : Bool :=
  (y % 4 == 0 && y % 100 != 0) || y % 400 == 0

/-- The number of days of month `m` (1..12) of year `y`. -/
def daysInMonth (y m : Nat) : Nat :=
  if m = 2 then (if isLeap y then 29 else 28)
  else if m = 4 ∨ m = 6 ∨ m = 9 ∨ m = 11 then 30 else 31

/-- Days from 1970-01-01 to the civil date `y-m-d`. -/
def daysFromCivil (y m d : Nat) : Int :=
  let y1 : Int := if m ≤ 2 then (y : Int) - 1 else (y : Int)
  let era : Int := Int.fdiv y1 400
  let yoe : Int := y1 - era * 400
  let mp : Int := if m ≤ 2 then (m : Int) + 9 else (m : Int) - 3
  let doy : Int := Int.fdiv (153 * mp + 2) 5 + (d : Int) - 1
  let doe : Int := yoe * 365 + Int.fdiv yoe 4 - Int.fdiv yoe 100 + doy
  era * 146097 + doe - 719468

/-- The date part `YYYY`, `YYYY-MM` or `YYYY-MM-DD`: year, month, day and the rest. -/
def datePart : List Char → Option (Nat × Nat × Nat × List Char)
  | y1 :: y2 :: y3 :: y4 :: rest =>
    match digits2 y1 y2, digits2 y3 y4 with
    | some hi, some lo =>
      let y := 100 * hi + lo
      match rest with
      | '-' :: m1 :: m2 :: rest1 =>
        match digits2 m1 m2 with
        | some m =>
          if m < 1 ∨ 12 < m then none else
          match rest1 with
          | '-' :: d1 :: d2 :: rest2 =>
            match digits2 d1 d2 with
            | some d => if d < 1 ∨ daysInMonth y m < d then none else some (y, m, d, rest2)
            | none => none
          | _ => some (y, m, 1, rest1)
        | none => none
      | _ => some (y, 1, 1, rest)
    | _, _ => none
  | _ => none

/-- The zone suffix: nothing (`none`: no offset written), `Z`, or `±HH:mm`, in minutes east. -/
def zonePart : List Char → Option (Option Int)
  | [] => some none
  | ['Z'] => some (some 0)
  | [sg, h1, h2, ':', m1, m2] =>
    match digits2 h1 h2, digits2 m1 m2 with
    | some h, some m =>
      if 23 < h ∨ 59 < m then none
      else if sg = '+' then some (some ((h : Int) * 60 + m))
      else if sg = '-' then some (some (-((h : Int) * 60 + m)))
      else none
    | _, _ => none
  | _ => none

/-- Seconds `:ss` and milliseconds `.sss`, both optional, with the rest. -/
def secondsPart : List Char → Option (Nat × Nat × List Char)
  | ':' :: s1 :: s2 :: rest =>
    match digits2 s1 s2 with
    | some s =>
      if 59 < s then none else
      match rest with
      | '.' :: f1 :: f2 :: f3 :: rest1 =>
        match digit f1, digits2 f2 f3 with
        | some a, some b => some (s, 100 * a + b, rest1)
        | _, _ => none
      | _ => some (s, 0, rest)
    | none => none
  | rest => some (0, 0, rest)

/-- The time part `THH:mm[:ss[.sss]][zone]`: milliseconds of the day and the zone. -/
def timePart : List Char → Option (Nat × Option Int)
  | 'T' :: h1 :: h2 :: ':' :: m1 :: m2 :: rest =>
    match digits2 h1 h2, digits2 m1 m2 with
    | some h, some m =>
      if 23 < h ∨ 59 < m then none else
      match secondsPart rest with
      | some (s, ms, rest1) =>
        match zonePart rest1 with
        | some z => some (h * 3600000 + m * 60000 + s * 1000 + ms, z)
        | none => none
      | none => none
    | _, _ => none
  | _ => none

/-- The time value of a string in the ECMAScript date-time format (ECMA-262
21.4.1.32) with a four-digit year and in-range fields; `none` for every other
string.  A date alone is UTC; a date and time without zone is local time. -/
def parse (localOffsetMs : Int → Int) (s : String) : Option Int :=
  match datePart s.toList with
  | some (y, m, d, []) => some (daysFromCivil y m d * 86400000)
  | some (y, m, d, rest) =>
    match timePart rest with
    | some (ms, some z) => some (daysFromCivil y m d * 86400000 + ms - z * 60000)
    | some (ms, none) =>
      let t := daysFromCivil y m d * 86400000 + ms
      some (t - localOffsetMs t)
    | none => none
  | none => none

end IsoDate

/-- The expression `new Date(s).getTime()` for a string `s`: the time value in milliseconds, or `NaN`. -/
def getTime (host : Host) (s : String) : JsInt :=
  match IsoDate.parse host.localOffsetMs s with
  | some t => JsInt.val t
  | none =>
    match host.legacyDateParse s with
    | some t => JsInt.val t
    | none => JsInt.nan

/-- The expression `Math.floor(new Date(s).getTime() / 1000)`. -/
def epochSeconds (host : Host) (s : String) : JsInt :=
  (getTime host s).floorDiv1000

/-! ## Activities and rows (`appendActivities`, googleSheets.js 206-229) -/

/-- The JSON value of a field that the code uses in arithmetic (`/` and `*`): the field is
absent from the object (reading it gives `undefined`), it is `null`, or it is a number. -/
inductive JsField where
  | absent
  | null
  | number (x : JsNumber)
deriving DecidableEq

/-- A raw activity of the Strava list endpoint.  `id` is the integer activity
id (below `2^53`, where `toString` is the decimal numeral).  The four fields that
`appendActivities` converts, `distance`, `moving_time`, `average_speed` and `max_speed`,
are field values; every other optional field is only tested for truthiness and is `none`
when the JSON has it absent or `null`, which are both falsy. -/
structure Activity where
  id : Nat
  name : Option String
  type : Option String
  distance : JsField
  moving_time : JsField
  start_date : String
  start_date_local : String
  description : Option String
  total_elevation_gain : Option JsNumber
  average_speed : JsField
  max_speed : JsField
  average_heartrate : Option JsNumber
  max_heartrate : Option JsNumber
  average_cadence : Option JsNumber
  average_watts : Option JsNumber
  max_watts : Option JsNumber
  suffer_score : Option JsNumber
  kilojoules : Option JsNumber
deriving DecidableEq

/-- A row of text cells. -/
abbrev Row := List String

/-- The conversion `ToNumber` that `/` and `*` apply to a field value: `undefined` is `NaN`,
`null` is `+0`, a number is itself. -/
def toNumber : JsField → JsNumber
  | .absent => JsNumber.nan
  | .null => JsNumber.ofNat 0
  | .number x => x

/-- The cell of a text value: an absent value leaves the cell empty. -/
def textCell (x : Option String) : String := x.getD ""

/-- The cell of the expression x || '' for a text field. -/
def textOrEmpty (x : Option String) : String :=
  match x with
  | some s => if s = "" then "" else s
  | none => ""

/-- The cell of the expression x || '' for a numeric field. -/
def numberOrEmpty (host : Host) (x : Option JsNumber) : String :=
  match x with
  | some n => if n.truthy then host.cellOfNumber n else ""
  | none => ""

/-- The cell of the expression x || 0 for a numeric field. -/
def numberOrZero (host : Host) (x : Option JsNumber) : String :=
  match x with
  | some n => if n.truthy then host.cellOfNumber n else host.cellOfNumber (JsNumber.ofNat 0)
  | none => host.cellOfNumber (JsNumber.ofNat 0)

/-- The expression `a.id.toString()`. -/
def idString (a : Activity) : String := toString a.id

/-- Column D: `(a.distance / 1000).toFixed(2)`. -/
def distanceCell (host : Host) (a : Activity) : String :=
  JsNumber.toFixed host.numberToString ((toNumber a.distance).div (JsNumber.ofNat 1000)) 2

/-- Column E: `(a.moving_time / 60).toFixed(2)`. -/
def movingTimeCell (host : Host) (a : Activity) : String :=
  JsNumber.toFixed host.numberToString ((toNumber a.moving_time).div (JsNumber.ofNat 60)) 2

/-- Columns I and J: `(speed * 3.6).toFixed(1)`. -/
def speedCell (host : Host) (speed : JsField) : String :=
  JsNumber.toFixed host.numberToString ((toNumber speed).mul (JsNumber.ofRatio 36 10)) 1

/-- The row `appendActivities` builds for one activity (columns A to Q). -/
def activityRow (host : Host) (a : Activity) : Row :=
  [ idString a,
    textCell a.name,
    textCell a.type,
    distanceCell host a,
    movingTimeCell host a,
    a.start_date_local,
    textOrEmpty a.description,
    numberOrZero host a.total_elevation_gain,
    speedCell host a.average_speed,
    speedCell host a.max_speed,
    numberOrEmpty host a.average_heartrate,
    numberOrEmpty host a.max_heartrate,
    numberOrEmpty host a.average_cadence,
    numberOrEmpty host a.average_watts,
    numberOrEmpty host a.max_watts,
    numberOrEmpty host a.suffer_score,
    numberOrEmpty host a.kilojoules ]

/-- The fixed header row `HEADERS` (googleSheets.js 81-86). -/
def HEADERS : Row :=
  [ "Activity ID", "Name", "Type", "Distance (km)", "Time (min)", "Date",
    "Description", "Elevation Gain (m)", "Avg Speed (km/h)", "Max Speed (km/h)",
    "Avg HR (bpm)", "Max HR (bpm)", "Avg Cadence", "Avg Watts", "Max Watts",
    "Suffer Score", "Kilojoules" ]

/-- The title of the metadata sheet. -/
def METADATA_SHEET_TITLE : String := "_Metadata"

/-! ## The spreadsheet -/

/-- One sheet: its title and its rows, row 1 first, up to the last row in use. -/
structure Sheet where
  title : String
  rows : List Row
deriving DecidableEq

/-- The spreadsheet: its sheets.  Sheet titles are unique in a real spreadsheet;
every operation below acts on the first sheet of a title. -/
abbrev Spreadsheet := List Sheet

/-- The sheet of a title. -/
def findSheet (ss : Spreadsheet) (title : String) : Option Sheet :=
  ss.find? (fun sh => sh.title == title)

/-- Replace the rows of the first sheet of a title. -/
def modifySheet (title : String) (f : List Row → List Row) : Spreadsheet → Spreadsheet
  | [] => []
  | sh :: rest =>
    if sh.title == title then { sh with rows := f sh.rows } :: rest
    else sh :: modifySheet title f rest

/-- The call `values.get` on the range from row `firstRow` down, columns A to the
`nCols`-th: the rows of the range, `none` when no sheet has the title. -/
def valuesGet (ss : Spreadsheet) (title : String) (firstRow nCols : Nat) : Option (List Row) :=
  match findSheet ss title with
  | some sh => some ((sh.rows.drop (firstRow - 1)).map (fun r => r.take nCols))
  | none => none

/-- Rows 2 and below of a sheet: the data rows. -/
def dataRows (ss : Spreadsheet) (title : String) : List Row :=
  match findSheet ss title with
  | some sh => sh.rows.drop 1
  | none => []

/-- The call `values.update` of `A1:Q1` with the header row: the first 17 cells of row 1 are
replaced. -/
def writeHeaderRow (rows : List Row) : List Row :=
  match rows with
  | [] => [HEADERS]
  | r :: rest => (HEADERS ++ r.drop 17) :: rest

/-- The call `values.append`: the new rows follow the last row in use. -/
def appendRows (new : List Row) (rows : List Row) : List Row := rows ++ new

/-! ## The environment of a run -/

/-- The query of the activity-list request (strava.js 53-59); `before` is `none` when the
request carries no such parameter. -/
structure ListParams where
  after : JsInt
  per_page : Nat
  before : Option JsInt
deriving DecidableEq

/-- An external call of a run: of a sync, or of `addUser` (the last three). -/
inductive Call where
  | usersRead
  | tokenRefresh (refreshToken : Option String)
  | latestDateRead (title : String)
  | activityList (accessToken : String) (params : ListParams)
  | idsRead (title : String)
  | headerWrite (title : String)
  | rowsAppend (title : String) (rows : List Row)
  | tokenWrite (row : Nat) (refreshToken : String)
  | sheetAdd (title : String)
  | metadataAppend (row : Row)
deriving DecidableEq

/-- An external call with whether it succeeded. -/
structure Event where
  call : Call
  ok : Bool
deriving DecidableEq

/-- What is outside the program during one run: the host, the Strava endpoints
(`none` is a failed call), and which calls to the Sheets API fail for a reason
outside the spreadsheet.  A call on a sheet that does not exist fails as well. -/
structure Env where
  host : Host
  tokenEndpoint : Option String → Option String
  activitiesEndpoint : String → ListParams → Option (List Activity)
  usersReadFails : Bool
  dateReadFails : Bool
  idsReadFails : Bool
  headerWriteFails : Bool
  appendFails : Bool
  tokenWriteFails : Bool
  addSheetFails : Bool
  metadataAppendFails : Bool

/-- A row of the metadata sheet as `getUsers` returns it; a field is `none` when the row is
too short to have the cell. -/
structure User where
  displayName : Option String
  stravaId : Option String
  refreshToken : Option String
deriving DecidableEq

/-- The JSON body of a sync request; a field is `none` when absent or `null`. -/
structure SyncRequest where
  displayName : Option String
  startDate : Option String
  endDate : Option String
deriving DecidableEq

/-- The HTTP response of the sync route. -/
inductive Response where
  | badRequest
  | notFound
  | success (count : Nat)
  | serverError
deriving DecidableEq

/-- The HTTP status of a response. -/
def Response.status : Response → Nat
  | .badRequest => 400
  | .notFound => 404
  | .success _ => 200
  | .serverError => 500

/-- The `error` field of a response body, `none` when the body has `success: true`. -/
def Response.error : Response → Option String
  | .badRequest => some "Display Name is required"
  | .notFound => some "User not found"
  | .success _ => none
  | .serverError => some "Failed to sync data"

/-- Whether the body has `success: true`. -/
def Response.isSuccess : Response → Bool
  | .success _ => true
  | _ => false

/-- The result of a run: the response, the spreadsheet after it, the calls made in order. -/
structure Outcome where
  response : Response
  store : Spreadsheet
  trace : List Event
deriving DecidableEq

/-- A text value when it is truthy (present and not the empty string). -/
def truthyText : Option String → Option String
  | some s => if s = "" then none else some s
  | none => none

/-! ## googleSheets.js -/

/-- The function `getUsers` (googleSheets.js 62-79): the rows of `_Metadata!A2:C` as users, the
empty list when the read fails. -/
def getUsers (env : Env) (ss : Spreadsheet) : List User × Event :=
  if env.usersReadFails then ([], ⟨.usersRead, false⟩) else
  match valuesGet ss METADATA_SHEET_TITLE 2 3 with
  | none => ([], ⟨.usersRead, false⟩)
  | some rows =>
    (rows.map (fun row => ⟨row[0]?, row[1]?, row[2]?⟩), ⟨.usersRead, true⟩)

/-- The function `updateSheetHeaders` (googleSheets.js 155-169): rewrite `A1:Q1`; a failure is
logged and swallowed. -/
def updateSheetHeaders (env : Env) (ss : Spreadsheet) (displayName : String) :
    Spreadsheet × Event :=
  if env.headerWriteFails then (ss, ⟨.headerWrite displayName, false⟩) else
  match findSheet ss displayName with
  | none => (ss, ⟨.headerWrite displayName, false⟩)
  | some _ => (modifySheet displayName writeHeaderRow ss, ⟨.headerWrite displayName, true⟩)

/-- The function `getActivityIds` (googleSheets.js 171-184): the set of the cells of `A2:A`
(`none` for a row without the cell), the empty set when the read fails. -/
def getActivityIds (env : Env) (ss : Spreadsheet) (sheetTitle : String) :
    List (Option String) × Event :=
  if env.idsReadFails then ([], ⟨.idsRead sheetTitle, false⟩) else
  match valuesGet ss sheetTitle 2 1 with
  | none => ([], ⟨.idsRead sheetTitle, false⟩)
  | some rows => (rows.map (fun row => row[0]?), ⟨.idsRead sheetTitle, true⟩)

/-- The function `getLatestActivityDate` (googleSheets.js 186-204): column F of the last row of
`A2:F`, `null` when there is no row or the read fails. -/
def getLatestActivityDate (env : Env) (ss : Spreadsheet) (sheetTitle : String) :
    Option String × Event :=
  if env.dateReadFails then (none, ⟨.latestDateRead sheetTitle, false⟩) else
  match valuesGet ss sheetTitle 2 6 with
  | none => (none, ⟨.latestDateRead sheetTitle, false⟩)
  | some rows =>
    match rows.getLast? with
    | none => (none, ⟨.latestDateRead sheetTitle, true⟩)
    | some lastRow => (lastRow[5]?, ⟨.latestDateRead sheetTitle, true⟩)

/-- The function `appendActivities` (googleSheets.js 206-239): nothing for an empty list;
otherwise one `values.append` of the converted rows.  The spreadsheet is `none` when the
call throws. -/
def appendActivities (env : Env) (ss : Spreadsheet) (sheetTitle : String)
    (activities : List Activity) : Option Spreadsheet × List Event :=
  if activities.length = 0 then (some ss, []) else
  let rows := activities.map (activityRow env.host)
  if env.appendFails then (none, [⟨.rowsAppend sheetTitle rows, false⟩]) else
  match findSheet ss sheetTitle with
  | none => (none, [⟨.rowsAppend sheetTitle rows, false⟩])
  | some _ => (some (modifySheet sheetTitle (appendRows rows) ss),
      [⟨.rowsAppend sheetTitle rows, true⟩])

/-- Apply `f` to row `i` (from 0) of a sheet; rows missing before it are blank. -/
def updateRow : Nat → (Row → Row) → List Row → List Row
  | 0, f, [] => [f []]
  | 0, f, r :: rest => f r :: rest
  | n + 1, f, [] => [] :: updateRow n f []
  | n + 1, f, r :: rest => r :: updateRow n f rest

/-- Write one value into column C of a row; cells A and B missing before it are blank. -/
def setCellC (v : String) (row : Row) : Row :=
  [row.getD 0 "", row.getD 1 "", v] ++ row.drop 3

/-- The result of `addUser`: whether it returned (`true`) or threw, the spreadsheet after it,
and the calls made. -/
structure LinkOutcome where
  returned : Bool
  store : Spreadsheet
  trace : List Event
deriving DecidableEq

/-- Step 4 of `addUser` (googleSheets.js 142-152): append the metadata row. -/
def saveMetadata (env : Env) (ss : Spreadsheet) (row : Row) (before : List Event) :
    LinkOutcome :=
  if env.metadataAppendFails then ⟨false, ss, before ++ [⟨.metadataAppend row, false⟩]⟩ else
  match findSheet ss METADATA_SHEET_TITLE with
  | none => ⟨false, ss, before ++ [⟨.metadataAppend row, false⟩]⟩
  | some _ =>
    ⟨true, modifySheet METADATA_SHEET_TITLE (appendRows [row]) ss,
      before ++ [⟨.metadataAppend row, true⟩]⟩

/-- The function `addUser` (googleSheets.js 88-153).  A known display name has the refresh
token of its row overwritten.  Otherwise a sheet of that title is added and given the header
row, unless a sheet of the title exists already (the `already exists` error is ignored, and
with it the header write is skipped); any other error of the two calls is thrown again; then
the metadata row is appended. -/
def addUser (env : Env) (ss : Spreadsheet) (displayName stravaId refreshToken : String) :
    LinkOutcome :=
  let u := getUsers env ss
  match u.1.findIdx? (fun user => user.displayName == some displayName) with
  | some existingUserIndex =>
    let write : Call := .tokenWrite (existingUserIndex + 2) refreshToken
    if env.tokenWriteFails then ⟨false, ss, [u.2, ⟨write, false⟩]⟩ else
    match findSheet ss METADATA_SHEET_TITLE with
    | none => ⟨false, ss, [u.2, ⟨write, false⟩]⟩
    | some _ =>
      ⟨true, modifySheet METADATA_SHEET_TITLE
          (updateRow (existingUserIndex + 1) (setCellC refreshToken)) ss,
        [u.2, ⟨write, true⟩]⟩
  | none =>
    let row : Row := [displayName, stravaId, refreshToken]
    if env.addSheetFails then ⟨false, ss, [u.2, ⟨.sheetAdd displayName, false⟩]⟩ else
    match findSheet ss displayName with
    | some _ => saveMetadata env ss row [u.2, ⟨.sheetAdd displayName, false⟩]
    | none =>
      let ss1 := ss ++ [{ title := displayName, rows := [] }]
      if env.headerWriteFails then
        ⟨false, ss1, [u.2, ⟨.sheetAdd displayName, true⟩, ⟨.headerWrite displayName, false⟩]⟩
      else
        saveMetadata env (modifySheet displayName writeHeaderRow ss1) row
          [u.2, ⟨.sheetAdd displayName, true⟩, ⟨.headerWrite displayName, true⟩]

/-! ## strava.js -/

/-- The function `refreshAccessToken` (strava.js 34-47): the access token, `none` when the call
throws. -/
def refreshAccessToken (env : Env) (refreshToken : Option String) : Option String × Event :=
  match env.tokenEndpoint refreshToken with
  | some token => (some token, ⟨.tokenRefresh refreshToken, true⟩)
  | none => (none, ⟨.tokenRefresh refreshToken, false⟩)

/-- The query `fetchActivities` builds (strava.js 53-59): `before` is set only when truthy. -/
def listParams (afterTimestamp : JsInt) (beforeTimestamp : Option JsInt) : ListParams :=
  { after := afterTimestamp
    per_page := 50
    before :=
      match beforeTimestamp with
      | some b => if b.truthy then some b else none
      | none => none }

/-- The function `fetchActivities` (strava.js 49-70): the page of activities, `none` when the call
throws. -/
def fetchActivities (env : Env) (accessToken : String) (afterTimestamp : JsInt)
    (beforeTimestamp : Option JsInt) : Option (List Activity) × Event :=
  let params := listParams afterTimestamp beforeTimestamp
  match env.activitiesEndpoint accessToken params with
  | some acts => (some acts, ⟨.activityList accessToken params, true⟩)
  | none => (none, ⟨.activityList accessToken params, false⟩)

/-! ## sync/route.js -/

/-- The fetch window: `after`, and `before` (`none` is `null`). -/
structure Window where
  after : JsInt
  before : Option JsInt
deriving DecidableEq

/-- Step 3 of `POST` (route.js 24-44): the fetch window and the store reads made for it. -/
def resolveWindow (env : Env) (ss : Spreadsheet) (req : SyncRequest) (displayName : String) :
    Window × List Event :=
  match truthyText req.startDate with
  | some startDate =>
    let after := epochSeconds env.host startDate
    match truthyText req.endDate with
    | some endDate => (⟨after, some ((epochSeconds env.host endDate).add 86400)⟩, [])
    | none => (⟨after, none⟩, [])
  | none =>
    let r := getLatestActivityDate env ss displayName
    match truthyText r.1 with
    | some lastDateIso => (⟨epochSeconds env.host lastDateIso, none⟩, [r.2])
    | none => (⟨JsInt.val 0, none⟩, [r.2])

/-- The comparator of the sort (route.js 50), as "does not come after": the difference of the
two `start_date` time values is not positive (a `NaN` difference counts as zero). -/
def startDateLE (host : Host) (a b : Activity) : Bool :=
  match getTime host a.start_date, getTime host b.start_date with
  | JsInt.val x, JsInt.val y => decide (x ≤ y)
  | _, _ => true

/-- The sort of route.js 50: `Array.prototype.sort` is stable; insertion sort is the stable sort
taken here. -/
def sortActivities (host : Host) (activities : List Activity) : List Activity :=
  activities.insertionSort (fun a b => startDateLE host a b = true)

/-- The filter of route.js 55: the activities whose id string is not in the set. -/
def filterNew (existingIds : List (Option String)) (activities : List Activity) :
    List Activity :=
  activities.filter (fun a => !decide (some (idString a) ∈ existingIds))

/-- Step 5 of `POST` (route.js 57-70): header repair, append, and the response. -/
def writeStep (env : Env) (ss : Spreadsheet) (displayName : String)
    (activities newActivities : List Activity) (before : List Event) : Outcome :=
  if 0 < newActivities.length ∨ 0 < activities.length then
    let h := updateSheetHeaders env ss displayName
    if 0 < newActivities.length then
      match appendActivities env h.1 displayName newActivities with
      | (some ss2, evs) => ⟨.success newActivities.length, ss2, before ++ h.2 :: evs⟩
      | (none, evs) => ⟨.serverError, h.1, before ++ h.2 :: evs⟩
    else ⟨.success newActivities.length, h.1, before ++ [h.2]⟩
  else ⟨.success newActivities.length, ss, before⟩

/-- Steps 4 to 5 of `POST` (route.js 46-70), from the resolved window on. -/
def fetchStep (env : Env) (ss : Spreadsheet) (displayName accessToken : String)
    (w : Window) (before : List Event) : Outcome :=
  let f := fetchActivities env accessToken w.after w.before
  match f.1 with
  | none => ⟨.serverError, ss, before ++ [f.2]⟩
  | some fetched =>
    let activities := sortActivities env.host fetched
    let ids := getActivityIds env ss displayName
    let newActivities := filterNew ids.1 activities
    writeStep env ss displayName activities newActivities (before ++ [f.2, ids.2])

/-- The handler `POST` of the sync route (route.js 5-76).  The body is `none` when
`request.json()` throws. -/
def POST (env : Env) (ss : Spreadsheet) (body : Option SyncRequest) : Outcome :=
  match body with
  | none => ⟨.serverError, ss, []⟩
  | some req =>
    match truthyText req.displayName with
    | none => ⟨.badRequest, ss, []⟩
    | some displayName =>
      let u := getUsers env ss
      match u.1.find? (fun user => user.displayName == some displayName) with
      | none => ⟨.notFound, ss, [u.2]⟩
      | some user =>
        let t := refreshAccessToken env user.refreshToken
        match t.1 with
        | none => ⟨.serverError, ss, [u.2, t.2]⟩
        | some accessToken =>
          let w := resolveWindow env ss req displayName
          fetchStep env ss displayName accessToken w.1 ([u.2, t.2] ++ w.2)

/-! ## Definitions used to state the properties -/

/-- The number a list of decimal digit characters denotes. -/
def decodeDigits (l : List Char) : Nat :=
  l.foldl (fun v c => 10 * v + (c.toNat - 48)) 0

/-- The Activity IDs in rows 2 and below of a user's table, the range `A2:A` that
`getActivityIds` reads: the non-empty cells of column A of the data rows.  Row 1 is not
counted; `tableIds` counts every row. -/
def activityIds (ss : Spreadsheet) (title : String) : List String :=
  (dataRows ss title).filterMap (fun r => truthyText r[0]?)

/-- A sequence of syncs, each in its own environment, from a spreadsheet. -/
def runSyncs (ss : Spreadsheet) : List (Env × SyncRequest) → Spreadsheet
  | [] => ss
  | run :: rest => runSyncs (POST run.1 ss (some run.2)).store rest

/-! ## Sample data -/

/-- A host in UTC; strings outside the ECMAScript date format do not parse. -/
def sampleHost : Host :=
  { localOffsetMs := fun _ => 0
    legacyDateParse := fun _ => none
    numberToString := fun _ => ""
    cellOfNumber := fun _ => "" }

/-- A 5 km run of 30 minutes at 2.5 m/s with the given id and start dates. -/
def sampleActivity (id : Nat) (start_date start_date_local : String) : Activity :=
  { id := id
    name := some "Morning Run"
    type := some "Run"
    distance := .number (JsNumber.ofNat 5000)
    moving_time := .number (JsNumber.ofNat 1800)
    start_date := start_date
    start_date_local := start_date_local
    description := none
    total_elevation_gain := none
    average_speed := .number (JsNumber.ofRatio 25 10)
    max_speed := .number (JsNumber.ofRatio 25 10)
    average_heartrate := none
    max_heartrate := none
    average_cadence := none
    average_watts := none
    max_watts := none
    suffer_score := none
    kilojoules := none }

/-- An environment in which every call succeeds and Strava returns the given page. -/
def sampleEnv (page : List Activity) : Env :=
  { host := sampleHost
    tokenEndpoint := fun _ => some "access-token"
    activitiesEndpoint := fun _ _ => some page
    usersReadFails := false
    dateReadFails := false
    idsReadFails := false
    headerWriteFails := false
    appendFails := false
    tokenWriteFails := false
    addSheetFails := false
    metadataAppendFails := false }

/-- The metadata sheet with the one user `ann`. -/
def sampleMetadata : Sheet :=
  { title := "_Metadata"
    rows := [["Display Name", "Strava ID", "RefreshToken"], ["ann", "1", "refresh-token"]] }

/-- A spreadsheet in which the table of `ann` has the header and no data row. -/
def sampleStoreEmpty : Spreadsheet :=
  [sampleMetadata, { title := "ann", rows := [HEADERS] }]

/-- A spreadsheet in which the table of `ann` has one data row, activity 7 of 2024-03-10. -/
def sampleStoreOne : Spreadsheet :=
  [sampleMetadata,
   { title := "ann"
     rows := [HEADERS, activityRow sampleHost
       (sampleActivity 7 "2024-03-10T07:00:00Z" "2024-03-10T08:00:00")] }]

/-- A sync request of `ann` without dates. -/
def sampleRequest : SyncRequest :=
  { displayName := some "ann", startDate := none, endDate := none }

/-- The kinds of external call. -/
inductive CallKind where
  | usersRead
  | tokenRefresh
  | latestDateRead
  | activityList
  | idsRead
  | headerWrite
  | rowsAppend
  | tokenWrite
  | sheetAdd
  | metadataAppend
deriving DecidableEq

/-- The kind of a call. -/
def Call.kind : Call → CallKind
  | .usersRead => .usersRead
  | .tokenRefresh _ => .tokenRefresh
  | .latestDateRead _ => .latestDateRead
  | .activityList _ _ => .activityList
  | .idsRead _ => .idsRead
  | .headerWrite _ => .headerWrite
  | .rowsAppend _ _ => .rowsAppend
  | .tokenWrite _ _ => .tokenWrite
  | .sheetAdd _ => .sheetAdd
  | .metadataAppend _ => .metadataAppend

/-- The order of time values: both are numbers and the first is not the later one. -/
def JsInt.le : JsInt → JsInt → Bool
  | .val x, .val y => decide (x ≤ y)
  | _, _ => false

/-- The Date column (F) of rows. -/
def dateColumn (rows : List Row) : List String :=
  rows.map (fun r => r.getD 5 "")

/-- The rows are in ascending order of the date in their Date column. -/
def ascendingDates (host : Host) (rows : List Row) : Prop :=
  ((dateColumn rows).map (getTime host)).Pairwise (fun x y => JsInt.le x y = true)

/-- A page of two activities of one athlete: a run in Tokyo (UTC+9) at 23:00 local time and,
ten hours later, a run in Honolulu (UTC-10) at 14:00 local time of the same calendar day. -/
def travelPage : List Activity :=
  [ sampleActivity 1 "2024-01-01T14:00:00Z" "2024-01-01T23:00:00Z",
    sampleActivity 2 "2024-01-02T00:00:00Z" "2024-01-01T14:00:00Z" ]

/-- The rows of the sheet of a title (no rows when there is no such sheet). -/
def sheetRows (ss : Spreadsheet) (title : String) : List Row :=
  match findSheet ss title with
  | some sh => sh.rows
  | none => []

/-- The text of the cell in row `i`, column `j` (both from 0) of a sheet; a missing cell is
blank. -/
def cellAt (ss : Spreadsheet) (title : String) (i j : Nat) : String :=
  ((sheetRows ss title).getD i []).getD j ""

/-- A spreadsheet in which `bob` has a sheet with an old header but no metadata row. -/
def sampleStoreOrphan : Spreadsheet :=
  [sampleMetadata, { title := "bob", rows := [["Id", "Title"]] }]

/-- The magnitude of a finite Number, as a rational (0 for `NaN` and the infinities). -/
def JsNumber.magnitude : JsNumber → ℚ
  | .fin _ m e => (m : ℚ) * (2 : ℚ) ^ e
  | _ => 0

/-- Whether a Number is below zero. -/
def JsNumber.isNegative : JsNumber → Bool
  | .fin neg m _ => neg && m != 0
  | .inf neg => neg
  | .nan => false

/-- The text `s` is `x` in fixed notation with exactly `f` decimals: a minus sign when `x` is
negative, then at least one digit, a point and `f` digits, and the decimal so written is a
multiple of `10^-f` nearest to the magnitude of `x`. -/
def IsFixedRendering (s : String) (x : JsNumber) (f : Nat) : Prop :=
  ∃ intPart frac : List Char,
    s.toList = (if x.isNegative then ['-'] else []) ++ (intPart ++ '.' :: frac) ∧
    frac.length = f ∧ intPart ≠ [] ∧
    (∀ c ∈ intPart ++ frac, c.isDigit = true) ∧
    |(decodeDigits (intPart ++ frac) : ℚ) / 10 ^ f - x.magnitude| ≤ 1 / (2 * 10 ^ f)

/-- Whether a Number is finite and of magnitude below `10^21`, where `toFixed` writes fixed
notation. -/
def JsNumber.inFixedRange : JsNumber → Bool
  | .fin _ m e => JsNumber.belowFixedLimit m e
  | _ => false

/-- The unit in the last place of a finite Number `±m·2^e` as written: `2^e` (0 otherwise). -/
def JsNumber.ulp : JsNumber → ℚ
  | .fin _ _ e => (2 : ℚ) ^ e
  | _ => 0

/-- A spreadsheet in which the table of `ann` has a header of an older schema and no data row. -/
def sampleStoreStale : Spreadsheet :=
  [sampleMetadata, { title := "ann", rows := [["Activity ID", "Name", "Type"]] }]

/-- The sample host with the conversion `Number::toString` given at the Number `10^21`, which
ECMA-262 6.1.6.1.20 writes `1e+21`. -/
def sampleHostLarge : Host :=
  { sampleHost with
    numberToString := fun x => if x = JsNumber.ofNat (10 ^ 21) then "1e+21" else "" }

/-- The sample activity with a distance of `1e24` metres. -/
def sampleActivityLarge : Activity :=
  { sampleActivity 7 "2024-03-10T07:00:00Z" "2024-03-10T08:00:00" with
    distance := .number (JsNumber.ofNat (10 ^ 24)) }

/-- A sync request of `ann` for the window 1969-12-01 to 1969-12-31. -/
def sampleRequest1969 : SyncRequest :=
  { displayName := some "ann", startDate := some "1969-12-01", endDate := some "1969-12-31" }

/-- Whether the first of the rows is a header row: its A cell is the label `Activity ID`. -/
def startsWithHeader : List Row → Bool
  | r :: _ => r[0]? == some "Activity ID"
  | [] => false

/-- The Activity IDs held by the rows of a table: the non-empty A cells of every row, the
first row included unless it is a header row. -/
def idsOfRows : List Row → List String
  | [] => []
  | r :: rest =>
    (if r[0]? = some "Activity ID" then [] else (truthyText r[0]?).toList)
      ++ rest.filterMap (fun r => truthyText r[0]?)

/-- Whether row 1 of the sheet of a title is a header row. -/
def headerInPlace (ss : Spreadsheet) (title : String) : Bool :=
  startsWithHeader (sheetRows ss title)

/-- The Activity IDs of a user's table, over every row in use: row 1 counts unless it is a
header row. -/
def tableIds (ss : Spreadsheet) (title : String) : List String :=
  idsOfRows (sheetRows ss title)

/-- A spreadsheet in which the sheet of `ann` exists and has no row at all, not even a
header. -/
def sampleStoreBlank : Spreadsheet :=
  [sampleMetadata, { title := "ann", rows := [] }]

end StravaSync

/-! # Theorems -/

namespace StravaSync

/-! ## Decimal numerals -/

theorem decodeDigits_snoc (l : List Char) (c : Char) :
    decodeDigits (l ++ [c]) = 10 * decodeDigits l + (c.toNat - 48) := by
  simp [decodeDigits, List.foldl_append]

theorem digitChar_toNat (k : Nat) (hk : k < 10) : (Nat.digitChar k).toNat - 48 = k := by
  interval_cases k <;> rfl

theorem toDigitsCore_acc (fuel : Nat) : ∀ (n : Nat) (ds : List Char),
    Nat.toDigitsCore 10 fuel n ds = Nat.toDigitsCore 10 fuel n [] ++ ds := by
  induction fuel with
  | zero => intro n ds; simp [Nat.toDigitsCore]
  | succ f ih =>
    intro n ds
    simp only [Nat.toDigitsCore]
    split
    · simp
    · rw [ih (n / 10) (Nat.digitChar (n % 10) :: ds), ih (n / 10) [Nat.digitChar (n % 10)]]
      simp

theorem decodeDigits_toDigitsCore (fuel : Nat) : ∀ n : Nat, n < fuel →
    decodeDigits (Nat.toDigitsCore 10 fuel n []) = n := by
  induction fuel with
  | zero => intro n hn; omega
  | succ f ih =>
    intro n hn
    simp only [Nat.toDigitsCore]
    split
    · rename_i h0
      have : n % 10 = n := by omega
      have hd := decodeDigits_snoc [] (Nat.digitChar (n % 10))
      simp only [List.nil_append] at hd
      rw [hd, digitChar_toNat _ (Nat.mod_lt _ (by decide))]
      simp [decodeDigits, this]
    · rename_i h0
      rw [toDigitsCore_acc, decodeDigits_snoc, ih (n / 10) (by omega),
        digitChar_toNat _ (Nat.mod_lt _ (by decide))]
      omega

theorem decodeDigits_repr (n : Nat) : decodeDigits (Nat.repr n).toList = n := by
  simp only [Nat.repr, Nat.toDigits, List.asString]
  exact decodeDigits_toDigitsCore (n + 1) n (Nat.lt_succ_self n)

theorem natRepr_injective : Function.Injective Nat.repr := by
  intro a b h
  have h2 : decodeDigits (Nat.repr a).toList = decodeDigits (Nat.repr b).toList := by rw [h]
  rwa [decodeDigits_repr, decodeDigits_repr] at h2

theorem toDigitsCore_ne_nil (fuel n : Nat) : Nat.toDigitsCore 10 (fuel + 1) n [] ≠ [] := by
  simp only [Nat.toDigitsCore]
  split
  · simp
  · rw [toDigitsCore_acc]; simp

theorem natRepr_ne_empty (n : Nat) : Nat.repr n ≠ "" := by
  intro h
  have h2 := congrArg String.toList h
  simp only [Nat.repr, Nat.toDigits, List.asString] at h2
  exact toDigitsCore_ne_nil n n h2

theorem idString_ne_empty (a : Activity) : idString a ≠ "" := natRepr_ne_empty a.id

theorem idString_inj {a b : Activity} (h : idString a = idString b) : a.id = b.id :=
  natRepr_injective h

/-! ## The spreadsheet -/

theorem findSheet_modifySheet_same (title : String) (f : List Row → List Row)
    (ss : Spreadsheet) :
    findSheet (modifySheet title f ss) title
      = (findSheet ss title).map (fun sh => { sh with rows := f sh.rows }) := by
  induction ss with
  | nil => rfl
  | cons sh rest ih =>
    by_cases h : sh.title = title
    · simp [modifySheet, findSheet, h]
    · have hb : (sh.title == title) = false := by simpa using h
      simp only [findSheet] at ih
      simp [modifySheet, findSheet, hb, List.find?_cons, ih]

theorem findSheet_modifySheet_other (title other : String) (f : List Row → List Row)
    (ss : Spreadsheet) (hne : other ≠ title) :
    findSheet (modifySheet title f ss) other = findSheet ss other := by
  induction ss with
  | nil => rfl
  | cons sh rest ih =>
    by_cases h : sh.title = title
    · have hb : (title == other) = false := by
        simpa using fun e : title = other => hne e.symm
      simp [modifySheet, findSheet, h, hb, List.find?_cons]
    · have hb : (sh.title == title) = false := by simpa using h
      simp only [findSheet] at ih
      by_cases h3 : (sh.title == other) = true
      · simp [modifySheet, findSheet, hb, h3, List.find?_cons]
      · simp [modifySheet, findSheet, hb, h3, List.find?_cons, ih]

theorem dataRows_modifySheet_other (title other : String) (f : List Row → List Row)
    (ss : Spreadsheet) (hne : other ≠ title) :
    dataRows (modifySheet title f ss) other = dataRows ss other := by
  simp [dataRows, findSheet_modifySheet_other title other f ss hne]

theorem dataRows_modifySheet_same (title : String) (f : List Row → List Row)
    (ss : Spreadsheet) (sh : Sheet) (h : findSheet ss title = some sh) :
    dataRows (modifySheet title f ss) title = (f sh.rows).drop 1 := by
  simp [dataRows, findSheet_modifySheet_same, h]

theorem dataRows_of_findSheet (ss : Spreadsheet) (title : String) (sh : Sheet)
    (h : findSheet ss title = some sh) : dataRows ss title = sh.rows.drop 1 := by
  simp [dataRows, h]

theorem writeHeaderRow_tail (rows : List Row) : (writeHeaderRow rows).tail = rows.tail := by
  cases rows <;> simp [writeHeaderRow]

theorem dataRows_updateSheetHeaders (env : Env) (ss : Spreadsheet) (displayName title : String) :
    dataRows (updateSheetHeaders env ss displayName).1 title = dataRows ss title := by
  unfold updateSheetHeaders
  split
  · rfl
  · split
    · rfl
    · rename_i sh hsh
      by_cases ht : title = displayName
      · subst ht
        simp [dataRows_modifySheet_same _ _ _ sh hsh, dataRows_of_findSheet _ _ sh hsh,
          writeHeaderRow_tail]
      · simp [dataRows_modifySheet_other _ _ _ _ ht]

theorem findSheet_updateSheetHeaders_isSome (env : Env) (ss : Spreadsheet)
    (displayName title : String) :
    (findSheet (updateSheetHeaders env ss displayName).1 title).isSome
      = (findSheet ss title).isSome := by
  unfold updateSheetHeaders
  split
  · rfl
  · split
    · rfl
    · by_cases ht : title = displayName
      · subst ht; simp [findSheet_modifySheet_same]
      · simp [findSheet_modifySheet_other _ _ _ _ ht]

/-! ## Sorting, filtering and the reads of a sync -/

theorem sortActivities_perm (host : Host) (l : List Activity) :
    (sortActivities host l).Perm l :=
  List.perm_insertionSort _ l

theorem mem_filterNew (ids : List (Option String)) (l : List Activity) (a : Activity) :
    a ∈ filterNew ids l ↔ a ∈ l ∧ some (idString a) ∉ ids := by
  simp [filterNew]

theorem filterNew_sublist (ids : List (Option String)) (l : List Activity) :
    (filterNew ids l).Sublist l :=
  List.filter_sublist l

theorem truthyText_eq_some {x : Option String} {s : String} (h : truthyText x = some s) :
    x = some s ∧ s ≠ "" := by
  cases x with
  | none => simp [truthyText] at h
  | some t =>
    by_cases ht : t = ""
    · simp [truthyText, ht] at h
    · simp only [truthyText, ht, if_false, Option.some.injEq] at h
      subst h
      exact ⟨rfl, ht⟩

theorem truthyText_idString (a : Activity) : truthyText (some (idString a)) = some (idString a) := by
  simp [truthyText, idString_ne_empty]

theorem take_one_head (r : Row) : (r.take 1)[0]? = r[0]? := by
  cases r <;> simp

theorem getActivityIds_of_ok (env : Env) (ss : Spreadsheet) (title : String)
    (hf : env.idsReadFails = false) :
    (getActivityIds env ss title).1 = (dataRows ss title).map (fun r => r[0]?) := by
  unfold getActivityIds valuesGet dataRows
  cases h : findSheet ss title with
  | none => simp [hf]
  | some sh =>
    have hfun : ((fun row : Row => row[0]?) ∘ fun r => List.take 1 r) = fun row => row[0]? := by
      funext r; simp [take_one_head]
    simp [hf, hfun]

theorem mem_activityIds_mem_read (env : Env) (ss : Spreadsheet) (title s : String)
    (hf : env.idsReadFails = false) (h : s ∈ activityIds ss title) :
    some s ∈ (getActivityIds env ss title).1 := by
  rw [getActivityIds_of_ok env ss title hf]
  simp only [activityIds, List.mem_filterMap] at h
  obtain ⟨r, hr, hs⟩ := h
  exact List.mem_map.mpr ⟨r, hr, (truthyText_eq_some hs).1⟩

theorem activityIds_rows (host : Host) (acts : List Activity) :
    (acts.map (activityRow host)).filterMap (fun r => truthyText r[0]?) = acts.map idString := by
  induction acts with
  | nil => rfl
  | cons a rest ih =>
    simp only [List.map_cons, List.filterMap_cons]
    have : truthyText (activityRow host a)[0]? = some (idString a) := by
      simp [activityRow, truthyText, idString_ne_empty]
    rw [this, ih]

theorem filterMap_drop_append_sublist {α β : Type} (g : α → Option β) (rows new : List α) :
    (((rows ++ new).drop 1).filterMap g).Sublist
      ((rows.drop 1).filterMap g ++ new.filterMap g) := by
  cases rows with
  | nil =>
    simp only [List.nil_append, List.drop_nil, List.filterMap_nil]
    exact (List.drop_sublist 1 new).filterMap g
  | cons r rs => simp

theorem activityIds_updateSheetHeaders (env : Env) (ss : Spreadsheet)
    (displayName title : String) :
    activityIds (updateSheetHeaders env ss displayName).1 title = activityIds ss title := by
  simp [activityIds, dataRows_updateSheetHeaders]

theorem activityIds_appendActivities (env : Env) (ss ss2 : Spreadsheet) (d title : String)
    (acts : List Activity) (evs : List Event)
    (h : appendActivities env ss d acts = (some ss2, evs)) :
    (activityIds ss2 title).Sublist
      (activityIds ss title ++ if title = d then acts.map idString else []) := by
  unfold appendActivities at h
  split at h
  · simp only [Prod.mk.injEq, Option.some.injEq] at h
    rw [← h.1]
    exact List.sublist_append_left _ _
  · split at h
    · simp at h
    · split at h
      · simp at h
      · rename_i sh hsh
        simp only [Prod.mk.injEq, Option.some.injEq] at h
        rw [← h.1]
        by_cases ht : title = d
        · subst ht
          simp only [activityIds, dataRows_modifySheet_same _ _ _ sh hsh,
            dataRows_of_findSheet _ _ sh hsh, appendRows, if_true]
          rw [← activityIds_rows env.host acts]
          exact filterMap_drop_append_sublist _ _ _
        · simp [activityIds, dataRows_modifySheet_other _ _ _ _ ht, ht]

theorem writeStep_nodup (env : Env) (ss : Spreadsheet) (d title : String)
    (acts newActs : List Activity) (before : List Event)
    (hnew : (newActs.map idString).Nodup)
    (hdisj : ∀ a ∈ newActs, idString a ∉ activityIds ss d)
    (h : (activityIds ss title).Nodup) :
    (activityIds (writeStep env ss d acts newActs before).store title).Nodup := by
  unfold writeStep
  simp only
  split
  · split
    · cases happ : appendActivities env (updateSheetHeaders env ss d).1 d newActs with
      | mk o evs =>
        cases o with
        | none => simpa [activityIds_updateSheetHeaders] using h
        | some ss2 =>
          have hsub := activityIds_appendActivities env _ ss2 d title newActs evs happ
          refine List.Nodup.sublist hsub ?_
          rw [activityIds_updateSheetHeaders]
          by_cases ht : title = d
          · subst ht
            simp only [if_true]
            refine List.Nodup.append h hnew ?_
            intro s hs hs2
            obtain ⟨a, ha, rfl⟩ := List.mem_map.mp hs2
            exact hdisj a ha hs
          · simpa [ht] using h
    · simpa [activityIds_updateSheetHeaders] using h
  · exact h

theorem filterNew_nodup (host : Host) (ids : List (Option String)) (fetched : List Activity)
    (h : (fetched.map (fun a => a.id)).Nodup) :
    ((filterNew ids (sortActivities host fetched)).map idString).Nodup := by
  have h1 : ((sortActivities host fetched).map (fun a => a.id)).Nodup :=
    ((sortActivities_perm host fetched).map _).nodup_iff.mpr h
  have h2 : ((filterNew ids (sortActivities host fetched)).map (fun a => a.id)).Nodup :=
    List.Nodup.sublist ((filterNew_sublist ids _).map _) h1
  have h3 := List.Nodup.map natRepr_injective h2
  simpa [List.map_map, Function.comp, idString] using h3

theorem fetchStep_nodup (env : Env) (ss : Spreadsheet) (d tok title : String) (w : Window)
    (before : List Event) (hread : env.idsReadFails = false)
    (hbatch : ∀ t p acts, env.activitiesEndpoint t p = some acts →
      (acts.map (fun a => a.id)).Nodup)
    (h : (activityIds ss title).Nodup) :
    (activityIds (fetchStep env ss d tok w before).store title).Nodup := by
  unfold fetchStep
  simp only
  cases hf : (fetchActivities env tok w.after w.before).1 with
  | none => exact h
  | some fetched =>
    simp only
    have hend : env.activitiesEndpoint tok (listParams w.after w.before) = some fetched := by
      unfold fetchActivities at hf
      simp only at hf
      split at hf
      · rename_i acts hacts
        simp only [Option.some.injEq] at hf
        rw [hacts, hf]
      · simp at hf
    refine writeStep_nodup env ss d title _ _ _ (filterNew_nodup _ _ _ (hbatch _ _ _ hend)) ?_ h
    intro a ha hmem
    exact ((mem_filterNew _ _ a).mp ha).2 (mem_activityIds_mem_read env ss d _ hread hmem)

theorem POST_nodup (env : Env) (ss : Spreadsheet) (body : Option SyncRequest) (title : String)
    (hread : env.idsReadFails = false)
    (hbatch : ∀ t p acts, env.activitiesEndpoint t p = some acts →
      (acts.map (fun a => a.id)).Nodup)
    (h : (activityIds ss title).Nodup) :
    (activityIds (POST env ss body).store title).Nodup := by
  unfold POST
  split
  · exact h
  · split
    · exact h
    · simp only
      split
      · exact h
      · split
        · exact h
        · exact fetchStep_nodup env ss _ _ title _ _ hread hbatch h

/-! ## The calls of a run -/

theorem getUsers_call (env : Env) (ss : Spreadsheet) : (getUsers env ss).2.call = .usersRead := by
  unfold getUsers
  split
  · rfl
  · split <;> rfl

theorem refreshAccessToken_event (env : Env) (rt : Option String) :
    (refreshAccessToken env rt).2 = ⟨.tokenRefresh rt, (refreshAccessToken env rt).1.isSome⟩ := by
  unfold refreshAccessToken
  split <;> simp [*]

theorem getLatestActivityDate_call (env : Env) (ss : Spreadsheet) (title : String) :
    (getLatestActivityDate env ss title).2.call = .latestDateRead title := by
  unfold getLatestActivityDate
  split
  · rfl
  · split
    · rfl
    · split <;> rfl

theorem resolveWindow_calls (env : Env) (ss : Spreadsheet) (req : SyncRequest) (d : String) :
    ∀ e ∈ (resolveWindow env ss req d).2, e.call = .latestDateRead d := by
  unfold resolveWindow
  split
  · split <;> simp
  · simp only
    split <;> simp [getLatestActivityDate_call]

theorem fetchActivities_event (env : Env) (tok : String) (a : JsInt) (b : Option JsInt) :
    (fetchActivities env tok a b).2
      = ⟨.activityList tok (listParams a b), (fetchActivities env tok a b).1.isSome⟩ := by
  unfold fetchActivities
  simp only
  split <;> simp [*]

theorem fetchActivities_eq_endpoint (env : Env) (tok : String) (a : JsInt) (b : Option JsInt) :
    (fetchActivities env tok a b).1 = env.activitiesEndpoint tok (listParams a b) := by
  unfold fetchActivities
  simp only
  split <;> simp [*]

theorem getActivityIds_call (env : Env) (ss : Spreadsheet) (title : String) :
    (getActivityIds env ss title).2.call = .idsRead title := by
  unfold getActivityIds
  split
  · rfl
  · split <;> rfl

theorem updateSheetHeaders_call (env : Env) (ss : Spreadsheet) (title : String) :
    (updateSheetHeaders env ss title).2.call = .headerWrite title := by
  unfold updateSheetHeaders
  split
  · rfl
  · split <;> rfl

theorem prefix_calls (env : Env) (ss : Spreadsheet) (req : SyncRequest) (d : String)
    (rt : Option String) :
    ∀ e ∈ [(getUsers env ss).2, (refreshAccessToken env rt).2] ++ (resolveWindow env ss req d).2,
      e.call.kind = .usersRead ∨ e.call.kind = .tokenRefresh ∨ e.call.kind = .latestDateRead := by
  intro e he
  simp only [List.cons_append, List.nil_append, List.mem_cons] at he
  rcases he with rfl | rfl | he
  · simp [getUsers_call, Call.kind]
  · rw [refreshAccessToken_event]; simp [Call.kind]
  · rw [resolveWindow_calls env ss req d e he]; simp [Call.kind]

theorem filterNew_eq_nil (ids : List (Option String)) (l : List Activity)
    (h : ∀ a ∈ l, some (idString a) ∈ ids) : filterNew ids l = [] := by
  simp only [filterNew, List.filter_eq_nil_iff]
  intro a ha
  simp [h a ha]

theorem writeStep_nil (env : Env) (ss : Spreadsheet) (d : String) (acts : List Activity)
    (before : List Event) :
    (writeStep env ss d acts [] before).response = .success 0 ∧
    (∀ title, dataRows (writeStep env ss d acts [] before).store title = dataRows ss title) ∧
    ∃ rest, (writeStep env ss d acts [] before).trace = before ++ rest ∧
      ∀ e ∈ rest, e.call.kind = .headerWrite := by
  unfold writeStep
  by_cases hacts : 0 < acts.length
  · simp only [List.length_nil, Nat.lt_irrefl, false_or, hacts, if_true, if_false]
    refine ⟨trivial, fun title => dataRows_updateSheetHeaders env ss d title, _, rfl, ?_⟩
    intro e he
    simp only [List.mem_singleton] at he
    subst he
    simp [updateSheetHeaders_call, Call.kind]
  · simp only [List.length_nil, Nat.lt_irrefl, false_or, hacts, if_false]
    exact ⟨trivial, fun _ => trivial, [], by simp, by simp⟩

theorem fetchStep_known (env : Env) (ss : Spreadsheet) (d tok : String) (w : Window)
    (before : List Event) (acts : List Activity)
    (hf : env.activitiesEndpoint tok (listParams w.after w.before) = some acts)
    (hread : env.idsReadFails = false)
    (hknown : ∀ a ∈ acts, idString a ∈ activityIds ss d) :
    (fetchStep env ss d tok w before).response = .success 0 ∧
    (∀ title, dataRows (fetchStep env ss d tok w before).store title = dataRows ss title) ∧
    ∃ rest, (fetchStep env ss d tok w before).trace = before ++ rest ∧
      ∀ e ∈ rest, e.call.kind ≠ .rowsAppend := by
  have hf1 : (fetchActivities env tok w.after w.before).1 = some acts := by
    rw [fetchActivities_eq_endpoint, hf]
  have hnil : filterNew (getActivityIds env ss d).1 (sortActivities env.host acts) = [] := by
    apply filterNew_eq_nil
    intro a ha
    exact mem_activityIds_mem_read env ss d _ hread
      (hknown a ((sortActivities_perm env.host acts).mem_iff.mp ha))
  unfold fetchStep
  simp only [hf1, hnil]
  obtain ⟨h1, h2, rest, h3, h4⟩ := writeStep_nil env ss d (sortActivities env.host acts)
    (before ++ [(fetchActivities env tok w.after w.before).2, (getActivityIds env ss d).2])
  refine ⟨h1, h2, _, by rw [h3, List.append_assoc], ?_⟩
  intro e he
  simp only [List.cons_append, List.nil_append, List.mem_cons] at he
  rcases he with rfl | rfl | he
  · rw [fetchActivities_event]; simp [Call.kind]
  · simp [getActivityIds_call, Call.kind]
  · simp [h4 e he]

/-! ## A sync whose page holds only ids that were read -/

theorem POST_some (env : Env) (ss : Spreadsheet) (req : SyncRequest) (d : String)
    (hd : truthyText req.displayName = some d) :
    POST env ss (some req) =
      match (getUsers env ss).1.find? (fun user => user.displayName == some d) with
      | none => ⟨.notFound, ss, [(getUsers env ss).2]⟩
      | some user =>
        match (refreshAccessToken env user.refreshToken).1 with
        | none => ⟨.serverError, ss,
            [(getUsers env ss).2, (refreshAccessToken env user.refreshToken).2]⟩
        | some accessToken =>
          fetchStep env ss d accessToken (resolveWindow env ss req d).1
            ([(getUsers env ss).2, (refreshAccessToken env user.refreshToken).2]
              ++ (resolveWindow env ss req d).2) := by
  simp only [POST, hd]

theorem POST_known (env : Env) (ss : Spreadsheet) (req : SyncRequest) (d : String)
    (hd : truthyText req.displayName = some d)
    (hread : env.idsReadFails = false)
    (hfetched : ∃ e ∈ (POST env ss (some req)).trace,
      e.call.kind = .activityList ∧ e.ok = true)
    (hknown : ∀ tok params acts, env.activitiesEndpoint tok params = some acts →
      ∀ a ∈ acts, idString a ∈ activityIds ss d) :
    (POST env ss (some req)).response = .success 0 ∧
    (∀ title, dataRows (POST env ss (some req)).store title = dataRows ss title) ∧
    ∀ e ∈ (POST env ss (some req)).trace, e.call.kind ≠ .rowsAppend := by
  rw [POST_some env ss req d hd] at hfetched ⊢
  cases hu : (getUsers env ss).1.find? (fun user => user.displayName == some d) with
  | none =>
    exfalso
    simp only [hu] at hfetched
    obtain ⟨e, he, h1, _⟩ := hfetched
    simp only [List.mem_singleton] at he
    subst he
    simp [getUsers_call, Call.kind] at h1
  | some user =>
    simp only [hu] at hfetched ⊢
    cases ht : (refreshAccessToken env user.refreshToken).1 with
    | none =>
      exfalso
      simp only [ht] at hfetched
      obtain ⟨e, he, h1, _⟩ := hfetched
      simp only [List.mem_cons, List.mem_singleton, List.not_mem_nil, or_false] at he
      rcases he with rfl | rfl
      · simp [getUsers_call, Call.kind] at h1
      · rw [refreshAccessToken_event] at h1
        simp [Call.kind] at h1
    | some tok =>
      simp only [ht] at hfetched ⊢
      have hpre := prefix_calls env ss req d user.refreshToken
      cases hf : env.activitiesEndpoint tok
          (listParams (resolveWindow env ss req d).1.after
            (resolveWindow env ss req d).1.before) with
      | none =>
        exfalso
        obtain ⟨e, he, h1, h2⟩ := hfetched
        unfold fetchStep at he
        simp only [fetchActivities_eq_endpoint, hf, List.mem_append, List.mem_singleton] at he
        rcases he with he | rfl
        · rcases hpre e (List.mem_append.mpr he) with h | h | h <;> simp [h] at h1
        · rw [fetchActivities_event, fetchActivities_eq_endpoint, hf] at h2
          exact Bool.false_ne_true h2
      | some acts =>
        obtain ⟨h1, h2, rest, h3, h4⟩ := fetchStep_known env ss d tok
          (resolveWindow env ss req d).1
          ([(getUsers env ss).2, (refreshAccessToken env user.refreshToken).2]
            ++ (resolveWindow env ss req d).2) acts hf hread (hknown _ _ _ hf)
        refine ⟨h1, h2, ?_⟩
        intro e he
        rw [h3, List.mem_append] at he
        rcases he with he | he
        · rcases hpre e he with h | h | h <;> simp [h]
        · exact h4 e he

/-! ## C3: the explicit window -/

theorem appendActivities_calls (env : Env) (ss : Spreadsheet) (d : String)
    (acts : List Activity) :
    ∀ e ∈ (appendActivities env ss d acts).2, e.call.kind = .rowsAppend := by
  unfold appendActivities
  split
  · simp
  · simp only
    split
    · simp [Call.kind]
    · split <;> simp [Call.kind]

theorem writeStep_trace (env : Env) (ss : Spreadsheet) (d : String)
    (acts newActs : List Activity) (before : List Event) :
    ∃ rest, (writeStep env ss d acts newActs before).trace = before ++ rest ∧
      ∀ e ∈ rest, e.call.kind = .headerWrite ∨ e.call.kind = .rowsAppend := by
  unfold writeStep
  simp only
  split
  · split
    · have hk := appendActivities_calls env (updateSheetHeaders env ss d).1 d newActs
      cases happ : appendActivities env (updateSheetHeaders env ss d).1 d newActs with
      | mk o evs =>
        rw [happ] at hk
        have hrest : ∀ e ∈ (updateSheetHeaders env ss d).2 :: evs,
            e.call.kind = .headerWrite ∨ e.call.kind = .rowsAppend := by
          intro e he
          rcases List.mem_cons.mp he with rfl | he
          · left; simp [updateSheetHeaders_call, Call.kind]
          · right; exact hk e he
        cases o with
        | none => exact ⟨_, rfl, hrest⟩
        | some ss2 => exact ⟨_, rfl, hrest⟩
    · refine ⟨_, rfl, ?_⟩
      intro e he
      simp only [List.mem_singleton] at he
      subst he
      left; simp [updateSheetHeaders_call, Call.kind]
  · exact ⟨[], by simp, by simp⟩

theorem fetchStep_trace (env : Env) (ss : Spreadsheet) (d tok : String) (w : Window)
    (before : List Event) :
    ∃ rest, (fetchStep env ss d tok w before).trace = before ++ rest ∧
      ∀ e ∈ rest, e.call.kind = .activityList ∨ e.call.kind = .idsRead ∨
        e.call.kind = .headerWrite ∨ e.call.kind = .rowsAppend := by
  unfold fetchStep
  simp only
  cases hf : (fetchActivities env tok w.after w.before).1 with
  | none =>
    refine ⟨_, rfl, ?_⟩
    intro e he
    simp only [List.mem_singleton] at he
    subst he
    left; rw [fetchActivities_event]; rfl
  | some fetched =>
    simp only
    obtain ⟨rest, h1, h2⟩ := writeStep_trace env ss d (sortActivities env.host fetched)
      (filterNew (getActivityIds env ss d).1 (sortActivities env.host fetched))
      (before ++ [(fetchActivities env tok w.after w.before).2, (getActivityIds env ss d).2])
    refine ⟨_, by rw [h1, List.append_assoc], ?_⟩
    intro e he
    simp only [List.cons_append, List.nil_append, List.mem_cons] at he
    rcases he with rfl | rfl | he
    · left; rw [fetchActivities_event]; rfl
    · right; left; simp [getActivityIds_call, Call.kind]
    · rcases h2 e he with h | h
      · right; right; left; exact h
      · right; right; right; exact h

theorem POST_trace_kinds (env : Env) (ss : Spreadsheet) (body : Option SyncRequest) :
    ∀ e ∈ (POST env ss body).trace, e.call.kind = .latestDateRead →
      ∃ req d, body = some req ∧ truthyText req.displayName = some d ∧
        e ∈ (resolveWindow env ss req d).2 := by
  intro e he hk
  cases body with
  | none => simp [POST] at he
  | some req =>
    cases hd : truthyText req.displayName with
    | none => simp [POST, hd] at he
    | some d =>
      refine ⟨req, d, rfl, hd, ?_⟩
      rw [POST_some env ss req d hd] at he
      cases hu : (getUsers env ss).1.find? (fun user => user.displayName == some d) with
      | none =>
        simp only [hu, List.mem_singleton] at he
        subst he
        simp [getUsers_call, Call.kind] at hk
      | some user =>
        simp only [hu] at he
        cases ht : (refreshAccessToken env user.refreshToken).1 with
        | none =>
          simp only [ht, List.mem_cons, List.mem_singleton, List.not_mem_nil, or_false] at he
          rcases he with rfl | rfl
          · simp [getUsers_call, Call.kind] at hk
          · rw [refreshAccessToken_event] at hk
            simp [Call.kind] at hk
        | some tok =>
          simp only [ht] at he
          obtain ⟨rest, h1, h2⟩ := fetchStep_trace env ss d tok (resolveWindow env ss req d).1
            ([(getUsers env ss).2, (refreshAccessToken env user.refreshToken).2]
              ++ (resolveWindow env ss req d).2)
          rw [h1] at he
          simp only [List.cons_append, List.nil_append, List.mem_cons, List.mem_append] at he
          rcases he with rfl | rfl | he | he
          · simp [getUsers_call, Call.kind] at hk
          · rw [refreshAccessToken_event] at hk
            simp [Call.kind] at hk
          · exact he
          · rcases h2 e he with h | h | h | h <;> simp [h] at hk

theorem epochSeconds_date_only (host : Host) :
    epochSeconds host "2024-01-01" = JsInt.val 1704067200 ∧
    epochSeconds host "2024-01-02" = JsInt.val 1704153600 ∧
    epochSeconds host "2024-01-01T00:00Z" = JsInt.val 1704067200 ∧
    epochSeconds host "2024-01-03T00:00Z" = JsInt.val 1704240000 :=
  ⟨rfl, rfl, rfl, rfl⟩

/-- C3: for a sync request with a (non-empty) `startDate`, the resolved `after` is
`Math.floor(new Date(startDate).getTime() / 1000)`; when a (non-empty) `endDate` is given as
well, `before` is the epoch seconds of `endDate` plus 86400, and otherwise `null`; the run
makes no read of the last row's date.  For `startDate = 2024-01-01` and
`endDate = 2024-01-02` the window is `after = 1704067200 = epoch(2024-01-01T00:00Z)`,
`before = 1704240000 = epoch(2024-01-03T00:00Z)`, on every host. -/
theorem explicit_window (env : Env) (ss : Spreadsheet) (req : SyncRequest) (d startDate : String)
    (hs : truthyText req.startDate = some startDate) :
    (resolveWindow env ss req d).1.after = epochSeconds env.host startDate ∧
    (∀ endDate, truthyText req.endDate = some endDate →
      (resolveWindow env ss req d).1.before
        = some ((epochSeconds env.host endDate).add 86400)) ∧
    (truthyText req.endDate = none → (resolveWindow env ss req d).1.before = none) ∧
    (∀ e ∈ (POST env ss (some req)).trace, e.call.kind ≠ .latestDateRead) ∧
    (req.startDate = some "2024-01-01" → req.endDate = some "2024-01-02" →
      (resolveWindow env ss req d).1 = ⟨JsInt.val 1704067200, some (JsInt.val 1704240000)⟩ ∧
      epochSeconds env.host "2024-01-01T00:00Z" = JsInt.val 1704067200 ∧
      epochSeconds env.host "2024-01-03T00:00Z" = JsInt.val 1704240000) := by
  have hw : (resolveWindow env ss req d).2 = [] := by
    unfold resolveWindow
    simp only [hs]
    split <;> rfl
  refine ⟨?_, ?_, ?_, ?_, ?_⟩
  · unfold resolveWindow
    simp only [hs]
    split <;> rfl
  · intro endDate he
    unfold resolveWindow
    simp only [hs, he]
  · intro he
    unfold resolveWindow
    simp only [hs, he]
  · intro e he hk
    obtain ⟨req2, d2, hb, hd2, hmem⟩ := POST_trace_kinds env ss (some req) e he hk
    simp only [Option.some.injEq] at hb
    subst hb
    have hw2 : (resolveWindow env ss req d2).2 = [] := by
      unfold resolveWindow
      simp only [hs]
      split <;> rfl
    rw [hw2] at hmem
    exact absurd hmem (List.not_mem_nil _)
  · intro h1 h2
    obtain ⟨e1, e2, e3, e4⟩ := epochSeconds_date_only env.host
    refine ⟨?_, e3, e4⟩
    have t1 : truthyText (some "2024-01-01") = some "2024-01-01" := by decide
    have t2 : truthyText (some "2024-01-02") = some "2024-01-02" := by decide
    unfold resolveWindow
    simp only [h1, h2, t1, t2, e1, e2]
    rfl

/-- C3, at the request of `ann` for 2024-01-01 to 2024-01-02. -/
theorem explicit_window_witness :
    (resolveWindow (sampleEnv []) sampleStoreOne
      { displayName := some "ann", startDate := some "2024-01-01", endDate := some "2024-01-02" }
      "ann").1 = ⟨JsInt.val 1704067200, some (JsInt.val 1704240000)⟩ :=
  ((explicit_window (sampleEnv []) sampleStoreOne
      { displayName := some "ann", startDate := some "2024-01-01", endDate := some "2024-01-02" }
      "ann" "2024-01-01" (by decide)).2.2.2.2 rfl rfl).1

/-! ## C4: the default window -/

theorem getLast?_map_take (rows : List Row) (n : Nat) :
    (rows.map (fun r => r.take n)).getLast? = rows.getLast?.map (fun r => r.take n) := by
  induction rows with
  | nil => rfl
  | cons r rest ih =>
    cases rest with
    | nil => simp
    | cons r2 rest2 =>
      simp only [List.map_cons, List.getLast?_cons_cons] at ih ⊢
      exact ih

theorem take_six_date (r : Row) : (r.take 6)[5]? = r[5]? := by
  simp [List.getElem?_take]

theorem getLatestActivityDate_of_ok (env : Env) (ss : Spreadsheet) (title : String)
    (hf : env.dateReadFails = false) :
    (getLatestActivityDate env ss title).1
      = (dataRows ss title).getLast?.bind (fun r => r[5]?) := by
  unfold getLatestActivityDate valuesGet dataRows
  cases h : findSheet ss title with
  | none => simp [hf]
  | some sh =>
    simp only [hf, Bool.false_eq_true, if_false, Nat.add_one_sub_one, getLast?_map_take]
    cases hl : (sh.rows.drop 1).getLast? with
    | none => simp
    | some r => simp [take_six_date]

theorem getLatestActivityDate_of_fail (env : Env) (ss : Spreadsheet) (title : String)
    (hf : env.dateReadFails = true) :
    (getLatestActivityDate env ss title).1 = none := by
  simp [getLatestActivityDate, hf]

theorem resolveWindow_default (env : Env) (ss : Spreadsheet) (req : SyncRequest) (d : String)
    (hs : truthyText req.startDate = none) :
    resolveWindow env ss req d =
      match truthyText (getLatestActivityDate env ss d).1 with
      | some lastDateIso =>
        (⟨epochSeconds env.host lastDateIso, none⟩, [(getLatestActivityDate env ss d).2])
      | none => (⟨JsInt.val 0, none⟩, [(getLatestActivityDate env ss d).2]) := by
  unfold resolveWindow
  simp only [hs]

/-- C4, as stated, fails: the table of `ann` has a last row dated `2024-03-10T08:00:00`, the
request has no `startDate`, and the read of that row fails: the resolved `after` is 0,
not the epoch seconds 1710057600 of the Date cell. -/
theorem default_window_counterexample :
    (dataRows sampleStoreOne "ann").getLast?.bind (fun r => r[5]?)
      = some "2024-03-10T08:00:00" ∧
    epochSeconds sampleHost "2024-03-10T08:00:00" = JsInt.val 1710057600 ∧
    (resolveWindow { sampleEnv [] with dateReadFails := true } sampleStoreOne sampleRequest
      "ann").1 = ⟨JsInt.val 0, none⟩ := by
  decide

/-- C4 (amended): for a sync request without a (non-empty) `startDate`, whatever `endDate` is,
`before` is `null`; `after` is the epoch seconds of the Date cell (column F) of the last data
row of the user's table when the read of the table does not fail and that cell is not empty;
`after` is 0 when the table has no data row, when that cell is empty or missing, and when the
read fails. -/
theorem default_window (env : Env) (ss : Spreadsheet) (req : SyncRequest) (d : String)
    (hs : truthyText req.startDate = none) :
    (resolveWindow env ss req d).1.before = none ∧
    (∀ row date, env.dateReadFails = false → (dataRows ss d).getLast? = some row →
      row[5]? = some date → date ≠ "" →
      (resolveWindow env ss req d).1.after = epochSeconds env.host date) ∧
    (dataRows ss d = [] → (resolveWindow env ss req d).1.after = JsInt.val 0) ∧
    (∀ row, (dataRows ss d).getLast? = some row → truthyText row[5]? = none →
      (resolveWindow env ss req d).1.after = JsInt.val 0) ∧
    (env.dateReadFails = true → (resolveWindow env ss req d).1.after = JsInt.val 0) := by
  have hnone : ∀ x, (getLatestActivityDate env ss d).1 = x → truthyText x = none →
      (resolveWindow env ss req d).1.after = JsInt.val 0 := by
    intro x hx ht
    rw [resolveWindow_default env ss req d hs, hx, ht]
  have hfail : env.dateReadFails = true →
      (resolveWindow env ss req d).1.after = JsInt.val 0 :=
    fun hf => hnone none (getLatestActivityDate_of_fail env ss d hf) rfl
  refine ⟨?_, ?_, ?_, ?_, hfail⟩
  · rw [resolveWindow_default env ss req d hs]
    split <;> rfl
  · intro row date hf hlast hcell hne
    have hread := getLatestActivityDate_of_ok env ss d hf
    rw [hlast] at hread
    simp only [Option.some_bind, hcell] at hread
    have ht : truthyText (some date) = some date := by simp [truthyText, hne]
    rw [resolveWindow_default env ss req d hs, hread, ht]
  · intro hempty
    cases hf : env.dateReadFails with
    | true => exact hfail hf
    | false =>
      have hread := getLatestActivityDate_of_ok env ss d hf
      rw [hempty] at hread
      exact hnone _ hread rfl
  · intro row hlast hcell
    cases hf : env.dateReadFails with
    | true => exact hfail hf
    | false =>
      have hread := getLatestActivityDate_of_ok env ss d hf
      rw [hlast] at hread
      exact hnone _ hread hcell

/-- C4 (amended), at the table of `ann` whose last row is dated `2024-03-10T08:00:00`, on a
host in UTC: `after` is 1710057600. -/
theorem default_window_witness :
    truthyText sampleRequest.startDate = none ∧
    (resolveWindow (sampleEnv []) sampleStoreOne sampleRequest "ann").1.after
      = JsInt.val 1710057600 :=
  ⟨rfl, ((default_window (sampleEnv []) sampleStoreOne sampleRequest "ann" rfl).2.1
    (activityRow sampleHost (sampleActivity 7 "2024-03-10T07:00:00Z" "2024-03-10T08:00:00"))
    "2024-03-10T08:00:00" rfl (by set_option maxRecDepth 100000 in decide) (by decide)
    (by decide)).trans (by decide)⟩

/-! ## C5: the dedup filter -/

theorem appendActivities_event (env : Env) (ss : Spreadsheet) (d : String)
    (acts : List Activity) :
    ∀ e ∈ (appendActivities env ss d acts).2,
      e.call = .rowsAppend d (acts.map (activityRow env.host)) := by
  unfold appendActivities
  split
  · simp
  · simp only
    split
    · simp
    · split <;> simp

theorem writeStep_append (env : Env) (ss : Spreadsheet) (d : String)
    (acts newActs : List Activity) (before : List Event) :
    ∀ e ∈ (writeStep env ss d acts newActs before).trace, e.call.kind = .rowsAppend →
      e ∈ before ∨ e.call = .rowsAppend d (newActs.map (activityRow env.host)) := by
  intro e he hk
  unfold writeStep at he
  simp only at he
  split at he
  · split at he
    · have hev := appendActivities_event env (updateSheetHeaders env ss d).1 d newActs
      cases happ : appendActivities env (updateSheetHeaders env ss d).1 d newActs with
      | mk o evs =>
        rw [happ] at hev he
        have hmem : e ∈ before ++ (updateSheetHeaders env ss d).2 :: evs := by
          cases o <;> exact he
        rcases List.mem_append.mp hmem with h | h
        · exact Or.inl h
        · rcases List.mem_cons.mp h with rfl | h
          · simp [updateSheetHeaders_call, Call.kind] at hk
          · exact Or.inr (hev e h)
    · rcases List.mem_append.mp he with h | h
      · exact Or.inl h
      · simp only [List.mem_singleton] at h
        subst h
        simp [updateSheetHeaders_call, Call.kind] at hk
  · exact Or.inl he

theorem fetchStep_append (env : Env) (ss : Spreadsheet) (d tok : String) (w : Window)
    (before : List Event) :
    ∀ e ∈ (fetchStep env ss d tok w before).trace, e.call.kind = .rowsAppend →
      e ∈ before ∨ ∃ fetched,
        env.activitiesEndpoint tok (listParams w.after w.before) = some fetched ∧
        (⟨.activityList tok (listParams w.after w.before), true⟩ : Event)
          ∈ (fetchStep env ss d tok w before).trace ∧
        e.call = .rowsAppend d
          ((filterNew (getActivityIds env ss d).1 (sortActivities env.host fetched)).map
            (activityRow env.host)) := by
  intro e he hk
  unfold fetchStep at he ⊢
  simp only at he ⊢
  cases hf : (fetchActivities env tok w.after w.before).1 with
  | none =>
    simp only [hf, List.mem_append, List.mem_singleton] at he
    rcases he with h | rfl
    · exact Or.inl h
    · rw [fetchActivities_event] at hk
      simp [Call.kind] at hk
  | some fetched =>
    simp only [hf] at he ⊢
    rcases writeStep_append env ss d _ _ _ e he hk with h | h
    · simp only [List.mem_append, List.mem_cons, List.mem_singleton, List.not_mem_nil,
        or_false] at h
      rcases h with h | rfl | rfl
      · exact Or.inl h
      · rw [fetchActivities_event] at hk
        simp [Call.kind] at hk
      · simp [getActivityIds_call, Call.kind] at hk
    · right
      refine ⟨fetched, by rw [← fetchActivities_eq_endpoint, hf], ?_, h⟩
      obtain ⟨rest, h1, _⟩ := writeStep_trace env ss d (sortActivities env.host fetched)
        (filterNew (getActivityIds env ss d).1 (sortActivities env.host fetched))
        (before ++ [(fetchActivities env tok w.after w.before).2, (getActivityIds env ss d).2])
      rw [h1]
      have hev : (fetchActivities env tok w.after w.before).2
          = ⟨.activityList tok (listParams w.after w.before), true⟩ := by
        rw [fetchActivities_event, hf]; rfl
      simp [hev]

theorem POST_append (env : Env) (ss : Spreadsheet) (body : Option SyncRequest) :
    ∀ e ∈ (POST env ss body).trace, ∀ title rows, e.call = .rowsAppend title rows →
      ∃ tok params fetched,
        (⟨.activityList tok params, true⟩ : Event) ∈ (POST env ss body).trace ∧
        env.activitiesEndpoint tok params = some fetched ∧
        rows = (filterNew (getActivityIds env ss title).1
          (sortActivities env.host fetched)).map (activityRow env.host) := by
  intro e he title rows hcall
  have hk : e.call.kind = .rowsAppend := by rw [hcall]; rfl
  cases body with
  | none => simp [POST] at he
  | some req =>
    cases hd : truthyText req.displayName with
    | none => simp [POST, hd] at he
    | some d =>
      rw [POST_some env ss req d hd] at he ⊢
      cases hu : (getUsers env ss).1.find? (fun user => user.displayName == some d) with
      | none =>
        simp only [hu, List.mem_singleton] at he
        subst he
        simp [getUsers_call, Call.kind] at hk
      | some user =>
        simp only [hu] at he ⊢
        cases ht : (refreshAccessToken env user.refreshToken).1 with
        | none =>
          simp only [ht, List.mem_cons, List.mem_singleton, List.not_mem_nil, or_false] at he
          rcases he with rfl | rfl
          · simp [getUsers_call, Call.kind] at hk
          · rw [refreshAccessToken_event] at hk
            simp [Call.kind] at hk
        | some tok =>
          simp only [ht] at he ⊢
          rcases fetchStep_append env ss d tok _ _ e he hk with h | ⟨fetched, h1, h2, h3⟩
          · rcases prefix_calls env ss req d user.refreshToken e h with h | h | h <;>
              simp [h] at hk
          · rw [hcall] at h3
            simp only [Call.rowsAppend.injEq] at h3
            obtain ⟨rfl, rfl⟩ := h3
            exact ⟨tok, _, fetched, h2, h1, rfl⟩

/-- C5: the rows of every append of a sync are the rows of `filterNew ids sorted`, where
`sorted` is the sorted fetched page and `ids` the set `getActivityIds` returned for the table;
`filterNew ids l` is a sub-list of `l` (same relative order) that keeps every occurrence of an
activity whose id string is not in `ids` and no activity whose id string is in `ids`; it is
empty for the empty batch. -/
theorem dedup_filter (env : Env) (ss : Spreadsheet) (body : Option SyncRequest)
    (ids : List (Option String)) (l : List Activity) :
    (∀ e ∈ (POST env ss body).trace, ∀ title rows, e.call = .rowsAppend title rows →
      ∃ tok params fetched,
        (⟨.activityList tok params, true⟩ : Event) ∈ (POST env ss body).trace ∧
        env.activitiesEndpoint tok params = some fetched ∧
        rows = (filterNew (getActivityIds env ss title).1
          (sortActivities env.host fetched)).map (activityRow env.host)) ∧
    (filterNew ids l).Sublist l ∧
    (∀ a, (filterNew ids l).count a = if some (idString a) ∈ ids then 0 else l.count a) ∧
    (∀ a ∈ filterNew ids l, some (idString a) ∉ ids) ∧
    filterNew ids [] = [] := by
  refine ⟨POST_append env ss body, filterNew_sublist ids l, ?_,
    fun a ha => ((mem_filterNew ids l a).mp ha).2, rfl⟩
  intro a
  unfold filterNew
  induction l with
  | nil => simp
  | cons b rest ih =>
    by_cases hb : some (idString b) ∈ ids
    · have hfil : List.filter (fun a => !decide (some (idString a) ∈ ids)) (b :: rest)
          = List.filter (fun a => !decide (some (idString a) ∈ ids)) rest := by
        simp [List.filter_cons, hb]
      rw [hfil, ih]
      by_cases ha : some (idString a) ∈ ids
      · simp [ha]
      · have hne : b ≠ a := fun e => ha (e ▸ hb)
        simp [ha, List.count_cons, hne]
    · have hfil : List.filter (fun a => !decide (some (idString a) ∈ ids)) (b :: rest)
          = b :: List.filter (fun a => !decide (some (idString a) ∈ ids)) rest := by
        simp [List.filter_cons, hb]
      rw [hfil, List.count_cons, ih]
      by_cases ha : some (idString a) ∈ ids
      · have hne : b ≠ a := fun e => hb (e ▸ ha)
        simp [ha, hne]
      · simp [ha, List.count_cons]

/-! ## C6: the order of the appended rows -/

/-- C6 fails on the code: one sync of the empty table of `ann` fetches `travelPage`; the
rows it appends carry the Date cells `2024-01-01T23:00:00Z` then `2024-01-01T14:00:00Z`, which
is not ascending: the sort of route.js 50 compares `start_date`, the row holds
`start_date_local`. -/
theorem append_order_failing_input :
    dateColumn (dataRows (POST (sampleEnv travelPage) sampleStoreEmpty
      (some sampleRequest)).store "ann")
      = ["2024-01-01T23:00:00Z", "2024-01-01T14:00:00Z"] ∧
    ¬ ascendingDates sampleHost (dataRows (POST (sampleEnv travelPage) sampleStoreEmpty
      (some sampleRequest)).store "ann") := by
  have h : dateColumn (dataRows (POST (sampleEnv travelPage) sampleStoreEmpty
      (some sampleRequest)).store "ann")
      = ["2024-01-01T23:00:00Z", "2024-01-01T14:00:00Z"] := by
    set_option maxRecDepth 100000 in decide
  refine ⟨h, ?_⟩
  unfold ascendingDates
  rw [h]
  decide

/-! ## C8: the unknown user -/

theorem take_three_head (r : Row) : (r.take 3)[0]? = r[0]? := by
  cases r <;> simp

theorem getUsers_find_none (env : Env) (ss : Spreadsheet) (d : String)
    (h : ∀ row ∈ dataRows ss METADATA_SHEET_TITLE, row[0]? ≠ some d) :
    (getUsers env ss).1.find? (fun user => user.displayName == some d) = none := by
  unfold getUsers valuesGet
  split
  · rfl
  · cases hs : findSheet ss METADATA_SHEET_TITLE with
    | none => rfl
    | some sh =>
      simp only [List.find?_eq_none, List.mem_map, forall_exists_index, and_imp]
      intro u row r hr hrow hu
      subst hu
      subst hrow
      simp only [take_three_head, beq_iff_eq]
      apply h
      rw [dataRows_of_findSheet ss _ sh hs]
      simpa using hr

/-- C8, as stated, fails: the empty display name equals no Display Name of the metadata sheet,
and the sync answers 400 `Display Name is required`, not 404. -/
theorem unknown_user_counterexample :
    (∀ row ∈ dataRows sampleStoreOne METADATA_SHEET_TITLE, row[0]? ≠ some "") ∧
    (POST (sampleEnv []) sampleStoreOne
      (some { displayName := some "", startDate := none, endDate := none })).response.status
      = 400 ∧
    (POST (sampleEnv []) sampleStoreOne
      (some { displayName := some "", startDate := none, endDate := none })).response.error
      = some "Display Name is required" := by
  decide

/-- C8 (amended): when the display name of the request equals no Display Name of the metadata
sheet, the sync answers 404 `User not found` if the name is not empty and
400 `Display Name is required` if it is empty or absent; either way the spreadsheet is unchanged
and the only external call, if any, is the read of the metadata sheet: no credential refresh,
no activity fetch, no store write. -/
theorem unknown_user (env : Env) (ss : Spreadsheet) (req : SyncRequest)
    (hunknown : ∀ d, req.displayName = some d →
      ∀ row ∈ dataRows ss METADATA_SHEET_TITLE, row[0]? ≠ some d) :
    (∀ d, truthyText req.displayName = some d →
      (POST env ss (some req)).response = .notFound) ∧
    (truthyText req.displayName = none → (POST env ss (some req)).response = .badRequest) ∧
    Response.notFound.status = 404 ∧ Response.notFound.error = some "User not found" ∧
    Response.badRequest.status = 400 ∧
    (POST env ss (some req)).store = ss ∧
    ∀ e ∈ (POST env ss (some req)).trace, e.call.kind = .usersRead := by
  cases hd : truthyText req.displayName with
  | none =>
    refine ⟨fun d h => by simp at h, fun _ => by simp [POST, hd], rfl, rfl, rfl,
      by simp [POST, hd], by simp [POST, hd]⟩
  | some d =>
    have hfind := getUsers_find_none env ss d (hunknown d (truthyText_eq_some hd).1)
    have hpost : POST env ss (some req) = ⟨.notFound, ss, [(getUsers env ss).2]⟩ := by
      rw [POST_some env ss req d hd, hfind]
    refine ⟨fun _ _ => by rw [hpost], fun h => by simp at h, rfl, rfl, rfl,
      by rw [hpost], ?_⟩
    intro e he
    rw [hpost] at he
    simp only [List.mem_singleton] at he
    subst he
    simp [getUsers_call, Call.kind]

/-- C8 (amended), at the request of `NoSuchPerson` on the sample spreadsheet. -/
theorem unknown_user_witness :
    (POST (sampleEnv []) sampleStoreOne
      (some { displayName := some "NoSuchPerson", startDate := none, endDate := none })).response
      = .notFound :=
  (unknown_user (sampleEnv []) sampleStoreOne
    { displayName := some "NoSuchPerson", startDate := none, endDate := none }
    (by intro d hd
        simp only [Option.some.injEq] at hd
        subst hd
        decide)).1 "NoSuchPerson" (by decide)

/-! ## C10: which failures abort the sync -/

theorem getUsers_failed (env : Env) (ss : Spreadsheet) (h : (getUsers env ss).2.ok = false) :
    (getUsers env ss).1 = [] := by
  unfold getUsers at h ⊢
  by_cases hf : env.usersReadFails = true
  · simp [hf]
  · cases hv : valuesGet ss METADATA_SHEET_TITLE 2 3 with
    | none => simp [hf, hv]
    | some rows => simp [hf, hv] at h

theorem appendActivities_failed (env : Env) (ss : Spreadsheet) (d : String)
    (acts : List Activity) (e : Event) (he : e ∈ (appendActivities env ss d acts).2)
    (hfail : e.ok = false) :
    (appendActivities env ss d acts).1 = none ∧ (appendActivities env ss d acts).2 = [e] := by
  unfold appendActivities at he ⊢
  by_cases h0 : acts.length = 0
  · simp [h0] at he
  · by_cases hf : env.appendFails = true
    · simp only [h0, hf, if_true, if_false, List.mem_singleton] at he ⊢
      subst he
      simp
    · have hf2 : env.appendFails = false := by simpa using hf
      cases hs : findSheet ss d with
      | none =>
        simp only [h0, hf2, hs, if_false, Bool.false_eq_true, List.mem_singleton] at he ⊢
        subst he
        simp
      | some sh =>
        simp only [h0, hf2, hs, if_false, Bool.false_eq_true, List.mem_singleton] at he
        subst he
        simp at hfail

theorem writeStep_failure (env : Env) (ss : Spreadsheet) (d : String)
    (acts newActs : List Activity) (before : List Event) (e : Event)
    (he : e ∈ (writeStep env ss d acts newActs before).trace) (hfail : e.ok = false)
    (hk : e.call.kind = .rowsAppend) :
    e ∈ before ∨
      ((writeStep env ss d acts newActs before).response = .serverError ∧
        (writeStep env ss d acts newActs before).trace.getLast? = some e) := by
  unfold writeStep at he ⊢
  simp only at he ⊢
  split
  · rename_i h1
    simp only [h1, if_true] at he
    split
    · rename_i h2
      simp only [h2, if_true] at he
      have hfailed := appendActivities_failed env (updateSheetHeaders env ss d).1 d newActs e
      cases happ : appendActivities env (updateSheetHeaders env ss d).1 d newActs with
      | mk o evs =>
        rw [happ] at he hfailed
        have hmem : e ∈ before ++ (updateSheetHeaders env ss d).2 :: evs := by
          cases o <;> exact he
        rcases List.mem_append.mp hmem with h | h
        · exact Or.inl h
        · rcases List.mem_cons.mp h with rfl | h
          · simp [updateSheetHeaders_call, Call.kind] at hk
          · obtain ⟨ho, hevs⟩ := hfailed h hfail
            simp only at ho hevs
            subst ho
            subst hevs
            right
            simp
    · rename_i h2
      simp only [h2, if_false] at he
      rcases List.mem_append.mp he with h | h
      · exact Or.inl h
      · simp only [List.mem_singleton] at h
        subst h
        simp [updateSheetHeaders_call, Call.kind] at hk
  · rename_i h1
    simp only [h1, if_false] at he
    exact Or.inl he

theorem fetchStep_failure (env : Env) (ss : Spreadsheet) (d tok : String) (w : Window)
    (before : List Event) (e : Event)
    (he : e ∈ (fetchStep env ss d tok w before).trace) (hfail : e.ok = false)
    (hk : e.call.kind = .activityList ∨ e.call.kind = .rowsAppend) :
    e ∈ before ∨
      ((fetchStep env ss d tok w before).response = .serverError ∧
        (fetchStep env ss d tok w before).trace.getLast? = some e) := by
  unfold fetchStep at he ⊢
  simp only at he ⊢
  cases hf : (fetchActivities env tok w.after w.before).1 with
  | none =>
    simp only [hf, List.mem_append, List.mem_singleton] at he ⊢
    rcases he with h | rfl
    · exact Or.inl h
    · right
      simp
  | some fetched =>
    simp only [hf] at he ⊢
    have hfev : (fetchActivities env tok w.after w.before).2.ok = true := by
      rw [fetchActivities_event, hf]; rfl
    rcases hk with hk | hk
    · obtain ⟨rest, h1, h2⟩ := writeStep_trace env ss d (sortActivities env.host fetched)
        (filterNew (getActivityIds env ss d).1 (sortActivities env.host fetched))
        (before ++ [(fetchActivities env tok w.after w.before).2, (getActivityIds env ss d).2])
      rw [h1] at he
      simp only [List.mem_append, List.mem_cons, List.mem_singleton, List.not_mem_nil,
        or_false] at he
      rcases he with (h | rfl | rfl) | h
      · exact Or.inl h
      · rw [hfev] at hfail; exact absurd hfail (by decide)
      · simp [getActivityIds_call, Call.kind] at hk
      · rcases h2 e h with h3 | h3 <;> simp [h3] at hk
    · rcases writeStep_failure env ss d _ _ _ e he hfail hk with h | ⟨h1, h2⟩
      · simp only [List.mem_append, List.mem_cons, List.mem_singleton, List.not_mem_nil,
          or_false] at h
        rcases h with h | rfl | rfl
        · exact Or.inl h
        · rw [hfev] at hfail; exact absurd hfail (by decide)
        · simp [getActivityIds_call, Call.kind] at hk
      · right
        exact ⟨h1, h2⟩

/-- C10, as stated, fails: on the table of `ann` with activity 7, (a) a sync whose read of the
existing ids fails goes on and answers `success: true` with count 1, and (b) a sync whose read
of the last row's date fails goes on and answers `success: true` with count 0. -/
theorem failure_aborts_counterexample :
    ((⟨.idsRead "ann", false⟩ : Event) ∈
        (POST { sampleEnv [sampleActivity 7 "2024-03-10T07:00:00Z" "2024-03-10T08:00:00"] with
                idsReadFails := true } sampleStoreOne (some sampleRequest)).trace ∧
      (POST { sampleEnv [sampleActivity 7 "2024-03-10T07:00:00Z" "2024-03-10T08:00:00"] with
              idsReadFails := true } sampleStoreOne (some sampleRequest)).response
        = .success 1) ∧
    ((⟨.latestDateRead "ann", false⟩ : Event) ∈
        (POST { sampleEnv [] with dateReadFails := true } sampleStoreOne
          (some sampleRequest)).trace ∧
      (POST { sampleEnv [] with dateReadFails := true } sampleStoreOne
          (some sampleRequest)).response = .success 0) := by
  decide

/-- C10 (amended): when the read of the metadata sheet, the credential refresh, the activity
fetch or the row append of a sync fails, the failed call is the last call of the run and the
response is a failure, never `success: true`: it is the 404 `User not found` when the failed
call is the metadata read, and the 500 when it is one of the other three.  A failed read of
the last row's date or of the existing ids is not among them: `getLatestActivityDate` and
`getActivityIds` swallow it. -/
theorem failure_aborts (env : Env) (ss : Spreadsheet) (body : Option SyncRequest) (e : Event)
    (he : e ∈ (POST env ss body).trace) (hfail : e.ok = false)
    (hk : e.call.kind = .usersRead ∨ e.call.kind = .tokenRefresh ∨
      e.call.kind = .activityList ∨ e.call.kind = .rowsAppend) :
    (POST env ss body).response
      = (if e.call.kind = .usersRead then .notFound else .serverError) ∧
    (POST env ss body).response.isSuccess = false ∧
    (POST env ss body).trace.getLast? = some e := by
  suffices hmain : (POST env ss body).response
      = (if e.call.kind = .usersRead then .notFound else .serverError) ∧
      (POST env ss body).trace.getLast? = some e by
    refine ⟨hmain.1, ?_, hmain.2⟩
    rw [hmain.1]
    split <;> rfl
  cases body with
  | none => simp [POST] at he
  | some req =>
    cases hd : truthyText req.displayName with
    | none => simp [POST, hd] at he
    | some d =>
      rw [POST_some env ss req d hd] at he ⊢
      have husers : e = (getUsers env ss).2 →
          (getUsers env ss).1.find? (fun user => user.displayName == some d) = none := by
        intro h
        rw [getUsers_failed env ss (h ▸ hfail)]
        rfl
      cases hu : (getUsers env ss).1.find? (fun user => user.displayName == some d) with
      | none =>
        simp only [hu, List.mem_singleton] at he ⊢
        subst he
        exact ⟨by simp [getUsers_call, Call.kind], rfl⟩
      | some user =>
        simp only [hu] at he ⊢
        have hnot_users : e ≠ (getUsers env ss).2 := by
          intro h
          rw [husers h] at hu
          exact Option.noConfusion hu
        cases ht : (refreshAccessToken env user.refreshToken).1 with
        | none =>
          simp only [ht, List.mem_cons, List.mem_singleton, List.not_mem_nil, or_false] at he ⊢
          rcases he with h | h
          · exact absurd h hnot_users
          · subst h
            exact ⟨by simp [refreshAccessToken_event, Call.kind], rfl⟩
        | some tok =>
          simp only [ht] at he ⊢
          have hnot_before : e ∉ [(getUsers env ss).2, (refreshAccessToken env user.refreshToken).2]
              ++ (resolveWindow env ss req d).2 := by
            intro h
            simp only [List.cons_append, List.nil_append, List.mem_cons] at h
            rcases h with h | h | h
            · exact hnot_users h
            · subst h
              rw [refreshAccessToken_event, ht] at hfail
              simp at hfail
            · have hk2 := resolveWindow_calls env ss req d e h
              rw [hk2] at hk
              simp [Call.kind] at hk
          rcases hk with hk | hk | hk | hk
          · exfalso
            obtain ⟨rest, h1, h2⟩ := fetchStep_trace env ss d tok (resolveWindow env ss req d).1
              ([(getUsers env ss).2, (refreshAccessToken env user.refreshToken).2]
                ++ (resolveWindow env ss req d).2)
            rw [h1] at he
            rcases List.mem_append.mp he with h | h
            · exact hnot_before h
            · rcases h2 e h with h3 | h3 | h3 | h3 <;> simp [h3] at hk
          · exfalso
            obtain ⟨rest, h1, h2⟩ := fetchStep_trace env ss d tok (resolveWindow env ss req d).1
              ([(getUsers env ss).2, (refreshAccessToken env user.refreshToken).2]
                ++ (resolveWindow env ss req d).2)
            rw [h1] at he
            rcases List.mem_append.mp he with h | h
            · exact hnot_before h
            · rcases h2 e h with h3 | h3 | h3 | h3 <;> simp [h3] at hk
          · rcases fetchStep_failure env ss d tok _ _ e he hfail (Or.inl hk) with h | h
            · exact absurd h hnot_before
            · exact ⟨by rw [h.1]; simp [hk], h.2⟩
          · rcases fetchStep_failure env ss d tok _ _ e he hfail (Or.inr hk) with h | h
            · exact absurd h hnot_before
            · exact ⟨by rw [h.1]; simp [hk], h.2⟩

/-- C10 (amended), at a sync of `ann` whose credential refresh is rejected. -/
theorem failure_aborts_witness :
    (POST { sampleEnv [] with tokenEndpoint := fun _ => none } sampleStoreOne
      (some sampleRequest)).response = .serverError ∧
    (POST { sampleEnv [] with tokenEndpoint := fun _ => none } sampleStoreOne
      (some sampleRequest)).trace.getLast?
      = some ⟨.tokenRefresh (some "refresh-token"), false⟩ :=
  have h := failure_aborts { sampleEnv [] with tokenEndpoint := fun _ => none } sampleStoreOne
    (some sampleRequest) ⟨.tokenRefresh (some "refresh-token"), false⟩
    (by set_option maxRecDepth 100000 in decide) rfl (Or.inr (Or.inl rfl))
  ⟨h.1, h.2.2⟩

/-! ## C9: linking a user -/

theorem take_three_getElem (r : Row) (k : Nat) (hk : k < 3) : (r.take 3)[k]? = r[k]? := by
  simp [List.getElem?_take, hk]

theorem getUsers_of_ok (env : Env) (ss : Spreadsheet) (meta : Sheet)
    (hf : env.usersReadFails = false) (hm : findSheet ss METADATA_SHEET_TITLE = some meta) :
    (getUsers env ss).1
      = (meta.rows.drop 1).map (fun r => (⟨r[0]?, r[1]?, r[2]?⟩ : User)) := by
  unfold getUsers valuesGet
  simp only [hf, hm, Bool.false_eq_true, if_false, List.map_map]
  apply List.map_congr_left
  intro r _
  simp [take_three_getElem]

theorem findIdx?_map_aux {α β : Type} (f : α → β) (p : β → Bool) (l : List α) :
    ∀ s : Nat, List.findIdx? p (l.map f) s = List.findIdx? (fun a => p (f a)) l s := by
  induction l with
  | nil => intro s; rfl
  | cons a rest ih =>
    intro s
    simp only [List.map_cons, List.findIdx?_cons, ih]

theorem getUsers_findIdx (env : Env) (ss : Spreadsheet) (meta : Sheet) (d : String)
    (hf : env.usersReadFails = false) (hm : findSheet ss METADATA_SHEET_TITLE = some meta) :
    (getUsers env ss).1.findIdx? (fun user => user.displayName == some d)
      = (meta.rows.drop 1).findIdx? (fun r => r[0]? == some d) := by
  rw [getUsers_of_ok env ss meta hf hm, findIdx?_map_aux]

theorem updateRow_length (f : Row → Row) : ∀ (i : Nat) (rows : List Row), i < rows.length →
    (updateRow i f rows).length = rows.length := by
  intro i
  induction i with
  | zero => intro rows h; cases rows <;> simp_all [updateRow]
  | succ n ih =>
    intro rows h
    cases rows with
    | nil => simp at h
    | cons r rest =>
      simp only [updateRow, List.length_cons]
      rw [ih rest (by simpa using h)]

theorem updateRow_getD (f : Row → Row) : ∀ (i : Nat) (rows : List Row) (k : Nat),
    i < rows.length →
    (updateRow i f rows).getD k [] = if k = i then f (rows.getD i []) else rows.getD k [] := by
  intro i
  induction i with
  | zero =>
    intro rows k h
    cases rows with
    | nil => simp at h
    | cons r rest => cases k <;> simp [updateRow]
  | succ n ih =>
    intro rows k h
    cases rows with
    | nil => simp at h
    | cons r rest =>
      cases k with
      | zero => simp [updateRow]
      | succ k =>
        have := ih rest k (by simpa using h)
        simpa [updateRow] using this

theorem setCellC_getD (v : String) (row : Row) (j : Nat) :
    (setCellC v row).getD j "" = if j = 2 then v else row.getD j "" := by
  unfold setCellC
  match j with
  | 0 => simp
  | 1 => simp
  | 2 => simp
  | j + 3 => simp [List.getD_eq_getElem?_getD, Nat.add_comm]

theorem findIdx?_none_aux {α : Type} (p : α → Bool) (l : List α) (h : ∀ x ∈ l, p x = false) :
    ∀ s : Nat, List.findIdx? p l s = none := by
  induction l with
  | nil => intro s; rfl
  | cons a rest ih =>
    intro s
    simp only [List.findIdx?_cons, h a (List.mem_cons_self _ _), Bool.false_eq_true, if_false]
    exact ih (fun x hx => h x (List.mem_cons_of_mem _ hx)) _

theorem findIdx?_some_aux {α : Type} (p : α → Bool) (l : List α) :
    ∀ s k : Nat, List.findIdx? p l s = some k →
      ∃ i r, k = s + i ∧ l[i]? = some r ∧ p r = true := by
  induction l with
  | nil => intro s k h; simp [List.findIdx?] at h
  | cons a rest ih =>
    intro s k h
    simp only [List.findIdx?_cons] at h
    by_cases hp : p a = true
    · simp only [hp, if_true, Option.some.injEq] at h
      exact ⟨0, a, by omega, by simp, hp⟩
    · simp only [hp, if_false] at h
      obtain ⟨i, r, h1, h2, h3⟩ := ih (s + 1) k h
      exact ⟨i + 1, r, by omega, by simpa using h2, h3⟩

theorem modifySheet_length (title : String) (f : List Row → List Row) (ss : Spreadsheet) :
    (modifySheet title f ss).length = ss.length := by
  induction ss with
  | nil => rfl
  | cons sh rest ih =>
    unfold modifySheet
    split <;> simp [ih]

theorem findSheet_append_of_some (ss : Spreadsheet) (sh new : Sheet) (title : String)
    (h : findSheet ss title = some sh) : findSheet (ss ++ [new]) title = some sh := by
  simp only [findSheet, List.find?_append] at h ⊢
  simp [h]

theorem findSheet_append_of_ne (ss : Spreadsheet) (new : Sheet) (title : String)
    (h : new.title ≠ title) : findSheet (ss ++ [new]) title = findSheet ss title := by
  have hb : (new.title == title) = false := by simpa using h
  simp only [findSheet, List.find?_append, List.find?_cons, hb, List.find?_nil]
  cases List.find? (fun sh => sh.title == title) ss <;> rfl

theorem findSheet_append_of_none (ss : Spreadsheet) (rows : List Row) (title : String)
    (h : findSheet ss title = none) :
    findSheet (ss ++ [{ title := title, rows := rows }]) title
      = some { title := title, rows := rows } := by
  simp only [findSheet, List.find?_append] at h ⊢
  simp [h]

theorem sheetRows_of_findSheet (ss : Spreadsheet) (title : String) (sh : Sheet)
    (h : findSheet ss title = some sh) : sheetRows ss title = sh.rows := by
  simp [sheetRows, h]

theorem saveMetadata_of_ok (env : Env) (ss : Spreadsheet) (row : Row) (before : List Event)
    (meta : Sheet) (hm : findSheet ss METADATA_SHEET_TITLE = some meta)
    (hp : env.metadataAppendFails = false) :
    saveMetadata env ss row before
      = ⟨true, modifySheet METADATA_SHEET_TITLE (appendRows [row]) ss,
          before ++ [⟨.metadataAppend row, true⟩]⟩ := by
  simp [saveMetadata, hm, hp]

theorem addUser_known (env : Env) (ss : Spreadsheet) (meta : Sheet) (d id tok : String)
    (idx : Nat) (hm : findSheet ss METADATA_SHEET_TITLE = some meta)
    (hr : env.usersReadFails = false) (hw : env.tokenWriteFails = false)
    (hidx : (dataRows ss METADATA_SHEET_TITLE).findIdx? (fun r => r[0]? == some d) = some idx) :
    (addUser env ss d id tok).returned = true ∧
    (addUser env ss d id tok).store
      = modifySheet METADATA_SHEET_TITLE (updateRow (idx + 1) (setCellC tok)) ss := by
  have h := getUsers_findIdx env ss meta d hr hm
  rw [dataRows_of_findSheet ss _ meta hm] at hidx
  rw [hidx] at h
  simp [addUser, h, hw, hm]

theorem addUser_new (env : Env) (ss : Spreadsheet) (meta : Sheet) (d id tok : String)
    (hm : findSheet ss METADATA_SHEET_TITLE = some meta)
    (hr : env.usersReadFails = false) (ha : env.addSheetFails = false)
    (hh : env.headerWriteFails = false) (hp : env.metadataAppendFails = false)
    (hnew : ∀ row ∈ dataRows ss METADATA_SHEET_TITLE, row[0]? ≠ some d) :
    (addUser env ss d id tok).returned = true ∧
    (addUser env ss d id tok).store =
      match findSheet ss d with
      | some _ => modifySheet METADATA_SHEET_TITLE (appendRows [[d, id, tok]]) ss
      | none => modifySheet METADATA_SHEET_TITLE (appendRows [[d, id, tok]])
          (modifySheet d writeHeaderRow (ss ++ [{ title := d, rows := [] }])) := by
  have h := getUsers_findIdx env ss meta d hr hm
  rw [dataRows_of_findSheet ss _ meta hm] at hnew
  have hnone : List.findIdx? (fun r : Row => r[0]? == some d) (meta.rows.drop 1) 0 = none :=
    findIdx?_none_aux _ _ (fun r hr => by simpa using hnew r hr) 0
  rw [hnone] at h
  cases hs : findSheet ss d with
  | some sh =>
    simp [addUser, h, ha, hs, saveMetadata_of_ok env ss _ _ meta hm hp]
  | none =>
    have hne : d ≠ METADATA_SHEET_TITLE := by
      intro e
      rw [e, hm] at hs
      exact Option.noConfusion hs
    have hm2 : findSheet (modifySheet d writeHeaderRow (ss ++ [{ title := d, rows := [] }]))
        METADATA_SHEET_TITLE = some meta := by
      rw [findSheet_modifySheet_other _ _ _ _ (Ne.symm hne)]
      exact findSheet_append_of_some ss meta _ _ hm
    simp [addUser, h, ha, hh, hs, saveMetadata_of_ok env _ _ _ meta hm2 hp]

/-- C9, as stated, fails: `bob` is in no metadata row but a sheet titled `bob` exists; `addUser`
creates no table (the spreadsheet keeps its two sheets), leaves row 1 of the sheet `bob`
as it was, not the header, and appends the metadata row. -/
theorem link_user_counterexample :
    (∀ row ∈ dataRows sampleStoreOrphan METADATA_SHEET_TITLE, row[0]? ≠ some "bob") ∧
    (addUser (sampleEnv []) sampleStoreOrphan "bob" "2" "token-2").returned = true ∧
    (addUser (sampleEnv []) sampleStoreOrphan "bob" "2" "token-2").store.length
      = sampleStoreOrphan.length ∧
    sheetRows (addUser (sampleEnv []) sampleStoreOrphan "bob" "2" "token-2").store "bob"
      = [["Id", "Title"]] ∧
    dataRows (addUser (sampleEnv []) sampleStoreOrphan "bob" "2" "token-2").store
      METADATA_SHEET_TITLE = [["ann", "1", "refresh-token"], ["bob", "2", "token-2"]] := by
  decide

/-- C9 (amended): on a spreadsheet with the metadata sheet, when no call to the Sheets API fails
for an outside reason, `addUser(displayName, stravaId, refreshToken)` returns and
(1) for a display name in no metadata row and a title that no sheet has: adds exactly one
sheet, titled `displayName`, whose only row is the 17-column header, appends the one metadata
row `[displayName, stravaId, refreshToken]` and leaves every other sheet as it was;
(2) for a display name in no metadata row whose title a sheet already has: adds no sheet,
appends the metadata row and leaves every other sheet, the header of that sheet included, as
it was;
(3) for a display name in a metadata row, the first such row being data row `idx`: adds no
sheet, leaves every other sheet as it was, and in the metadata sheet changes only the
cell in column C of that row, which becomes `refreshToken`. -/
theorem link_user (env : Env) (ss : Spreadsheet) (meta : Sheet) (d id tok : String)
    (hm : findSheet ss METADATA_SHEET_TITLE = some meta)
    (hr : env.usersReadFails = false) (hw : env.tokenWriteFails = false)
    (ha : env.addSheetFails = false) (hh : env.headerWriteFails = false)
    (hp : env.metadataAppendFails = false) :
    ((∀ row ∈ dataRows ss METADATA_SHEET_TITLE, row[0]? ≠ some d) → findSheet ss d = none →
      (addUser env ss d id tok).returned = true ∧
      (addUser env ss d id tok).store.length = ss.length + 1 ∧
      findSheet (addUser env ss d id tok).store d = some { title := d, rows := [HEADERS] } ∧
      HEADERS.length = 17 ∧
      sheetRows (addUser env ss d id tok).store METADATA_SHEET_TITLE
        = meta.rows ++ [[d, id, tok]] ∧
      ∀ t, t ≠ d → t ≠ METADATA_SHEET_TITLE →
        findSheet (addUser env ss d id tok).store t = findSheet ss t) ∧
    ((∀ row ∈ dataRows ss METADATA_SHEET_TITLE, row[0]? ≠ some d) →
      (findSheet ss d).isSome = true →
      (addUser env ss d id tok).returned = true ∧
      (addUser env ss d id tok).store.length = ss.length ∧
      sheetRows (addUser env ss d id tok).store METADATA_SHEET_TITLE
        = meta.rows ++ [[d, id, tok]] ∧
      ∀ t, t ≠ METADATA_SHEET_TITLE →
        findSheet (addUser env ss d id tok).store t = findSheet ss t) ∧
    (∀ idx, (dataRows ss METADATA_SHEET_TITLE).findIdx? (fun r => r[0]? == some d) = some idx →
      (addUser env ss d id tok).returned = true ∧
      (addUser env ss d id tok).store.length = ss.length ∧
      (∀ t, t ≠ METADATA_SHEET_TITLE →
        findSheet (addUser env ss d id tok).store t = findSheet ss t) ∧
      (sheetRows (addUser env ss d id tok).store METADATA_SHEET_TITLE).length
        = meta.rows.length ∧
      cellAt ss METADATA_SHEET_TITLE (idx + 1) 0 = d ∧
      ∀ i j, cellAt (addUser env ss d id tok).store METADATA_SHEET_TITLE i j
        = if i = idx + 1 ∧ j = 2 then tok else cellAt ss METADATA_SHEET_TITLE i j) := by
  refine ⟨?_, ?_, ?_⟩
  · intro hnew hfresh
    obtain ⟨h1, h2⟩ := addUser_new env ss meta d id tok hm hr ha hh hp hnew
    rw [hfresh] at h2
    simp only at h2
    have hne : d ≠ METADATA_SHEET_TITLE := by
      intro e
      rw [e, hm] at hfresh
      exact Option.noConfusion hfresh
    refine ⟨h1, ?_, ?_, rfl, ?_, ?_⟩
    · rw [h2, modifySheet_length, modifySheet_length]
      simp
    · rw [h2, findSheet_modifySheet_other _ _ _ _ hne, findSheet_modifySheet_same,
        findSheet_append_of_none ss [] d hfresh]
      rfl
    · rw [h2, sheetRows, findSheet_modifySheet_same,
        findSheet_modifySheet_other _ _ _ _ (Ne.symm hne),
        findSheet_append_of_some ss meta _ _ hm]
      rfl
    · intro t ht1 ht2
      rw [h2, findSheet_modifySheet_other _ _ _ _ ht2, findSheet_modifySheet_other _ _ _ _ ht1]
      exact findSheet_append_of_ne ss _ t (Ne.symm ht1)
  · intro hnew hsome
    obtain ⟨h1, h2⟩ := addUser_new env ss meta d id tok hm hr ha hh hp hnew
    cases hs : findSheet ss d with
    | none => rw [hs] at hsome; exact absurd hsome (by decide)
    | some sh =>
      rw [hs] at h2
      simp only at h2
      refine ⟨h1, by rw [h2, modifySheet_length], ?_, ?_⟩
      · rw [h2, sheetRows, findSheet_modifySheet_same, hm]
        rfl
      · intro t ht
        rw [h2, findSheet_modifySheet_other _ _ _ _ ht]
  · intro idx hidx
    obtain ⟨h1, h2⟩ := addUser_known env ss meta d id tok idx hm hr hw hidx
    have hrows : sheetRows ss METADATA_SHEET_TITLE = meta.rows :=
      sheetRows_of_findSheet ss _ meta hm
    have hrows2 : sheetRows (addUser env ss d id tok).store METADATA_SHEET_TITLE
        = updateRow (idx + 1) (setCellC tok) meta.rows := by
      rw [h2, sheetRows, findSheet_modifySheet_same, hm]
      rfl
    rw [dataRows_of_findSheet ss _ meta hm] at hidx
    obtain ⟨i, r, hi, hget, hp2⟩ := findIdx?_some_aux _ _ 0 idx hidx
    have hi2 : i = idx := by omega
    subst hi2
    have hget2 : meta.rows[i + 1]? = some r := by
      simpa [List.getElem?_drop, Nat.add_comm] using hget
    have hlt : i + 1 < meta.rows.length := by
      by_contra hge
      rw [List.getElem?_eq_none (by omega)] at hget2
      exact Option.noConfusion hget2
    refine ⟨h1, by rw [h2, modifySheet_length], ?_, ?_, ?_, ?_⟩
    · intro t ht
      rw [h2, findSheet_modifySheet_other _ _ _ _ ht]
    · rw [hrows2, updateRow_length _ _ _ hlt]
    · have hr0 : r[0]? = some d := by simpa using hp2
      simp [cellAt, hrows, List.getD_eq_getElem?_getD, hget2, hr0]
    · intro k j
      simp only [cellAt, hrows, hrows2, updateRow_getD _ _ _ k hlt]
      by_cases hk : k = i + 1
      · subst hk
        simp only [if_true, setCellC_getD, true_and]
      · simp [hk]

/-- C9 (amended), at linking `bob`, who has no metadata row and no sheet, on the sample
spreadsheet. -/
theorem link_user_witness :
    findSheet (addUser (sampleEnv []) sampleStoreOne "bob" "2" "token-2").store "bob"
      = some { title := "bob", rows := [HEADERS] } ∧
    (addUser (sampleEnv []) sampleStoreOne "bob" "2" "token-2").store.length = 3 :=
  have h := (link_user (sampleEnv []) sampleStoreOne sampleMetadata "bob" "2" "token-2"
    (by decide) rfl rfl rfl rfl rfl).1 (by decide) (by decide)
  ⟨h.2.2.1, h.2.1⟩

/-! ## C7: unit conversion -/

theorem digitChar_isDigit (k : Nat) (hk : k < 10) : (Nat.digitChar k).isDigit = true := by
  interval_cases k <;> rfl

theorem toDigitsCore_isDigit (fuel : Nat) : ∀ (n : Nat) (ds : List Char),
    (∀ c ∈ ds, c.isDigit = true) → ∀ c ∈ Nat.toDigitsCore 10 fuel n ds, c.isDigit = true := by
  induction fuel with
  | zero => intro n ds h; simpa [Nat.toDigitsCore] using h
  | succ f ih =>
    intro n ds h
    have hd : ∀ c ∈ Nat.digitChar (n % 10) :: ds, c.isDigit = true := by
      intro c hc
      rcases List.mem_cons.mp hc with rfl | hc
      · exact digitChar_isDigit _ (Nat.mod_lt _ (by decide))
      · exact h c hc
    simp only [Nat.toDigitsCore]
    split
    · exact hd
    · exact ih _ _ hd

theorem repr_isDigit (n : Nat) : ∀ c ∈ (Nat.repr n).toList, c.isDigit = true := by
  simp only [Nat.repr, Nat.toDigits, List.asString]
  exact toDigitsCore_isDigit _ _ _ (by simp)

theorem decodeDigits_zeros (z : Nat) (l : List Char) :
    decodeDigits (List.replicate z '0' ++ l) = decodeDigits l := by
  induction z with
  | zero => rfl
  | succ z ih =>
    have : decodeDigits ('0' :: (List.replicate z '0' ++ l))
        = decodeDigits (List.replicate z '0' ++ l) := by
      simp only [decodeDigits, List.foldl_cons]
      rfl
    simpa [List.replicate_succ] using this.trans ih

theorem fixedNotation_format (n f : Nat) (hf : 0 < f) :
    ∃ intPart frac : List Char,
      (JsNumber.fixedNotation n f).toList = intPart ++ '.' :: frac ∧
      frac.length = f ∧ intPart ≠ [] ∧
      (∀ c ∈ intPart ++ frac, c.isDigit = true) ∧
      decodeDigits (intPart ++ frac) = n := by
  have hpad : f + 1 ≤
      (List.replicate (f + 1 - (Nat.repr n).toList.length) '0' ++ (Nat.repr n).toList).length := by
    simp only [List.length_append, List.length_replicate]
    omega
  refine ⟨(List.replicate (f + 1 - (Nat.repr n).toList.length) '0'
      ++ (Nat.repr n).toList).take
        ((List.replicate (f + 1 - (Nat.repr n).toList.length) '0'
          ++ (Nat.repr n).toList).length - f),
    (List.replicate (f + 1 - (Nat.repr n).toList.length) '0'
      ++ (Nat.repr n).toList).drop
        ((List.replicate (f + 1 - (Nat.repr n).toList.length) '0'
          ++ (Nat.repr n).toList).length - f), ?_, ?_, ?_, ?_, ?_⟩
  · simp only [JsNumber.fixedNotation, Nat.ne_of_gt hf, if_false]
    rfl
  · rw [List.length_drop]
    omega
  · intro h
    have := congrArg List.length h
    rw [List.length_take] at this
    simp only [List.length_nil] at this
    omega
  · rw [List.take_append_drop]
    intro c hc
    rcases List.mem_append.mp hc with h | h
    · rw [List.eq_of_mem_replicate h]; rfl
    · exact repr_isDigit n c h
  · rw [List.take_append_drop, decodeDigits_zeros, decodeDigits_repr]

theorem fixedDigits_nearest (m : Nat) (e : Int) (f : Nat) :
    |(JsNumber.fixedDigits m e f : ℚ) / 10 ^ f - (m : ℚ) * (2 : ℚ) ^ e| ≤ 1 / (2 * 10 ^ f) := by
  have hT : (0 : ℚ) < 10 ^ f := by positivity
  unfold JsNumber.fixedDigits
  by_cases he : e < 0
  · simp only [he, if_true]
    obtain ⟨k, hk⟩ : ∃ k : Nat, e = -(k : Int) := ⟨e.natAbs, by omega⟩
    subst hk
    simp only [Int.natAbs_neg, Int.natAbs_ofNat, zpow_neg, zpow_natCast]
    have hD : (0 : ℚ) < 2 ^ k := by positivity
    have hdiv := Nat.div_add_mod (2 * (m * 10 ^ f) + 2 ^ k) (2 * 2 ^ k)
    have hmod : (2 * (m * 10 ^ f) + 2 ^ k) % (2 * 2 ^ k) < 2 * 2 ^ k :=
      Nat.mod_lt _ (by positivity)
    generalize (2 * (m * 10 ^ f) + 2 ^ k) / (2 * 2 ^ k) = q at hdiv
    generalize (2 * (m * 10 ^ f) + 2 ^ k) % (2 * 2 ^ k) = r at hdiv hmod
    have hdivQ : (2 * 2 ^ k : ℚ) * q + r = 2 * (m * 10 ^ f) + 2 ^ k := by
      exact_mod_cast hdiv
    have hmodQ : (r : ℚ) < 2 * 2 ^ k := by exact_mod_cast hmod
    have hr0 : (0 : ℚ) ≤ r := Nat.cast_nonneg r
    have key : (q : ℚ) / 10 ^ f - (m : ℚ) * ((2 : ℚ) ^ k)⁻¹
        = (2 ^ k - r) / (2 * 2 ^ k * 10 ^ f) := by
      have hq : (q : ℚ) = (2 * (m * 10 ^ f) + 2 ^ k - r) / (2 * 2 ^ k) := by
        field_simp
        linarith
      rw [hq]
      field_simp
      ring
    rw [key, abs_div, abs_of_pos (by positivity : (0 : ℚ) < 2 * 2 ^ k * 10 ^ f),
      div_le_div_iff₀ (by positivity) (by positivity)]
    have habs : |(2 : ℚ) ^ k - r| ≤ 2 ^ k := abs_le.mpr ⟨by linarith, by linarith⟩
    nlinarith [habs, hT, hD]
  · simp only [he, if_false]
    obtain ⟨k, hk⟩ : ∃ k : Nat, e = (k : Int) := ⟨e.toNat, by omega⟩
    subst hk
    simp only [Int.toNat_ofNat, zpow_natCast, Nat.cast_mul, Nat.cast_pow, Nat.cast_ofNat]
    have : (m : ℚ) * 2 ^ k * 10 ^ f / 10 ^ f - m * 2 ^ k = 0 := by
      field_simp
    rw [this, abs_zero]
    positivity

theorem toFixed_rendering (general : JsNumber → String) (x : JsNumber) (f : Nat) (hf : 0 < f)
    (hx : x.inFixedRange = true) :
    IsFixedRendering (JsNumber.toFixed general x f) x f := by
  cases x with
  | nan => simp [JsNumber.inFixedRange] at hx
  | inf neg => simp [JsNumber.inFixedRange] at hx
  | fin neg m e =>
    simp only [JsNumber.inFixedRange] at hx
    obtain ⟨intPart, frac, h1, h2, h3, h4, h5⟩ :=
      fixedNotation_format (JsNumber.fixedDigits m e f) f hf
    refine ⟨intPart, frac, ?_, h2, h3, h4, ?_⟩
    · have h1b : (JsNumber.fixedNotation (JsNumber.fixedDigits m e f) f).data
          = intPart ++ '.' :: frac := h1
      simp only [JsNumber.toFixed, hx, if_true, JsNumber.isNegative, String.toList,
        String.data_append, h1b]
      by_cases hn : (neg && m != 0) = true
      · simp only [hn, if_true]
      · simp only [hn, if_false, Bool.false_eq_true]
    · rw [h5]
      exact fixedDigits_nearest m e f


theorem scaleDiv_spec (p q : Nat) (e : Int) (hq : 0 < q) :
    0 < (JsNumber.scaleDiv p q e).2.2 ∧
    (JsNumber.scaleDiv p q e).2.1 < (JsNumber.scaleDiv p q e).2.2 ∧
    ((JsNumber.scaleDiv p q e).1 : ℚ)
      + ((JsNumber.scaleDiv p q e).2.1 : ℚ) / ((JsNumber.scaleDiv p q e).2.2 : ℚ)
      = (p : ℚ) / q / (2 : ℚ) ^ e := by
  have hqQ : (0 : ℚ) < q := by exact_mod_cast hq
  unfold JsNumber.scaleDiv
  by_cases he : e < 0
  · obtain ⟨k, hk⟩ : ∃ k : Nat, e = -(k : Int) := ⟨e.natAbs, by omega⟩
    subst hk
    simp only [he, if_true, Int.natAbs_neg, Int.natAbs_ofNat, zpow_neg, zpow_natCast]
    refine ⟨hq, Nat.mod_lt _ hq, ?_⟩
    have hdiv := Nat.div_add_mod (p * 2 ^ k) q
    have hdivQ : (q : ℚ) * ((p * 2 ^ k / q : Nat) : ℚ) + ((p * 2 ^ k % q : Nat) : ℚ)
        = (p : ℚ) * 2 ^ k := by exact_mod_cast hdiv
    field_simp
    linarith
  · obtain ⟨k, hk⟩ : ∃ k : Nat, e = (k : Int) := ⟨e.toNat, by omega⟩
    subst hk
    simp only [he, if_false, Int.toNat_ofNat, zpow_natCast]
    have hd : 0 < q * 2 ^ k := by positivity
    refine ⟨hd, Nat.mod_lt _ hd, ?_⟩
    have hdiv := Nat.div_add_mod p (q * 2 ^ k)
    have hdivQ : ((q : ℚ) * 2 ^ k) * ((p / (q * 2 ^ k) : Nat) : ℚ)
        + ((p % (q * 2 ^ k) : Nat) : ℚ) = (p : ℚ) := by exact_mod_cast hdiv
    push_cast
    field_simp
    linarith

theorem roundHalfEven_spec (qt r d : Nat) (hd : 0 < d) (hr : r < d) :
    |(JsNumber.roundHalfEven qt r d : ℚ) - ((qt : ℚ) + (r : ℚ) / (d : ℚ))| ≤ 1 / 2 := by
  have hdQ : (0 : ℚ) < d := by exact_mod_cast hd
  have hrQ : (r : ℚ) < d := by exact_mod_cast hr
  have hr0 : (0 : ℚ) ≤ r := Nat.cast_nonneg r
  have hfrac0 : (0 : ℚ) ≤ (r : ℚ) / d := by positivity
  have hfrac1 : (r : ℚ) / d < 1 := by rw [div_lt_one hdQ]; exact hrQ
  unfold JsNumber.roundHalfEven
  split
  · rename_i h
    have h2 : (d : ℚ) ≤ 2 * r := by
      rcases h with h | h
      · exact_mod_cast Nat.le_of_lt h
      · exact_mod_cast Nat.le_of_eq h.1.symm
    have h3 : (1 : ℚ) / 2 ≤ (r : ℚ) / d := by
      rw [div_le_div_iff₀ (by norm_num) hdQ]
      linarith
    push_cast
    rw [abs_le]
    constructor <;> linarith
  · rename_i h
    have h2 : (2 : ℚ) * r ≤ d := by
      have : 2 * r ≤ d := by
        by_contra hc
        exact h (Or.inl (by omega))
      exact_mod_cast this
    have h3 : (r : ℚ) / d ≤ 1 / 2 := by
      rw [div_le_div_iff₀ hdQ (by norm_num)]
      linarith
    rw [abs_le]
    constructor <;> linarith

theorem roundDouble_error (neg : Bool) (p q : Nat) (hq : 0 < q) (n : Bool) (m : Nat) (e : Int)
    (h : JsNumber.roundDouble neg p q = JsNumber.fin n m e) :
    |(m : ℚ) * (2 : ℚ) ^ e - (p : ℚ) / q| ≤ (2 : ℚ) ^ e / 2 := by
  unfold JsNumber.roundDouble at h
  by_cases hp : p = 0
  · simp only [hp, if_true, JsNumber.fin.injEq] at h
    obtain ⟨-, rfl, rfl⟩ := h
    simp [hp]
  · simp only [hp, if_false] at h
    generalize (if (JsNumber.scaleDiv p q (max ((JsNumber.ilog2 p : Int)
      - (JsNumber.ilog2 q : Int) - 52) (-1074))).1 < 2 ^ 52
        ∧ -1074 < max ((JsNumber.ilog2 p : Int) - (JsNumber.ilog2 q : Int) - 52) (-1074)
      then max ((JsNumber.ilog2 p : Int) - (JsNumber.ilog2 q : Int) - 52) (-1074) - 1
      else max ((JsNumber.ilog2 p : Int) - (JsNumber.ilog2 q : Int) - 52) (-1074)) = e1 at h
    obtain ⟨hd, hr, hs⟩ := scaleDiv_spec p q e1 hq
    have hround := roundHalfEven_spec (JsNumber.scaleDiv p q e1).1 _ _ hd hr
    rw [hs] at hround
    have he1 : (0 : ℚ) < (2 : ℚ) ^ e1 := by positivity
    have hscaled : |((JsNumber.roundHalfEven (JsNumber.scaleDiv p q e1).1
        (JsNumber.scaleDiv p q e1).2.1 (JsNumber.scaleDiv p q e1).2.2 : Nat) : ℚ) * 2 ^ e1
        - (p : ℚ) / q| ≤ 2 ^ e1 / 2 := by
      have : ((JsNumber.roundHalfEven (JsNumber.scaleDiv p q e1).1
          (JsNumber.scaleDiv p q e1).2.1 (JsNumber.scaleDiv p q e1).2.2 : Nat) : ℚ) * 2 ^ e1
          - (p : ℚ) / q
          = (((JsNumber.roundHalfEven (JsNumber.scaleDiv p q e1).1
            (JsNumber.scaleDiv p q e1).2.1 (JsNumber.scaleDiv p q e1).2.2 : Nat) : ℚ)
            - (p : ℚ) / q / 2 ^ e1) * 2 ^ e1 := by
        field_simp
        ring
      rw [this, abs_mul, abs_of_pos he1]
      calc _ ≤ 1 / 2 * (2 : ℚ) ^ e1 := mul_le_mul_of_nonneg_right hround he1.le
        _ = 2 ^ e1 / 2 := by ring
    split at h
    · rename_i hm
      rw [hm] at hscaled
      split at h
      · exact absurd h (by simp)
      · simp only [JsNumber.fin.injEq] at h
        obtain ⟨-, rfl, rfl⟩ := h
        have hpow : (2 : ℚ) ^ (e1 + 1) = 2 ^ e1 * 2 := by
          rw [zpow_add₀ (by norm_num : (2 : ℚ) ≠ 0)]
          simp
        rw [hpow]
        have hval : ((2 ^ 52 : Nat) : ℚ) * (2 ^ e1 * 2) = ((2 ^ 53 : Nat) : ℚ) * 2 ^ e1 := by
          push_cast
          ring
        rw [hval]
        linarith
    · split at h
      · exact absurd h (by simp)
      · simp only [JsNumber.fin.injEq] at h
        obtain ⟨-, rfl, rfl⟩ := h
        exact hscaled

theorem div_accuracy (x y : JsNumber) (hy : y.magnitude ≠ 0)
    (hr : (x.div y).inFixedRange = true) :
    |(x.div y).magnitude - x.magnitude / y.magnitude| ≤ (x.div y).ulp / 2 := by
  cases x with
  | nan => simp [JsNumber.div, JsNumber.inFixedRange] at hr
  | inf a =>
    cases y with
    | nan => simp [JsNumber.div, JsNumber.inFixedRange] at hr
    | inf b => simp [JsNumber.div, JsNumber.inFixedRange] at hr
    | fin b n f => simp [JsNumber.div, JsNumber.inFixedRange] at hr
  | fin a m e =>
    cases y with
    | nan => simp [JsNumber.div, JsNumber.inFixedRange] at hr
    | inf b => simp [JsNumber.magnitude] at hy
    | fin b n f =>
      have hn : n ≠ 0 := by
        intro h0
        simp [JsNumber.magnitude, h0] at hy
      have hnpos : 0 < n := Nat.pos_of_ne_zero hn
      have hnQ : (n : ℚ) ≠ 0 := by exact_mod_cast hn
      cases hres : (JsNumber.fin a m e).div (JsNumber.fin b n f) with
      | nan => rw [hres] at hr; simp [JsNumber.inFixedRange] at hr
      | inf c => rw [hres] at hr; simp [JsNumber.inFixedRange] at hr
      | fin c m2 e2 =>
        simp only [JsNumber.magnitude, JsNumber.ulp]
        simp only [JsNumber.div, hn, if_false] at hres
        by_cases hg : e - f < 0
        · simp only [hg, if_true] at hres
          have herr := roundDouble_error _ m (n * 2 ^ (e - f).natAbs) (by positivity) c m2 e2 hres
          have hval : (m : ℚ) / ((n * 2 ^ (e - f).natAbs : Nat) : ℚ)
              = (m : ℚ) * 2 ^ e / ((n : ℚ) * 2 ^ f) := by
            obtain ⟨k, hk⟩ : ∃ k : Nat, e - f = -(k : Int) := ⟨(e - f).natAbs, by omega⟩
            have he : e = f - k := by omega
            rw [hk, he]
            simp only [Int.natAbs_neg, Int.natAbs_ofNat]
            push_cast
            rw [zpow_sub₀ (by norm_num : (2 : ℚ) ≠ 0), zpow_natCast]
            field_simp
            ring
          rw [← hval]
          exact herr
        · simp only [hg, if_false] at hres
          have herr := roundDouble_error _ (m * 2 ^ (e - f).toNat) n hnpos c m2 e2 hres
          have hval : ((m * 2 ^ (e - f).toNat : Nat) : ℚ) / (n : ℚ)
              = (m : ℚ) * 2 ^ e / ((n : ℚ) * 2 ^ f) := by
            obtain ⟨k, hk⟩ : ∃ k : Nat, e - f = (k : Int) := ⟨(e - f).toNat, by omega⟩
            have he : e = f + k := by omega
            rw [hk, he]
            simp only [Int.toNat_ofNat]
            push_cast
            rw [zpow_add₀ (by norm_num : (2 : ℚ) ≠ 0), zpow_natCast]
            field_simp
            ring
          rw [← hval]
          exact herr

theorem mul_accuracy (x y : JsNumber) (hr : (x.mul y).inFixedRange = true) :
    |(x.mul y).magnitude - x.magnitude * y.magnitude| ≤ (x.mul y).ulp / 2 := by
  cases x with
  | nan => simp [JsNumber.mul, JsNumber.inFixedRange] at hr
  | inf a =>
    cases y with
    | nan => simp [JsNumber.mul, JsNumber.inFixedRange] at hr
    | inf b => simp [JsNumber.mul, JsNumber.inFixedRange] at hr
    | fin b n f =>
      by_cases h0 : n = 0 <;> simp [JsNumber.mul, JsNumber.inFixedRange, h0] at hr
  | fin a m e =>
    cases y with
    | nan => simp [JsNumber.mul, JsNumber.inFixedRange] at hr
    | inf b =>
      by_cases h0 : m = 0 <;> simp [JsNumber.mul, JsNumber.inFixedRange, h0] at hr
    | fin b n f =>
      cases hres : (JsNumber.fin a m e).mul (JsNumber.fin b n f) with
      | nan => rw [hres] at hr; simp [JsNumber.inFixedRange] at hr
      | inf c => rw [hres] at hr; simp [JsNumber.inFixedRange] at hr
      | fin c m2 e2 =>
        simp only [JsNumber.magnitude, JsNumber.ulp]
        simp only [JsNumber.mul] at hres
        by_cases hg : e + f < 0
        · simp only [hg, if_true] at hres
          have herr := roundDouble_error _ (m * n) (2 ^ (e + f).natAbs) (by positivity) c m2 e2
            hres
          have hval : ((m * n : Nat) : ℚ) / ((2 ^ (e + f).natAbs : Nat) : ℚ)
              = (m : ℚ) * 2 ^ e * ((n : ℚ) * 2 ^ f) := by
            obtain ⟨k, hk⟩ : ∃ k : Nat, e + f = -(k : Int) := ⟨(e + f).natAbs, by omega⟩
            have he : e = -(k : Int) - f := by omega
            rw [hk, he]
            simp only [Int.natAbs_neg, Int.natAbs_ofNat]
            push_cast
            rw [zpow_sub₀ (by norm_num : (2 : ℚ) ≠ 0), zpow_neg, zpow_natCast]
            field_simp
            ring
          rw [← hval]
          exact herr
        · simp only [hg, if_false] at hres
          have herr := roundDouble_error _ (m * n * 2 ^ (e + f).toNat) 1 (by decide) c m2 e2
            hres
          have hval : ((m * n * 2 ^ (e + f).toNat : Nat) : ℚ) / ((1 : Nat) : ℚ)
              = (m : ℚ) * 2 ^ e * ((n : ℚ) * 2 ^ f) := by
            obtain ⟨k, hk⟩ : ∃ k : Nat, e + f = (k : Int) := ⟨(e + f).toNat, by omega⟩
            have he : e = (k : Int) - f := by omega
            rw [hk, he]
            simp only [Int.toNat_ofNat]
            push_cast
            rw [zpow_sub₀ (by norm_num : (2 : ℚ) ≠ 0), zpow_natCast]
            field_simp
            ring
          rw [← hval]
          exact herr

theorem literal_magnitudes :
    (JsNumber.ofNat 1000).magnitude = 1000 ∧ (JsNumber.ofNat 60).magnitude = 60 ∧
    |(JsNumber.ofRatio 36 10).magnitude - 36 / 10| ≤ 1 / 2 ^ 52 := by
  have h1 : JsNumber.ofNat 1000 = .fin false 8796093022208000 (-43) := by decide
  have h2 : JsNumber.ofNat 60 = .fin false 8444249301319680 (-47) := by decide
  have h3 : JsNumber.ofRatio 36 10 = .fin false 8106479329266893 (-51) := by decide
  rw [h1, h2, h3]
  simp only [JsNumber.magnitude]
  refine ⟨by norm_num, by norm_num, ?_⟩
  rw [abs_le]
  constructor <;> norm_num

theorem null_field_cells (host : Host) (a : Activity) :
    (a.distance = .null → (activityRow host a).getD 3 "" = "0.00") ∧
    (a.average_speed = .null → (activityRow host a).getD 8 "" = "0.0") := by
  refine ⟨?_, ?_⟩
  · intro hx
    simp only [activityRow, List.getD_cons_succ, List.getD_cons_zero, distanceCell, toNumber, hx]
    rfl
  · intro hx
    simp only [activityRow, List.getD_cons_succ, List.getD_cons_zero, speedCell, toNumber, hx]
    rfl

/-- C7, as stated, fails: for an activity with `distance = 1e24` the quotient by 1000 is the
Number `10^21`, where `toFixed` leaves fixed notation: the Distance cell is the text `1e+21`,
which is no number with two decimals. -/
theorem unit_conversion_counterexample :
    (JsNumber.ofNat (10 ^ 24)).div (JsNumber.ofNat 1000) = JsNumber.ofNat (10 ^ 21) ∧
    (activityRow sampleHostLarge sampleActivityLarge).getD 3 "" = "1e+21" ∧
    ∀ x, ¬ IsFixedRendering "1e+21" x 2 := by
  refine ⟨by set_option maxRecDepth 100000 in decide,
    by set_option maxRecDepth 100000 in decide, ?_⟩
  rintro x ⟨intPart, frac, h1, -, -, -, -⟩
  have hmem : '.' ∈ "1e+21".toList := by
    rw [h1]
    simp
  revert hmem
  decide

/-- C7 (amended): for every activity, each of `distance`, `moving_time`, `average_speed` and
`max_speed` that is a number whose converted value (the binary64 quotient by 1000 or by
60, the binary64 product with the binary64 number nearest to 3.6) is finite and below `10^21`
is written in fixed notation with exactly 2 decimals (1 decimal for the speeds), as the
nearest such decimal to the converted value; the converted value is within half a unit in
the last place of the exact quotient or product.  `distance = 5000`, `moving_time = 1800`,
`average_speed = 2.5` give `5.00`, `30.00`, `9.0`. -/
theorem unit_conversion (host : Host) (a : Activity) :
    (∀ x, a.distance = .number x → (x.div (JsNumber.ofNat 1000)).inFixedRange = true →
      IsFixedRendering ((activityRow host a).getD 3 "") (x.div (JsNumber.ofNat 1000)) 2 ∧
      |(x.div (JsNumber.ofNat 1000)).magnitude - x.magnitude / 1000|
        ≤ (x.div (JsNumber.ofNat 1000)).ulp / 2) ∧
    (∀ x, a.moving_time = .number x → (x.div (JsNumber.ofNat 60)).inFixedRange = true →
      IsFixedRendering ((activityRow host a).getD 4 "") (x.div (JsNumber.ofNat 60)) 2 ∧
      |(x.div (JsNumber.ofNat 60)).magnitude - x.magnitude / 60|
        ≤ (x.div (JsNumber.ofNat 60)).ulp / 2) ∧
    (∀ x, a.average_speed = .number x → (x.mul (JsNumber.ofRatio 36 10)).inFixedRange = true →
      IsFixedRendering ((activityRow host a).getD 8 "") (x.mul (JsNumber.ofRatio 36 10)) 1 ∧
      |(x.mul (JsNumber.ofRatio 36 10)).magnitude
          - x.magnitude * (JsNumber.ofRatio 36 10).magnitude|
        ≤ (x.mul (JsNumber.ofRatio 36 10)).ulp / 2) ∧
    (∀ x, a.max_speed = .number x → (x.mul (JsNumber.ofRatio 36 10)).inFixedRange = true →
      IsFixedRendering ((activityRow host a).getD 9 "") (x.mul (JsNumber.ofRatio 36 10)) 1 ∧
      |(x.mul (JsNumber.ofRatio 36 10)).magnitude
          - x.magnitude * (JsNumber.ofRatio 36 10).magnitude|
        ≤ (x.mul (JsNumber.ofRatio 36 10)).ulp / 2) ∧
    |(JsNumber.ofRatio 36 10).magnitude - 36 / 10| ≤ 1 / 2 ^ 52 ∧
    (a.distance = .number (JsNumber.ofNat 5000) → (activityRow host a).getD 3 "" = "5.00") ∧
    (a.moving_time = .number (JsNumber.ofNat 1800) →
      (activityRow host a).getD 4 "" = "30.00") ∧
    (a.average_speed = .number (JsNumber.ofRatio 25 10) →
      (activityRow host a).getD 8 "" = "9.0") := by
  obtain ⟨hk, hm, hc⟩ := literal_magnitudes
  refine ⟨?_, ?_, ?_, ?_, hc, ?_, ?_, ?_⟩
  · intro x hx hr
    refine ⟨?_, ?_⟩
    · simp only [activityRow, List.getD_cons_succ, List.getD_cons_zero, distanceCell, toNumber,
        hx]
      exact toFixed_rendering _ _ 2 (by decide) hr
    · have h := div_accuracy x (JsNumber.ofNat 1000) (by rw [hk]; norm_num) hr
      rwa [hk] at h
  · intro x hx hr
    refine ⟨?_, ?_⟩
    · simp only [activityRow, List.getD_cons_succ, List.getD_cons_zero, movingTimeCell,
        toNumber, hx]
      exact toFixed_rendering _ _ 2 (by decide) hr
    · have h := div_accuracy x (JsNumber.ofNat 60) (by rw [hm]; norm_num) hr
      rwa [hm] at h
  · intro x hx hr
    refine ⟨?_, mul_accuracy x _ hr⟩
    simp only [activityRow, List.getD_cons_succ, List.getD_cons_zero, speedCell, toNumber, hx]
    exact toFixed_rendering _ _ 1 (by decide) hr
  · intro x hx hr
    refine ⟨?_, mul_accuracy x _ hr⟩
    simp only [activityRow, List.getD_cons_succ, List.getD_cons_zero, speedCell, toNumber, hx]
    exact toFixed_rendering _ _ 1 (by decide) hr
  · intro hx
    simp only [activityRow, List.getD_cons_succ, List.getD_cons_zero, distanceCell, toNumber, hx]
    rfl
  · intro hx
    simp only [activityRow, List.getD_cons_succ, List.getD_cons_zero, movingTimeCell, toNumber,
      hx]
    rfl
  · intro hx
    simp only [activityRow, List.getD_cons_succ, List.getD_cons_zero, speedCell, toNumber, hx]
    set_option maxRecDepth 100000 in rfl

/-- C7 (amended), at the sample activity: 5000 m, 1800 s, 2.5 m/s. -/
theorem unit_conversion_witness :
    (activityRow sampleHost
      (sampleActivity 7 "2024-03-10T07:00:00Z" "2024-03-10T08:00:00")).getD 3 "" = "5.00" ∧
    (activityRow sampleHost
      (sampleActivity 7 "2024-03-10T07:00:00Z" "2024-03-10T08:00:00")).getD 4 "" = "30.00" ∧
    (activityRow sampleHost
      (sampleActivity 7 "2024-03-10T07:00:00Z" "2024-03-10T08:00:00")).getD 8 "" = "9.0" ∧
    IsFixedRendering "5.00" ((JsNumber.ofNat 5000).div (JsNumber.ofNat 1000)) 2 :=
  have h := unit_conversion sampleHost
    (sampleActivity 7 "2024-03-10T07:00:00Z" "2024-03-10T08:00:00")
  ⟨h.2.2.2.2.2.1 rfl, h.2.2.2.2.2.2.1 rfl, h.2.2.2.2.2.2.2 rfl,
    (h.2.2.2.2.2.1 rfl) ▸ (h.1 _ rfl (by decide)).1⟩

/-! ## C11: the spreadsheet after a failed sync -/

theorem findSheet_updateSheetHeaders_other (env : Env) (ss : Spreadsheet)
    (d title : String) (hne : title ≠ d) :
    findSheet (updateSheetHeaders env ss d).1 title = findSheet ss title := by
  unfold updateSheetHeaders
  split
  · rfl
  · split
    · rfl
    · exact findSheet_modifySheet_other _ _ _ _ hne

theorem updateSheetHeaders_store (env : Env) (ss : Spreadsheet) (d : String) :
    ((updateSheetHeaders env ss d).1 = ss ∧
      (updateSheetHeaders env ss d).2 = ⟨.headerWrite d, false⟩) ∨
    ((findSheet ss d).isSome = true ∧
      (updateSheetHeaders env ss d).1 = modifySheet d writeHeaderRow ss ∧
      (updateSheetHeaders env ss d).2 = ⟨.headerWrite d, true⟩) := by
  unfold updateSheetHeaders
  split
  · exact Or.inl ⟨rfl, rfl⟩
  · split
    · exact Or.inl ⟨rfl, rfl⟩
    · rename_i sh hsh
      exact Or.inr ⟨by simp [hsh], rfl, rfl⟩

theorem appendActivities_cases (env : Env) (ss : Spreadsheet) (d : String)
    (acts : List Activity) :
    (acts = [] ∧ appendActivities env ss d acts = (some ss, [])) ∨
    (acts ≠ [] ∧ appendActivities env ss d acts
      = (none, [⟨.rowsAppend d (acts.map (activityRow env.host)), false⟩])) ∨
    (acts ≠ [] ∧ env.appendFails = false ∧ (findSheet ss d).isSome = true ∧
      appendActivities env ss d acts
        = (some (modifySheet d (appendRows (acts.map (activityRow env.host))) ss),
            [⟨.rowsAppend d (acts.map (activityRow env.host)), true⟩])) := by
  unfold appendActivities
  by_cases h0 : acts.length = 0
  · left
    exact ⟨List.length_eq_zero.mp h0, by simp [h0]⟩
  · have hne : acts ≠ [] := fun h => h0 (by simp [h])
    by_cases hf : env.appendFails = true
    · right; left
      exact ⟨hne, by simp [h0, hf]⟩
    · have hf2 : env.appendFails = false := by simpa using hf
      cases hs : findSheet ss d with
      | none =>
        right; left
        exact ⟨hne, by simp [h0, hf2]⟩
      | some sh =>
        right; right
        exact ⟨hne, hf2, rfl, by simp [h0, hf2]⟩

theorem writeStep_cases (env : Env) (ss : Spreadsheet) (d : String)
    (acts newActs : List Activity) (before : List Event) :
    (newActs = [] ∧ acts = [] ∧
      writeStep env ss d acts newActs before = ⟨.success 0, ss, before⟩) ∨
    (newActs = [] ∧ acts ≠ [] ∧
      writeStep env ss d acts newActs before
        = ⟨.success 0, (updateSheetHeaders env ss d).1,
            before ++ [(updateSheetHeaders env ss d).2]⟩) ∨
    (newActs ≠ [] ∧
      writeStep env ss d acts newActs before
        = ⟨.serverError, (updateSheetHeaders env ss d).1,
            before ++ [(updateSheetHeaders env ss d).2,
              ⟨.rowsAppend d (newActs.map (activityRow env.host)), false⟩]⟩) ∨
    (newActs ≠ [] ∧ env.appendFails = false ∧
      (findSheet (updateSheetHeaders env ss d).1 d).isSome = true ∧
      writeStep env ss d acts newActs before
        = ⟨.success newActs.length,
            modifySheet d (appendRows (newActs.map (activityRow env.host)))
              (updateSheetHeaders env ss d).1,
            before ++ [(updateSheetHeaders env ss d).2,
              ⟨.rowsAppend d (newActs.map (activityRow env.host)), true⟩]⟩) := by
  cases hnew : newActs with
  | nil =>
    cases hacts : acts with
    | nil => left; exact ⟨rfl, rfl, by simp [writeStep]⟩
    | cons a rest => right; left; exact ⟨rfl, by simp, by simp [writeStep]⟩
  | cons b more =>
    rw [← hnew]
    have hne : newActs ≠ [] := by rw [hnew]; simp
    have hpos : 0 < newActs.length := List.length_pos.mpr hne
    have hw : writeStep env ss d acts newActs before =
        match appendActivities env (updateSheetHeaders env ss d).1 d newActs with
        | (some ss2, evs) => ⟨.success newActs.length, ss2,
            before ++ (updateSheetHeaders env ss d).2 :: evs⟩
        | (none, evs) => ⟨.serverError, (updateSheetHeaders env ss d).1,
            before ++ (updateSheetHeaders env ss d).2 :: evs⟩ := by
      simp [writeStep, hpos]
    rcases appendActivities_cases env (updateSheetHeaders env ss d).1 d newActs with
      ⟨hnil, _⟩ | ⟨_, happ⟩ | ⟨_, hf, hs, happ⟩
    · exact absurd hnil hne
    · right; right; left
      rw [hw, happ]
      exact ⟨hne, rfl⟩
    · right; right; right
      rw [hw, happ]
      exact ⟨hne, hf, hs, rfl⟩

theorem POST_cases (env : Env) (ss : Spreadsheet) (req : SyncRequest) (d : String)
    (hd : truthyText req.displayName = some d) :
    ∃ pre : List Event,
      (∀ e ∈ pre, e.call.kind = .usersRead ∨ e.call.kind = .tokenRefresh ∨
        e.call.kind = .latestDateRead) ∧
      ((∃ r, POST env ss (some req) = ⟨r, ss, pre⟩ ∧ r.isSuccess = false) ∨
       (∃ tok, env.activitiesEndpoint tok (listParams (resolveWindow env ss req d).1.after
            (resolveWindow env ss req d).1.before) = none ∧
          POST env ss (some req) = ⟨.serverError, ss,
            pre ++ [⟨.activityList tok (listParams (resolveWindow env ss req d).1.after
              (resolveWindow env ss req d).1.before), false⟩]⟩) ∨
       (∃ tok fetched, env.activitiesEndpoint tok
            (listParams (resolveWindow env ss req d).1.after
              (resolveWindow env ss req d).1.before) = some fetched ∧
          POST env ss (some req) = writeStep env ss d (sortActivities env.host fetched)
            (filterNew (getActivityIds env ss d).1 (sortActivities env.host fetched))
            (pre ++ [⟨.activityList tok (listParams (resolveWindow env ss req d).1.after
              (resolveWindow env ss req d).1.before), true⟩, (getActivityIds env ss d).2]))) := by
  rw [POST_some env ss req d hd]
  cases hu : (getUsers env ss).1.find? (fun user => user.displayName == some d) with
  | none =>
    refine ⟨[(getUsers env ss).2], ?_, Or.inl ⟨.notFound, rfl, rfl⟩⟩
    intro e he
    simp only [List.mem_singleton] at he
    subst he
    left; simp [getUsers_call, Call.kind]
  | some user =>
    simp only
    cases ht : (refreshAccessToken env user.refreshToken).1 with
    | none =>
      refine ⟨[(getUsers env ss).2, (refreshAccessToken env user.refreshToken).2], ?_,
        Or.inl ⟨.serverError, rfl, rfl⟩⟩
      intro e he
      simp only [List.mem_cons, List.mem_singleton, List.not_mem_nil, or_false] at he
      rcases he with rfl | rfl
      · left; simp [getUsers_call, Call.kind]
      · right; left; rw [refreshAccessToken_event]; rfl
    | some tok =>
      simp only
      refine ⟨[(getUsers env ss).2, (refreshAccessToken env user.refreshToken).2]
        ++ (resolveWindow env ss req d).2, prefix_calls env ss req d user.refreshToken, ?_⟩
      right
      unfold fetchStep
      simp only [fetchActivities_eq_endpoint, fetchActivities_event]
      cases hf : env.activitiesEndpoint tok (listParams (resolveWindow env ss req d).1.after
          (resolveWindow env ss req d).1.before) with
      | none =>
        refine Or.inl ⟨tok, hf, ?_⟩
        simp [hf]
      | some fetched =>
        refine Or.inr ⟨tok, fetched, hf, ?_⟩
        simp [hf]

theorem POST_failed_store (env : Env) (ss : Spreadsheet) (body : Option SyncRequest)
    (hfail : (POST env ss body).response.isSuccess = false) :
    ((POST env ss body).store = ss ∧
      ∀ e ∈ (POST env ss body).trace, e.call.kind ≠ .rowsAppend ∧ e.call.kind ≠ .headerWrite) ∨
    ∃ req d, body = some req ∧ truthyText req.displayName = some d ∧
      (POST env ss body).store = (updateSheetHeaders env ss d).1 ∧
      ∃ e, (POST env ss body).trace.getLast? = some e ∧ e.call.kind = .rowsAppend ∧
        e.ok = false := by
  cases body with
  | none => left; simp [POST]
  | some req =>
    cases hd : truthyText req.displayName with
    | none => left; simp [POST, hd]
    | some d =>
      obtain ⟨pre, hpre, hcase⟩ := POST_cases env ss req d hd
      have hprek : ∀ e ∈ pre, e.call.kind ≠ .rowsAppend ∧ e.call.kind ≠ .headerWrite := by
        intro e he
        rcases hpre e he with h | h | h <;> simp [h]
      rcases hcase with ⟨r, hr, _⟩ | ⟨tok, _, hr⟩ | ⟨tok, fetched, _, hr⟩
      · left
        rw [hr]
        exact ⟨rfl, hprek⟩
      · left
        rw [hr]
        refine ⟨rfl, ?_⟩
        intro e he
        simp only [List.mem_append, List.mem_singleton] at he
        rcases he with he | rfl
        · exact hprek e he
        · simp [Call.kind]
      · rw [hr] at hfail ⊢
        rcases writeStep_cases env ss d (sortActivities env.host fetched)
            (filterNew (getActivityIds env ss d).1 (sortActivities env.host fetched))
            (pre ++ [⟨.activityList tok (listParams (resolveWindow env ss req d).1.after
              (resolveWindow env ss req d).1.before), true⟩, (getActivityIds env ss d).2])
          with ⟨_, _, hw⟩ | ⟨_, _, hw⟩ | ⟨_, hw⟩ | ⟨_, _, _, hw⟩
        · rw [hw] at hfail; simp [Response.isSuccess] at hfail
        · rw [hw] at hfail; simp [Response.isSuccess] at hfail
        · right
          rw [hw]
          refine ⟨req, d, rfl, hd, rfl,
            ⟨.rowsAppend d ((filterNew (getActivityIds env ss d).1
              (sortActivities env.host fetched)).map (activityRow env.host)), false⟩,
            ?_, rfl, rfl⟩
          simp [List.getLast?_append]
        · rw [hw] at hfail; simp [Response.isSuccess] at hfail

/-- C11, as stated, fails: the table of `ann` has a header of an older schema; a sync fetches
activity 7 and its row append fails.  The response is 500, no row was appended, and row 1
of the table has been rewritten to the fixed header. -/
theorem failed_sync_store_counterexample :
    (POST { sampleEnv [sampleActivity 7 "2024-03-10T07:00:00Z" "2024-03-10T08:00:00"] with
            appendFails := true } sampleStoreStale (some sampleRequest)).response
      = .serverError ∧
    sheetRows sampleStoreStale "ann" = [["Activity ID", "Name", "Type"]] ∧
    sheetRows
      (POST { sampleEnv [sampleActivity 7 "2024-03-10T07:00:00Z" "2024-03-10T08:00:00"] with
              appendFails := true } sampleStoreStale (some sampleRequest)).store "ann"
      = [HEADERS] := by
  decide

/-- C11 (amended): after a sync that ends in a failure response the data rows of every table
are what they were; the spreadsheet as a whole is what it was unless the failure is the row
append; after a failed row append the only sheet that can differ is the user's table, and
only in its row 1, rewritten by the header repair that precedes the append. -/
theorem failed_sync_store (env : Env) (ss : Spreadsheet) (body : Option SyncRequest)
    (hfail : (POST env ss body).response.isSuccess = false) :
    (∀ title, dataRows (POST env ss body).store title = dataRows ss title) ∧
    ((∀ e ∈ (POST env ss body).trace, e.call.kind ≠ .rowsAppend) →
      (POST env ss body).store = ss) ∧
    (∀ title, findSheet (POST env ss body).store title ≠ findSheet ss title →
      (∃ req, body = some req ∧ truthyText req.displayName = some title) ∧
      (∃ e, (POST env ss body).trace.getLast? = some e ∧ e.call.kind = .rowsAppend ∧
        e.ok = false) ∧
      sheetRows (POST env ss body).store title = writeHeaderRow (sheetRows ss title)) := by
  rcases POST_failed_store env ss body hfail with ⟨hs, hk⟩ | ⟨req, d, hb, hd, hs, e, hl, hek, hok⟩
  · refine ⟨fun title => by rw [hs], fun _ => hs, ?_⟩
    intro title hne
    rw [hs] at hne
    exact absurd rfl hne
  · refine ⟨fun title => by rw [hs, dataRows_updateSheetHeaders], ?_, ?_⟩
    · intro hno
      exact absurd hek (hno e (List.mem_of_getLast?_eq_some hl))
    · intro title hne
      rw [hs] at hne ⊢
      have htitle : title = d := by
        by_contra hc
        exact hne (findSheet_updateSheetHeaders_other env ss d title hc)
      subst htitle
      refine ⟨⟨req, hb, hd⟩, ⟨e, hl, hek, hok⟩, ?_⟩
      rcases updateSheetHeaders_store env ss title with ⟨h, _⟩ | ⟨hsome, h, _⟩
      · rw [h] at hne
        exact absurd rfl hne
      · rw [h]
        cases hf : findSheet ss title with
        | none => rw [hf] at hsome; exact absurd hsome (by decide)
        | some sh => simp [sheetRows, findSheet_modifySheet_same, hf]

/-- C11 (amended), at a sync of `ann` whose row append fails on the table with activity 7. -/
theorem failed_sync_store_witness :
    dataRows
      (POST { sampleEnv [sampleActivity 8 "2024-03-11T07:00:00Z" "2024-03-11T08:00:00"] with
              appendFails := true } sampleStoreOne (some sampleRequest)).store "ann"
      = dataRows sampleStoreOne "ann" :=
  (failed_sync_store
    { sampleEnv [sampleActivity 8 "2024-03-11T07:00:00Z" "2024-03-11T08:00:00"] with
        appendFails := true } sampleStoreOne (some sampleRequest)
    (by set_option maxRecDepth 100000 in decide)).1 "ann"

/-! ## C12: which writes a sync issues -/

theorem POST_fetched (env : Env) (ss : Spreadsheet) (req : SyncRequest) (d tok : String)
    (p : ListParams) (fetched : List Activity)
    (hd : truthyText req.displayName = some d)
    (he : (⟨.activityList tok p, true⟩ : Event) ∈ (POST env ss (some req)).trace)
    (hend : env.activitiesEndpoint tok p = some fetched) :
    ∃ pre : List Event,
      (∀ e ∈ pre, e.call.kind ≠ .headerWrite ∧ e.call.kind ≠ .rowsAppend) ∧
      p = listParams (resolveWindow env ss req d).1.after (resolveWindow env ss req d).1.before ∧
      POST env ss (some req) = writeStep env ss d (sortActivities env.host fetched)
        (filterNew (getActivityIds env ss d).1 (sortActivities env.host fetched)) pre := by
  obtain ⟨pre, hpre, hcase⟩ := POST_cases env ss req d hd
  have hnotpre : (⟨.activityList tok p, true⟩ : Event) ∉ pre := by
    intro h
    rcases hpre _ h with h | h | h <;> simp [Call.kind] at h
  rcases hcase with ⟨r, hr, _⟩ | ⟨tok2, _, hr⟩ | ⟨tok2, fetched2, hend2, hr⟩
  · rw [hr] at he
    exact absurd he hnotpre
  · rw [hr] at he
    simp only [List.mem_append, List.mem_singleton] at he
    rcases he with he | he
    · exact absurd he hnotpre
    · simp at he
  · rw [hr] at he
    obtain ⟨rest, h1, h2⟩ := writeStep_trace env ss d (sortActivities env.host fetched2)
      (filterNew (getActivityIds env ss d).1 (sortActivities env.host fetched2))
      (pre ++ [⟨.activityList tok2 (listParams (resolveWindow env ss req d).1.after
        (resolveWindow env ss req d).1.before), true⟩, (getActivityIds env ss d).2])
    rw [h1] at he
    simp only [List.mem_append, List.mem_cons, List.mem_singleton, List.not_mem_nil,
      or_false] at he
    have hev : tok = tok2 ∧ p = listParams (resolveWindow env ss req d).1.after
        (resolveWindow env ss req d).1.before := by
      rcases he with (he | he | he) | he
      · exact absurd he hnotpre
      · simpa using he
      · have := congrArg (fun e => e.call.kind) he
        simp [getActivityIds_call, Call.kind] at this
      · rcases h2 _ he with h | h <;> simp [Call.kind] at h
    obtain ⟨rfl, rfl⟩ := hev
    rw [hend] at hend2
    simp only [Option.some.injEq] at hend2
    subst hend2
    refine ⟨_, ?_, rfl, hr⟩
    intro e hmem
    simp only [List.mem_append, List.mem_cons, List.mem_singleton, List.not_mem_nil,
      or_false] at hmem
    rcases hmem with hmem | rfl | rfl
    · rcases hpre e hmem with h | h | h <;> simp [h]
    · simp [Call.kind]
    · simp [getActivityIds_call, Call.kind]

theorem writeStep_header_effect (env : Env) (ss : Spreadsheet) (d : String)
    (acts newActs : List Activity) (pre : List Event)
    (hpre : ∀ e ∈ pre, e.call.kind ≠ .headerWrite ∧ e.call.kind ≠ .rowsAppend)
    (hev : (⟨.headerWrite d, true⟩ : Event) ∈ (writeStep env ss d acts newActs pre).trace) :
    (sheetRows (writeStep env ss d acts newActs pre).store d).head?
      = (writeHeaderRow (sheetRows ss d)).head? := by
  have hnotpre : (⟨.headerWrite d, true⟩ : Event) ∉ pre := by
    intro h
    exact (hpre _ h).1 rfl
  have hmod : (updateSheetHeaders env ss d).2 = ⟨.headerWrite d, true⟩ →
      sheetRows (updateSheetHeaders env ss d).1 d = writeHeaderRow (sheetRows ss d) := by
    intro h2
    rcases updateSheetHeaders_store env ss d with ⟨_, h⟩ | ⟨hsome, h, _⟩
    · rw [h] at h2
      simp at h2
    · rw [h]
      cases hf : findSheet ss d with
      | none => rw [hf] at hsome; exact absurd hsome (by decide)
      | some sh => simp [sheetRows, findSheet_modifySheet_same, hf]
  rcases writeStep_cases env ss d acts newActs pre with
    ⟨_, _, hw⟩ | ⟨_, _, hw⟩ | ⟨_, hw⟩ | ⟨_, _, hsome, hw⟩
  · rw [hw] at hev
    exact absurd hev hnotpre
  · rw [hw] at hev ⊢
    simp only [List.mem_append, List.mem_singleton] at hev
    rcases hev with hev | hev
    · exact absurd hev hnotpre
    · rw [hmod hev.symm]
  · rw [hw] at hev ⊢
    simp only [List.mem_append, List.mem_cons, List.mem_singleton, List.not_mem_nil,
      or_false] at hev
    rcases hev with hev | hev | hev
    · exact absurd hev hnotpre
    · rw [hmod hev.symm]
    · simp at hev
  · rw [hw] at hev ⊢
    simp only [List.mem_append, List.mem_cons, List.mem_singleton, List.not_mem_nil,
      or_false] at hev
    rcases hev with hev | hev | hev
    · exact absurd hev hnotpre
    · cases hf : findSheet (updateSheetHeaders env ss d).1 d with
      | none => rw [hf] at hsome; exact absurd hsome (by decide)
      | some sh =>
        have hrows : sh.rows = writeHeaderRow (sheetRows ss d) := by
          rw [← hmod hev.symm, sheetRows_of_findSheet _ _ sh hf]
        generalize sheetRows ss d = R at hrows ⊢
        simp only [sheetRows, findSheet_modifySheet_same, hf, Option.map_some', appendRows,
          hrows]
        cases R <;> simp [writeHeaderRow]
    · simp at hev

theorem sortActivities_eq_nil (host : Host) (l : List Activity) :
    sortActivities host l = [] ↔ l = [] := by
  constructor
  · intro h
    have hp := sortActivities_perm host l
    rw [h] at hp
    exact List.perm_nil.mp hp.symm
  · intro h
    subst h
    rfl

theorem writeStep_gating (env : Env) (ss : Spreadsheet) (d : String)
    (acts newActs : List Activity) (pre : List Event)
    (hpre : ∀ e ∈ pre, e.call.kind ≠ .headerWrite ∧ e.call.kind ≠ .rowsAppend)
    (hsub : newActs.Sublist acts) :
    ((∃ e ∈ (writeStep env ss d acts newActs pre).trace, e.call.kind = .headerWrite)
      ↔ acts ≠ []) ∧
    ((∃ e ∈ (writeStep env ss d acts newActs pre).trace, e.call.kind = .rowsAppend)
      ↔ newActs ≠ []) ∧
    (acts ≠ [] → ∃ e ∈ (writeStep env ss d acts newActs pre).trace, e.call = .headerWrite d) ∧
    (acts = [] → (writeStep env ss d acts newActs pre).store = ss) ∧
    (newActs = [] → ∀ title,
      dataRows (writeStep env ss d acts newActs pre).store title = dataRows ss title) := by
  have hpre1 : ¬ ∃ e ∈ pre, e.call.kind = .headerWrite := fun ⟨e, he, hk⟩ => (hpre e he).1 hk
  have hpre2 : ¬ ∃ e ∈ pre, e.call.kind = .rowsAppend := fun ⟨e, he, hk⟩ => (hpre e he).2 hk
  have hcall := updateSheetHeaders_call env ss d
  have hcallk : (updateSheetHeaders env ss d).2.call.kind = .headerWrite := by
    rw [hcall]; rfl
  rcases writeStep_cases env ss d acts newActs pre with
    ⟨hn, ha, hw⟩ | ⟨hn, ha, hw⟩ | ⟨hn, hw⟩ | ⟨hn, _, _, hw⟩
  · rw [hw]
    refine ⟨⟨fun h => absurd h hpre1, fun h => absurd ha h⟩,
      ⟨fun h => absurd h hpre2, fun h => absurd hn h⟩, fun h => absurd ha h, fun _ => rfl,
      fun _ _ => rfl⟩
  · rw [hw]
    have hmem : (updateSheetHeaders env ss d).2 ∈ pre ++ [(updateSheetHeaders env ss d).2] := by
      simp
    refine ⟨⟨fun _ => ha, fun _ => ⟨_, hmem, hcallk⟩⟩, ⟨?_, fun h => absurd hn h⟩,
      fun _ => ⟨_, hmem, hcall⟩, fun h => absurd h ha,
      fun _ title => dataRows_updateSheetHeaders env ss d title⟩
    rintro ⟨e, he, hk⟩
    simp only [List.mem_append, List.mem_singleton] at he
    rcases he with he | rfl
    · exact absurd ⟨e, he, hk⟩ hpre2
    · rw [hcallk] at hk
      exact absurd hk (by decide)
  · have ha : acts ≠ [] := by
      intro h
      rw [h] at hsub
      exact hn (List.sublist_nil.mp hsub)
    rw [hw]
    have hmem : (updateSheetHeaders env ss d).2 ∈ pre ++ [(updateSheetHeaders env ss d).2,
        ⟨.rowsAppend d (newActs.map (activityRow env.host)), false⟩] := by simp
    have hmem2 : (⟨.rowsAppend d (newActs.map (activityRow env.host)), false⟩ : Event)
        ∈ pre ++ [(updateSheetHeaders env ss d).2,
          ⟨.rowsAppend d (newActs.map (activityRow env.host)), false⟩] := by simp
    exact ⟨⟨fun _ => ha, fun _ => ⟨_, hmem, hcallk⟩⟩,
      ⟨fun _ => hn, fun _ => ⟨_, hmem2, rfl⟩⟩,
      fun _ => ⟨_, hmem, hcall⟩, fun h => absurd h ha, fun h => absurd h hn⟩
  · have ha : acts ≠ [] := by
      intro h
      rw [h] at hsub
      exact hn (List.sublist_nil.mp hsub)
    rw [hw]
    have hmem : (updateSheetHeaders env ss d).2 ∈ pre ++ [(updateSheetHeaders env ss d).2,
        ⟨.rowsAppend d (newActs.map (activityRow env.host)), true⟩] := by simp
    have hmem2 : (⟨.rowsAppend d (newActs.map (activityRow env.host)), true⟩ : Event)
        ∈ pre ++ [(updateSheetHeaders env ss d).2,
          ⟨.rowsAppend d (newActs.map (activityRow env.host)), true⟩] := by simp
    exact ⟨⟨fun _ => ha, fun _ => ⟨_, hmem, hcallk⟩⟩,
      ⟨fun _ => hn, fun _ => ⟨_, hmem2, rfl⟩⟩,
      fun _ => ⟨_, hmem, hcall⟩, fun h => absurd h ha, fun h => absurd h hn⟩

/-- C12, as stated, fails: (a) the table of `ann` holds activity 7, the page is activity 7
alone and the read of the existing ids fails: a row append is issued; (b) the table of
`ann` has a header of an older schema, the page is activity 7 and the header write fails:
row 1 is not rewritten although the fetched batch is not empty. -/
theorem write_gating_counterexample :
    ((∀ a ∈ [sampleActivity 7 "2024-03-10T07:00:00Z" "2024-03-10T08:00:00"],
        idString a ∈ activityIds sampleStoreOne "ann") ∧
      ∃ e ∈ (POST { sampleEnv [sampleActivity 7 "2024-03-10T07:00:00Z" "2024-03-10T08:00:00"]
                    with idsReadFails := true } sampleStoreOne (some sampleRequest)).trace,
        e.call.kind = .rowsAppend) ∧
    (sheetRows
      (POST { sampleEnv [sampleActivity 7 "2024-03-10T07:00:00Z" "2024-03-10T08:00:00"] with
              headerWriteFails := true } sampleStoreStale (some sampleRequest)).store "ann").head?
      = some ["Activity ID", "Name", "Type"] := by
  decide

/-- C12 (amended): in a sync of user `d` that fetched the page `fetched`, the header write is
issued exactly when `fetched` is not empty, and if that write succeeds row 1 of the table is
the rewritten header; the row append is issued exactly when the deduplicated batch is not
empty; an empty fetch leaves the spreadsheet as it was and issues neither write; a non-empty
fetch of ids that are all in the table issues the header write, no row append and leaves
all data rows as they were, provided the read of the existing ids does not fail. -/
theorem write_gating (env : Env) (ss : Spreadsheet) (req : SyncRequest) (d tok : String)
    (p : ListParams) (fetched : List Activity)
    (hd : truthyText req.displayName = some d)
    (he : (⟨.activityList tok p, true⟩ : Event) ∈ (POST env ss (some req)).trace)
    (hend : env.activitiesEndpoint tok p = some fetched) :
    ((∃ e ∈ (POST env ss (some req)).trace, e.call.kind = .headerWrite) ↔ fetched ≠ []) ∧
    ((∃ e ∈ (POST env ss (some req)).trace, e.call.kind = .rowsAppend)
      ↔ filterNew (getActivityIds env ss d).1 (sortActivities env.host fetched) ≠ []) ∧
    ((⟨.headerWrite d, true⟩ : Event) ∈ (POST env ss (some req)).trace →
      (sheetRows (POST env ss (some req)).store d).head?
        = (writeHeaderRow (sheetRows ss d)).head?) ∧
    (fetched = [] → (POST env ss (some req)).store = ss ∧
      ∀ e ∈ (POST env ss (some req)).trace,
        e.call.kind ≠ .headerWrite ∧ e.call.kind ≠ .rowsAppend) ∧
    (fetched ≠ [] → env.idsReadFails = false →
      (∀ a ∈ fetched, idString a ∈ activityIds ss d) →
      (∃ e ∈ (POST env ss (some req)).trace, e.call = .headerWrite d) ∧
      (∀ e ∈ (POST env ss (some req)).trace, e.call.kind ≠ .rowsAppend) ∧
      ∀ title, dataRows (POST env ss (some req)).store title = dataRows ss title) := by
  obtain ⟨pre, hpre, _, hpost⟩ := POST_fetched env ss req d tok p fetched hd he hend
  obtain ⟨g1, g2, g3, g4, g5⟩ := writeStep_gating env ss d (sortActivities env.host fetched)
    (filterNew (getActivityIds env ss d).1 (sortActivities env.host fetched)) pre hpre
    (filterNew_sublist _ _)
  have hsort := sortActivities_eq_nil env.host fetched
  rw [hpost]
  refine ⟨?_, g2, writeStep_header_effect env ss d _ _ pre hpre, ?_, ?_⟩
  · rw [g1, Ne, hsort]
  · intro hnil
    refine ⟨g4 (hsort.mpr hnil), ?_⟩
    intro e hmem
    constructor
    · intro hk
      exact (g1.mp ⟨e, hmem, hk⟩) (hsort.mpr hnil)
    · intro hk
      have := g2.mp ⟨e, hmem, hk⟩
      rw [hsort.mpr hnil] at this
      exact this rfl
  · intro hne hread hknown
    have hnil : filterNew (getActivityIds env ss d).1 (sortActivities env.host fetched) = [] := by
      apply filterNew_eq_nil
      intro a ha
      exact mem_activityIds_mem_read env ss d _ hread
        (hknown a ((sortActivities_perm env.host fetched).mem_iff.mp ha))
    refine ⟨g3 (fun h => hne (hsort.mp h)), ?_, g5 hnil⟩
    intro e hmem hk
    exact (g2.mp ⟨e, hmem, hk⟩) hnil

/-- C12 (amended), at a sync of `ann` that fetches activity 7, already in the table. -/
theorem write_gating_witness :
    (∃ e ∈ (POST (sampleEnv [sampleActivity 7 "2024-03-10T07:00:00Z" "2024-03-10T08:00:00"])
        sampleStoreOne (some sampleRequest)).trace, e.call = .headerWrite "ann") ∧
    ∀ e ∈ (POST (sampleEnv [sampleActivity 7 "2024-03-10T07:00:00Z" "2024-03-10T08:00:00"])
        sampleStoreOne (some sampleRequest)).trace, e.call.kind ≠ .rowsAppend :=
  have h := (write_gating
    (sampleEnv [sampleActivity 7 "2024-03-10T07:00:00Z" "2024-03-10T08:00:00"])
    sampleStoreOne sampleRequest "ann" "access-token"
    (listParams (JsInt.val 1710057600) none)
    [sampleActivity 7 "2024-03-10T07:00:00Z" "2024-03-10T08:00:00"]
    (by decide) (by set_option maxRecDepth 100000 in decide) rfl).2.2.2.2
    (by simp) rfl (by set_option maxRecDepth 100000 in decide)
  ⟨h.1, h.2.1⟩

/-! ## C13: the window in the activity-list request -/

theorem listParams_pass_through (afterTimestamp : JsInt) (beforeTimestamp : Option JsInt) :
    (listParams afterTimestamp beforeTimestamp).after = afterTimestamp ∧
    (listParams afterTimestamp beforeTimestamp).per_page = 50 ∧
    (∀ b, beforeTimestamp = some b → b.truthy = true →
      (listParams afterTimestamp beforeTimestamp).before = some b) ∧
    (beforeTimestamp = none → (listParams afterTimestamp beforeTimestamp).before = none) := by
  refine ⟨rfl, rfl, ?_, ?_⟩
  · intro b hb ht
    subst hb
    simp [listParams, ht]
  · intro hb
    subst hb
    rfl

theorem POST_list_params (env : Env) (ss : Spreadsheet) (req : SyncRequest) (d : String)
    (hd : truthyText req.displayName = some d) :
    ∀ e ∈ (POST env ss (some req)).trace, ∀ tok p, e.call = .activityList tok p →
      p = listParams (resolveWindow env ss req d).1.after
        (resolveWindow env ss req d).1.before := by
  intro e he tok p hcall
  have hk : e.call.kind = .activityList := by rw [hcall]; rfl
  obtain ⟨pre, hpre, hcase⟩ := POST_cases env ss req d hd
  have hnotpre : e ∉ pre := by
    intro h
    rcases hpre e h with h | h | h <;> simp [h] at hk
  rcases hcase with ⟨r, hr, _⟩ | ⟨tok2, _, hr⟩ | ⟨tok2, fetched, _, hr⟩
  · rw [hr] at he
    exact absurd he hnotpre
  · rw [hr] at he
    simp only [List.mem_append, List.mem_singleton] at he
    rcases he with he | rfl
    · exact absurd he hnotpre
    · simp only [Call.activityList.injEq] at hcall
      exact hcall.2.symm
  · rw [hr] at he
    obtain ⟨rest, h1, h2⟩ := writeStep_trace env ss d (sortActivities env.host fetched)
      (filterNew (getActivityIds env ss d).1 (sortActivities env.host fetched))
      (pre ++ [⟨.activityList tok2 (listParams (resolveWindow env ss req d).1.after
        (resolveWindow env ss req d).1.before), true⟩, (getActivityIds env ss d).2])
    rw [h1] at he
    simp only [List.mem_append, List.mem_cons, List.mem_singleton, List.not_mem_nil,
      or_false] at he
    rcases he with (he | rfl | rfl) | he
    · exact absurd he hnotpre
    · simp only [Call.activityList.injEq] at hcall
      exact hcall.2.symm
    · simp [getActivityIds_call, Call.kind] at hk
    · rcases h2 e he with h | h <;> simp [h] at hk

/-- C13 fails on the code: for the request of `ann` with `startDate = 1969-12-01` and
`endDate = 1969-12-31` the resolved window is `after = -2678400`, `before = 0`, which is not
`null`, and the activity-list request of the sync carries `after = -2678400`,
`per_page = 50` and no `before`: the guard of strava.js 57 tests the truthiness of
`beforeTimestamp`, and 0 is falsy. -/
theorem window_pass_through_failing_input :
    (resolveWindow (sampleEnv []) sampleStoreOne sampleRequest1969 "ann").1
      = ⟨JsInt.val (-2678400), some (JsInt.val 0)⟩ ∧
    listParams (JsInt.val (-2678400)) (some (JsInt.val 0))
      = { after := JsInt.val (-2678400), per_page := 50, before := none } ∧
    (⟨.activityList "access-token"
        { after := JsInt.val (-2678400), per_page := 50, before := none }, true⟩ : Event)
      ∈ (POST (sampleEnv []) sampleStoreOne (some sampleRequest1969)).trace := by
  refine ⟨by decide, by decide, ?_⟩
  set_option maxRecDepth 100000 in decide

/-! ## The Activity IDs of a table, row 1 included -/

theorem idString_ne_label (a : Activity) : idString a ≠ "Activity ID" := by
  intro h
  have h2 := congrArg (fun s : String => decodeDigits s.toList) h
  simp only [idString] at h2
  have h3 : decodeDigits (toString a.id).toList = a.id := decodeDigits_repr a.id
  rw [h3] at h2
  have h4 : (toString a.id) = Nat.repr a.id := rfl
  have h5 : a.id = decodeDigits "Activity ID".toList := h2
  have h6 : Nat.repr (decodeDigits "Activity ID".toList) ≠ "Activity ID" := by decide
  apply h6
  rw [← h5, ← h4]
  exact h

theorem idsOfRows_eq (rows : List Row) :
    ∃ pre, idsOfRows rows = pre ++ (rows.drop 1).filterMap (fun r => truthyText r[0]?) ∧
      (startsWithHeader rows = true → pre = []) := by
  cases rows with
  | nil => exact ⟨[], rfl, fun _ => rfl⟩
  | cons r rest =>
    refine ⟨_, rfl, ?_⟩
    intro h
    simp only [startsWithHeader, beq_iff_eq] at h
    simp [h]

theorem activityIds_eq_sheetRows (ss : Spreadsheet) (title : String) :
    activityIds ss title = ((sheetRows ss title).drop 1).filterMap (fun r => truthyText r[0]?) := by
  unfold activityIds dataRows sheetRows
  cases findSheet ss title <;> rfl

theorem tableIds_eq (ss : Spreadsheet) (title : String) :
    ∃ pre, tableIds ss title = pre ++ activityIds ss title ∧
      (headerInPlace ss title = true → pre = []) := by
  rw [activityIds_eq_sheetRows]
  exact idsOfRows_eq (sheetRows ss title)

theorem tableIds_of_header (ss : Spreadsheet) (title : String)
    (h : headerInPlace ss title = true) : tableIds ss title = activityIds ss title := by
  obtain ⟨pre, h1, h2⟩ := tableIds_eq ss title
  rw [h1, h2 h, List.nil_append]

theorem sheetRows_congr (a b : Spreadsheet) (title : String)
    (h : findSheet a title = findSheet b title) : sheetRows a title = sheetRows b title := by
  simp only [sheetRows, h]

theorem sheetRows_modifySheet_same (title : String) (f : List Row → List Row)
    (ss : Spreadsheet) (h : (findSheet ss title).isSome = true) :
    sheetRows (modifySheet title f ss) title = f (sheetRows ss title) := by
  unfold sheetRows
  rw [findSheet_modifySheet_same]
  cases hs : findSheet ss title with
  | none => simp [hs] at h
  | some sh => rfl

theorem startsWithHeader_writeHeaderRow (rows : List Row) :
    startsWithHeader (writeHeaderRow rows) = true := by
  cases rows <;> simp [writeHeaderRow, startsWithHeader, HEADERS]

theorem startsWithHeader_appendRows (new rows : List Row) (h : startsWithHeader rows = true) :
    startsWithHeader (appendRows new rows) = true := by
  cases rows with
  | nil => simp [startsWithHeader] at h
  | cons r rest => simpa [appendRows, startsWithHeader] using h

theorem headerInPlace_updateSheetHeaders (env : Env) (ss : Spreadsheet) (d : String) :
    (headerInPlace ss d = true → headerInPlace (updateSheetHeaders env ss d).1 d = true) ∧
    (env.headerWriteFails = false → (findSheet ss d).isSome = true →
      headerInPlace (updateSheetHeaders env ss d).1 d = true) := by
  have hmod : (findSheet ss d).isSome = true →
      headerInPlace (modifySheet d writeHeaderRow ss) d = true := by
    intro hs
    unfold headerInPlace
    rw [sheetRows_modifySheet_same d _ ss hs]
    exact startsWithHeader_writeHeaderRow _
  refine ⟨?_, ?_⟩
  · intro hh
    rcases updateSheetHeaders_store env ss d with ⟨h, _⟩ | ⟨hs, h, _⟩
    · rw [h]; exact hh
    · rw [h]; exact hmod hs
  · intro hf hs
    have h : (updateSheetHeaders env ss d).1 = modifySheet d writeHeaderRow ss := by
      unfold updateSheetHeaders
      cases hfs : findSheet ss d with
      | none => simp [hfs] at hs
      | some sh => simp [hf]
    rw [h]
    exact hmod hs

theorem POST_store_cases (env : Env) (ss : Spreadsheet) (body : Option SyncRequest) :
    (POST env ss body).store = ss ∨
    ∃ req d, body = some req ∧ truthyText req.displayName = some d ∧
      ((POST env ss body).store = (updateSheetHeaders env ss d).1 ∨
        ∃ rows, (findSheet (updateSheetHeaders env ss d).1 d).isSome = true ∧
          (POST env ss body).store
            = modifySheet d (appendRows rows) (updateSheetHeaders env ss d).1) := by
  cases body with
  | none => left; rfl
  | some req =>
    cases hd : truthyText req.displayName with
    | none => left; simp [POST, hd]
    | some d =>
      obtain ⟨pre, _, hcase⟩ := POST_cases env ss req d hd
      rcases hcase with ⟨r, hr, _⟩ | ⟨tok, _, hr⟩ | ⟨tok, fetched, _, hr⟩
      · left; rw [hr]
      · left; rw [hr]
      · rw [hr]
        rcases writeStep_cases env ss d (sortActivities env.host fetched)
          (filterNew (getActivityIds env ss d).1 (sortActivities env.host fetched))
          (pre ++ [⟨.activityList tok (listParams (resolveWindow env ss req d).1.after
              (resolveWindow env ss req d).1.before), true⟩, (getActivityIds env ss d).2])
          with ⟨_, _, h⟩ | ⟨_, _, h⟩ | ⟨_, h⟩ | ⟨_, _, hs, h⟩
        · left; rw [h]
        · right; exact ⟨req, d, rfl, hd, Or.inl (by rw [h])⟩
        · right; exact ⟨req, d, rfl, hd, Or.inl (by rw [h])⟩
        · right; exact ⟨req, d, rfl, hd, Or.inr ⟨_, hs, by rw [h]⟩⟩

theorem POST_sheet_or_header (env : Env) (ss : Spreadsheet) (body : Option SyncRequest)
    (title : String)
    (hhead : env.headerWriteFails = false ∨ headerInPlace ss title = true) :
    findSheet (POST env ss body).store title = findSheet ss title ∨
      headerInPlace (POST env ss body).store title = true := by
  rcases POST_store_cases env ss body with hs | ⟨req, d, _, _, hcases⟩
  · left; rw [hs]
  · by_cases ht : title = d
    · subst ht
      have happ : ∀ rows, (findSheet (updateSheetHeaders env ss title).1 title).isSome = true →
          headerInPlace (updateSheetHeaders env ss title).1 title = true →
          headerInPlace (modifySheet title (appendRows rows)
            (updateSheetHeaders env ss title).1) title = true := by
        intro rows hs hh
        unfold headerInPlace
        rw [sheetRows_modifySheet_same title _ _ hs]
        exact startsWithHeader_appendRows _ _ hh
      obtain ⟨hkeep, hnew⟩ := headerInPlace_updateSheetHeaders env ss title
      cases hfs : (findSheet ss title).isSome with
      | false =>
        left
        have hu : (updateSheetHeaders env ss title).1 = ss := by
          rcases updateSheetHeaders_store env ss title with ⟨h, _⟩ | ⟨hs, _, _⟩
          · exact h
          · rw [hfs] at hs; exact absurd hs (by decide)
        rcases hcases with h | ⟨rows, hs, h⟩
        · rw [h, hu]
        · rw [hu, hfs] at hs; exact absurd hs (by decide)
      | true =>
        right
        have hh : headerInPlace (updateSheetHeaders env ss title).1 title = true := by
          rcases hhead with hf | hh
          · exact hnew hf hfs
          · exact hkeep hh
        rcases hcases with h | ⟨rows, hs, h⟩
        · rw [h]; exact hh
        · rw [h]; exact happ rows hs hh
    · left
      rcases hcases with h | ⟨rows, hs, h⟩
      · rw [h]; exact findSheet_updateSheetHeaders_other env ss d title ht
      · rw [h, findSheet_modifySheet_other d title _ _ ht]
        exact findSheet_updateSheetHeaders_other env ss d title ht

theorem POST_tableIds_nodup (env : Env) (ss : Spreadsheet) (body : Option SyncRequest)
    (title : String) (hread : env.idsReadFails = false)
    (hbatch : ∀ t p acts, env.activitiesEndpoint t p = some acts →
      (acts.map (fun a => a.id)).Nodup)
    (hhead : env.headerWriteFails = false ∨ headerInPlace ss title = true)
    (h : (tableIds ss title).Nodup) :
    (tableIds (POST env ss body).store title).Nodup ∧
    (headerInPlace ss title = true → headerInPlace (POST env ss body).store title = true) := by
  have hact : (activityIds ss title).Nodup := by
    obtain ⟨pre, h1, _⟩ := tableIds_eq ss title
    rw [h1] at h
    exact (List.nodup_append.mp h).2.1
  have hact2 := POST_nodup env ss body title hread hbatch hact
  rcases POST_sheet_or_header env ss body title hhead with hs | hh
  · have hrows := sheetRows_congr _ _ title hs
    refine ⟨?_, ?_⟩
    · simpa only [tableIds, hrows] using h
    · intro hh
      simpa only [headerInPlace, hrows] using hh
  · refine ⟨?_, fun _ => hh⟩
    rw [tableIds_of_header _ _ hh]
    exact hact2

/-! ## C1: uniqueness of Activity IDs -/

/-- C1, as stated, fails: the table of `ann` starts with pairwise distinct ids and ends with
id 7 twice, (a) after one sync whose fetched page lists activity 7 twice, (b) after one sync
whose page lists activity 7, already in the table, while the read of the existing ids fails,
(c) after two syncs of the page of activity 7 on a sheet without any row, both with a failed
header write: the first append lands in row 1, outside the range `A2:A` that the second
sync reads. -/
theorem ids_unique_counterexample :
    ((tableIds sampleStoreEmpty "ann").Nodup ∧
      tableIds (runSyncs sampleStoreEmpty
        [(sampleEnv [sampleActivity 7 "2024-03-10T07:00:00Z" "2024-03-10T08:00:00",
                     sampleActivity 7 "2024-03-10T07:00:00Z" "2024-03-10T08:00:00"],
          sampleRequest)]) "ann" = ["7", "7"]) ∧
    ((tableIds sampleStoreOne "ann").Nodup ∧
      tableIds (runSyncs sampleStoreOne
        [({ sampleEnv [sampleActivity 7 "2024-03-10T07:00:00Z" "2024-03-10T08:00:00"] with
              idsReadFails := true },
          sampleRequest)]) "ann" = ["7", "7"]) ∧
    ((tableIds sampleStoreBlank "ann").Nodup ∧
      tableIds (runSyncs sampleStoreBlank
        [({ sampleEnv [sampleActivity 7 "2024-03-10T07:00:00Z" "2024-03-10T08:00:00"] with
              headerWriteFails := true },
          sampleRequest),
         ({ sampleEnv [sampleActivity 7 "2024-03-10T07:00:00Z" "2024-03-10T08:00:00"] with
              headerWriteFails := true },
          sampleRequest)]) "ann" = ["7", "7"]) := by
  set_option maxRecDepth 100000 in decide

/-- C1 (amended): if the Activity IDs of a table, over every row that is not the header row,
are pairwise distinct, they still are after any sequence of syncs in which every page Strava
returns has pairwise distinct ids, the read of the existing ids never fails, and either row 1
of the table is the header row at the start or no header write fails; row 1 then stays the
header row when it was one at the start. -/
theorem ids_unique_of_distinct_pages (ss : Spreadsheet) (title : String)
    (runs : List (Env × SyncRequest))
    (hread : ∀ run ∈ runs, run.1.idsReadFails = false)
    (hpages : ∀ run ∈ runs, ∀ t p acts, run.1.activitiesEndpoint t p = some acts →
      (acts.map (fun a => a.id)).Nodup)
    (hhead : headerInPlace ss title = true ∨ ∀ run ∈ runs, run.1.headerWriteFails = false)
    (h : (tableIds ss title).Nodup) :
    (tableIds (runSyncs ss runs) title).Nodup ∧
    (headerInPlace ss title = true → headerInPlace (runSyncs ss runs) title = true) := by
  induction runs generalizing ss with
  | nil => exact ⟨h, id⟩
  | cons run rest ih =>
    simp only [runSyncs]
    have hstep := POST_tableIds_nodup run.1 ss (some run.2) title
      (hread run (List.mem_cons_self _ _)) (hpages run (List.mem_cons_self _ _))
      (hhead.elim Or.inr (fun hall => Or.inl (hall run (List.mem_cons_self _ _)))) h
    have hrest := ih (POST run.1 ss (some run.2)).store
      (fun r hr => hread r (List.mem_cons_of_mem _ hr))
      (fun r hr => hpages r (List.mem_cons_of_mem _ hr))
      (hhead.elim (fun hh => Or.inl (hstep.2 hh))
        (fun hall => Or.inr (fun r hr => hall r (List.mem_cons_of_mem _ hr))))
      hstep.1
    exact ⟨hrest.1, fun hh => hrest.2 (hstep.2 hh)⟩

/-- C1 (amended), at two syncs of `ann` on a sheet without any row, whose pages overlap: ids
7 and 8, then 8 and 9. -/
theorem ids_unique_of_distinct_pages_witness :
    (tableIds sampleStoreBlank "ann").Nodup ∧
    (tableIds (runSyncs sampleStoreBlank
      [(sampleEnv [sampleActivity 7 "2024-03-10T07:00:00Z" "2024-03-10T08:00:00",
                   sampleActivity 8 "2024-03-11T07:00:00Z" "2024-03-11T08:00:00"], sampleRequest),
       (sampleEnv [sampleActivity 8 "2024-03-11T07:00:00Z" "2024-03-11T08:00:00",
                   sampleActivity 9 "2024-03-12T07:00:00Z" "2024-03-12T08:00:00"], sampleRequest)])
      "ann").Nodup :=
  ⟨by decide,
   (ids_unique_of_distinct_pages sampleStoreBlank "ann" _
    (by intro run hrun
        simp only [List.mem_cons, List.mem_singleton, List.not_mem_nil, or_false] at hrun
        rcases hrun with rfl | rfl <;> rfl)
    (by intro run hrun t p acts hacts
        simp only [List.mem_cons, List.mem_singleton, List.not_mem_nil, or_false] at hrun
        rcases hrun with rfl | rfl
        · simp only [sampleEnv, Option.some.injEq] at hacts
          subst hacts
          decide
        · simp only [sampleEnv, Option.some.injEq] at hacts
          subst hacts
          decide)
    (Or.inr (by intro run hrun
                simp only [List.mem_cons, List.mem_singleton, List.not_mem_nil,
                  or_false] at hrun
                rcases hrun with rfl | rfl <;> rfl))
    (by decide)).1⟩

/-! ## C2: a sync without new upstream activities -/

/-- C2, as stated, fails: (a) a first sync imports activity 7; a second sync fetches the same
page, whose only id is then in the table, while its read of the existing ids fails: it answers
count 1 and appends a second row of id 7; (b) on a sheet without any row, a first sync whose
header write fails puts activity 7 in row 1; a second sync of the same page, every call of
which succeeds, reads `A2:A`, does not find the id and answers count 1. -/
theorem second_sync_counterexample :
    ((∀ a ∈ [sampleActivity 7 "2024-03-10T07:00:00Z" "2024-03-10T08:00:00"],
        idString a ∈ tableIds
          (POST (sampleEnv [sampleActivity 7 "2024-03-10T07:00:00Z" "2024-03-10T08:00:00"])
            sampleStoreEmpty (some sampleRequest)).store "ann") ∧
      (POST { sampleEnv [sampleActivity 7 "2024-03-10T07:00:00Z" "2024-03-10T08:00:00"] with
                idsReadFails := true }
          (POST (sampleEnv [sampleActivity 7 "2024-03-10T07:00:00Z" "2024-03-10T08:00:00"])
            sampleStoreEmpty (some sampleRequest)).store (some sampleRequest)).response
        = .success 1 ∧
      (dataRows
        (POST { sampleEnv [sampleActivity 7 "2024-03-10T07:00:00Z" "2024-03-10T08:00:00"] with
                idsReadFails := true }
          (POST (sampleEnv [sampleActivity 7 "2024-03-10T07:00:00Z" "2024-03-10T08:00:00"])
            sampleStoreEmpty (some sampleRequest)).store (some sampleRequest)).store
          "ann").length = 2) ∧
    ((∀ a ∈ [sampleActivity 7 "2024-03-10T07:00:00Z" "2024-03-10T08:00:00"],
        idString a ∈ tableIds
          (POST { sampleEnv [sampleActivity 7 "2024-03-10T07:00:00Z" "2024-03-10T08:00:00"]
                  with headerWriteFails := true }
            sampleStoreBlank (some sampleRequest)).store "ann") ∧
      (POST (sampleEnv [sampleActivity 7 "2024-03-10T07:00:00Z" "2024-03-10T08:00:00"])
          (POST { sampleEnv [sampleActivity 7 "2024-03-10T07:00:00Z" "2024-03-10T08:00:00"]
                  with headerWriteFails := true }
            sampleStoreBlank (some sampleRequest)).store (some sampleRequest)).response
        = .success 1 ∧
      (∃ e ∈ (POST (sampleEnv [sampleActivity 7 "2024-03-10T07:00:00Z" "2024-03-10T08:00:00"])
          (POST { sampleEnv [sampleActivity 7 "2024-03-10T07:00:00Z" "2024-03-10T08:00:00"]
                  with headerWriteFails := true }
            sampleStoreBlank (some sampleRequest)).store (some sampleRequest)).trace,
        e.call.kind = .rowsAppend)) := by
  set_option maxRecDepth 100000 in decide

/-- C2 (amended): after any first sync, a second sync of user `d` that fetches a page, in an
environment where every page Strava returns has only ids already in the table of `d`, answers
success with count 0, leaves the data rows of every table as they were and issues no row
append, provided the read of the existing ids does not fail and row 1 of the table is the
header row, so that every id of the table is in the range `A2:A` that is read. -/
theorem second_sync_imports_nothing (env1 env2 : Env) (ss : Spreadsheet)
    (req1 req2 : SyncRequest) (d : String)
    (hd : truthyText req2.displayName = some d)
    (hread : env2.idsReadFails = false)
    (hhead : headerInPlace (POST env1 ss (some req1)).store d = true)
    (hfetched : ∃ e ∈ (POST env2 (POST env1 ss (some req1)).store (some req2)).trace,
      e.call.kind = .activityList ∧ e.ok = true)
    (hknown : ∀ tok params acts, env2.activitiesEndpoint tok params = some acts →
      ∀ a ∈ acts, idString a ∈ tableIds (POST env1 ss (some req1)).store d) :
    (POST env2 (POST env1 ss (some req1)).store (some req2)).response = .success 0 ∧
    (∀ title, dataRows (POST env2 (POST env1 ss (some req1)).store (some req2)).store title
      = dataRows (POST env1 ss (some req1)).store title) ∧
    (tableIds (POST env2 (POST env1 ss (some req1)).store (some req2)).store d
      = tableIds (POST env1 ss (some req1)).store d) ∧
    ∀ e ∈ (POST env2 (POST env1 ss (some req1)).store (some req2)).trace,
      e.call.kind ≠ .rowsAppend := by
  have hk := POST_known env2 _ req2 d hd hread hfetched
    (by intro tok params acts hacts a ha
        rw [← tableIds_of_header _ _ hhead]
        exact hknown tok params acts hacts a ha)
  refine ⟨hk.1, hk.2.1, ?_, hk.2.2⟩
  have hh2 : headerInPlace (POST env2 (POST env1 ss (some req1)).store (some req2)).store d
      = true := by
    rcases POST_sheet_or_header env2 (POST env1 ss (some req1)).store (some req2) d
      (Or.inr hhead) with hs | hh
    · simpa only [headerInPlace, sheetRows_congr _ _ d hs] using hhead
    · exact hh
  rw [tableIds_of_header _ _ hh2, tableIds_of_header _ _ hhead]
  simp only [activityIds, hk.2.1]

/-- C2 (amended), at two syncs of `ann` that both fetch activities 7 and 8. -/
theorem second_sync_imports_nothing_witness :
    (POST (sampleEnv [sampleActivity 8 "2024-03-11T07:00:00Z" "2024-03-11T08:00:00",
                      sampleActivity 7 "2024-03-10T07:00:00Z" "2024-03-10T08:00:00"])
        (POST (sampleEnv [sampleActivity 7 "2024-03-10T07:00:00Z" "2024-03-10T08:00:00",
                          sampleActivity 8 "2024-03-11T07:00:00Z" "2024-03-11T08:00:00"])
          sampleStoreEmpty (some sampleRequest)).store (some sampleRequest)).response
      = .success 0 :=
  (second_sync_imports_nothing
    (sampleEnv [sampleActivity 7 "2024-03-10T07:00:00Z" "2024-03-10T08:00:00",
                sampleActivity 8 "2024-03-11T07:00:00Z" "2024-03-11T08:00:00"])
    (sampleEnv [sampleActivity 8 "2024-03-11T07:00:00Z" "2024-03-11T08:00:00",
                sampleActivity 7 "2024-03-10T07:00:00Z" "2024-03-10T08:00:00"])
    sampleStoreEmpty sampleRequest sampleRequest "ann" (by decide) rfl
    (by set_option maxRecDepth 100000 in decide)
    (by set_option maxRecDepth 100000 in decide)
    (by intro tok params acts hacts
        simp only [sampleEnv, Option.some.injEq] at hacts
        subst hacts
        set_option maxRecDepth 100000 in decide)).1

end StravaSync
